import Mathlib

/-!
dbgLOG: category registry and log dispatch.

A shallow embedding of `dbgLog.h` / `dbgLog.cpp`.

* The process-wide `GDbgLogSingleton.CategoryMap` is passed explicitly as a
  value of type `CategoryMap`; every operation returns the new map.
* Calls that leave the library (formatter, visual logger, notification,
  message log, dialog, console output, on-screen message) are recorded, in
  program order, in a list of `Call`s.
* Engine state that the code only reads is collected in `Engine`.
* `float` / `double` values are rationals (no NaN, no infinities).
* The `DrawDebug*` members of the builder forward to the engine at once and leave
  the builder as it is; they are not part of the embedding.
-/

set_option linter.dupNamespace false

namespace DBG.Log

/-! ## Engine types used by the library -/

/-- Modelled from the spec: the engine name type `FName` is not part of the
repository; the spec describes a category name as a string, so a name is
identified with its text and two names are equal when their texts are. -/
structure FName where
  Text : String
deriving DecidableEq, Repr

/-- The engine constant `NAME_None`, the value of a default constructed `FName`. -/
def NAME_None : FName := ⟨"None"⟩

/-- Member `FName::IsNone`. -/
def FName.IsNone (N : FName) : Bool := N == NAME_None

/-- Member `FName::ToString`. -/
def FName.ToString (N : FName) : String := N.Text

/-- Construction `FName(FString)`; the empty text gives `NAME_None`. -/
def FName.ofString (S : String) : FName := if S = "" then NAME_None else ⟨S⟩

/-- Enumeration `ELogVerbosity::Type` (the named levels; `All` is `VeryVerbose`). -/
inductive ELogVerbosity
  | NoLogging
  | Fatal
  | Error
  | Warning
  | Display
  | Log
  | Verbose
  | VeryVerbose
deriving DecidableEq, Repr

/-- Numeric value of a verbosity level. -/
def ELogVerbosity.toNat : ELogVerbosity → Nat
  | .NoLogging => 0
  | .Fatal => 1
  | .Error => 2
  | .Warning => 3
  | .Display => 4
  | .Log => 5
  | .Verbose => 6
  | .VeryVerbose => 7

/-- Engine class `FLogCategoryBase`: name, runtime verbosity, compile time verbosity. -/
structure FLogCategoryBase where
  CategoryName : FName
  Verbosity : ELogVerbosity
  CompileTimeVerbosity : ELogVerbosity
deriving DecidableEq, Repr

/-- Member `FLogCategoryBase::GetCategoryName`. -/
def FLogCategoryBase.GetCategoryName (LC : FLogCategoryBase) : FName := LC.CategoryName

/-- Member `FLogCategoryBase::IsSuppressed`: a level above the runtime verbosity is suppressed. -/
def FLogCategoryBase.IsSuppressed (LC : FLogCategoryBase) (Verb : ELogVerbosity) : Bool :=
  !(decide (Verb.toNat ≤ LC.Verbosity.toNat))

/-- The template `FLogCategory<ELogVerbosity::Display, ELogVerbosity::All>` constructed from a name. -/
def FLogCategory (CategoryName : FName) : FLogCategoryBase :=
  ⟨CategoryName, .Display, .VeryVerbose⟩

/-- The default category: `DECLARE_LOG_CATEGORY_EXTERN(dbgLOG, Display, All)` with
`DEFINE_LOG_CATEGORY(dbgLOG)`. -/
def dbgLOG : FLogCategoryBase := FLogCategory ⟨"dbgLOG"⟩

/-! ## The category registry (`FDbgLogSingleton`) -/

/-- Nested struct `FDbgLogSingleton::FRegisteredCategory`. -/
structure FRegisteredCategory where
  bState : Bool
deriving DecidableEq, Repr

/-- The member `TMap<FName, FRegisteredCategory> CategoryMap`, as the list of its
pairs in insertion order. -/
abbrev CategoryMap := List (FName × FRegisteredCategory)

namespace CategoryMap

/-- Lookup `TMap::Find`: the value stored under the key, if any. -/
def Find : CategoryMap → FName → Option FRegisteredCategory
  | [], _ => none
  | (K, V) :: Rest, Key => if K = Key then some V else Find Rest Key

/-- Assignment through the pointer returned by `Find`: overwrite the value stored
under the key (nothing happens when the key is absent). -/
def Assign : CategoryMap → FName → FRegisteredCategory → CategoryMap
  | [], _, _ => []
  | (K, V) :: Rest, Key, New =>
    if K = Key then (K, New) :: Rest else (K, V) :: Assign Rest Key New

/-- Insertion `TMap::Emplace`: replace the pair stored under the key, or add a new pair. -/
def Emplace (M : CategoryMap) (Key : FName) (Value : FRegisteredCategory) : CategoryMap :=
  match Find M Key with
  | some _ => Assign M Key Value
  | none => M ++ [(Key, Value)]

/-- The registered names, in iteration order. -/
def Names (M : CategoryMap) : List FName := M.map Prod.fst

end CategoryMap

/-- A line written through `UE_LOG`: category, verbosity, text. -/
structure UELogLine where
  Category : FLogCategoryBase
  Verbosity : ELogVerbosity
  Text : String
deriving DecidableEq, Repr

/-- Constructor `FDbgLogSingleton::FDbgLogSingleton`: the default category is
registered immediately, enabled. The result is the initial `CategoryMap`. -/
def FDbgLogSingleton : CategoryMap :=
  CategoryMap.Emplace [] dbgLOG.GetCategoryName ⟨true⟩

/-- Member `FDbgLogSingleton::IsCategoryDisabled<bAddIfMissing>`: the returned flag
and the map afterwards. -/
def IsCategoryDisabled (bAddIfMissing : Bool) (M : CategoryMap) (CategoryName : FName) :
    Bool × CategoryMap :=
  match M.Find CategoryName with
  | some Cat => (Cat.bState == false, M)
  | none =>
    if bAddIfMissing then (false, M.Emplace CategoryName ⟨true⟩)
    else (false, M)

/-- Member `FDbgLogSingleton::SetCategoryState<bAddIfMissing>`: the map afterwards
and the warning written when the category had to be created. -/
def SetCategoryState (bAddIfMissing : Bool) (M : CategoryMap) (CategoryName : FName)
    (bNewState : Bool) : CategoryMap × List UELogLine :=
  match M.Find CategoryName with
  | some _ => (M.Assign CategoryName ⟨bNewState⟩, [])
  | none =>
    if bAddIfMissing then
      (M.Emplace CategoryName ⟨bNewState⟩,
        [⟨dbgLOG, .Warning,
          "Failed to to locate category " ++ CategoryName.ToString ++ ", making state entry anyway."⟩])
    else (M, [])

/-! ## Console commands (`dbgLog.cpp`) -/

/-- Engine operator `FString::operator==`, as used in `Input[0] == "All"`: it is not part
of the repository and compares the two texts without regard to the case of the letters
`A` to `Z`. -/
def FString.Equals (A B : String) : Bool :=
  A.toList.map Char.toLower == B.toList.map Char.toLower

/-- The loop `for (auto& [_, Cat] : CategoryMap) Cat.bState = bState;`. -/
def SetAllStates (M : CategoryMap) (bState : Bool) : CategoryMap :=
  M.map (fun P => (P.1, ⟨bState⟩))

/-- The loop `for (const FString& CommandStr : Input) SetCategoryState<true>(FName(CommandStr), bState);`. -/
def SetEachState : CategoryMap → List String → Bool → CategoryMap × List UELogLine
  | M, [], _ => (M, [])
  | M, CommandStr :: Rest, bState =>
    let R := SetCategoryState true M (FName.ofString CommandStr) bState
    let R2 := SetEachState R.1 Rest bState
    (R2.1, R.2 ++ R2.2)

/-- Console command `dbgLog.EnableCategory`. -/
def EnableCategoryCommand (M : CategoryMap) (Input : List String) : CategoryMap × List UELogLine :=
  match Input with
  | [] => (M, [⟨dbgLOG, .Warning, "Failed to enable log category as you provided no args."⟩])
  | First :: _ =>
    if FString.Equals First "All" then (SetAllStates M true, [])
    else SetEachState M Input true

/-- Console command `dbgLog.DisableCategory`. -/
def DisableCategoryCommand (M : CategoryMap) (Input : List String) : CategoryMap × List UELogLine :=
  match Input with
  | [] => (M, [⟨dbgLOG, .Warning, "Failed to Disable log category as you provided no args."⟩])
  | First :: _ =>
    if FString.Equals First "All" then (SetAllStates M false, [])
    else SetEachState M Input false

/-- Console command `dbgLog.PrintCategoriesStates`: the line written to the log. -/
def PrintDisabledCategories (M : CategoryMap) : UELogLine :=
  let Lines := M.map (fun P =>
    if P.2.bState = false then "- [Disabled] " ++ P.1.ToString ++ "\n"
    else "- [Enabled]  " ++ P.1.ToString ++ "\n")
  let CategoriesBuilder := String.join Lines
  let DisabledCategoriesNum := (M.filter (fun P => P.2.bState == false)).length
  let EnabledCategoriesNum := (M.filter (fun P => P.2.bState != false)).length
  if CategoriesBuilder.length > 0 then
    ⟨dbgLOG, .Display,
      "Categories: Enabled = " ++ toString EnabledCategoriesNum ++ ", Disabled = " ++
        toString DisabledCategoriesNum ++ " \n" ++ CategoriesBuilder⟩
  else ⟨dbgLOG, .Display, "No categories are registered."⟩

/-! ## Values carried by a log call -/

/-- Engine struct `FVector`. -/
structure FVector where
  X : ℚ
  Y : ℚ
  Z : ℚ
deriving DecidableEq

/-- Constant `FVector::ZeroVector`. -/
def FVector.ZeroVector : FVector := ⟨0, 0, 0⟩

/-- Constant `FVector::OneVector`. -/
def FVector.OneVector : FVector := ⟨1, 1, 1⟩

/-- Engine struct `FRotator`. -/
structure FRotator where
  Pitch : ℚ
  Yaw : ℚ
  Roll : ℚ
deriving DecidableEq

/-- Constant `FRotator::ZeroRotator`. -/
def FRotator.ZeroRotator : FRotator := ⟨0, 0, 0⟩

/-- Engine struct `FBox` (its two corners). -/
structure FBox where
  Min : FVector
  Max : FVector
deriving DecidableEq

/-- Engine struct `FColor`. -/
structure FColor where
  R : Nat
  G : Nat
  B : Nat
  A : Nat
deriving DecidableEq, Repr

/-- Constant `FColor::Transparent`. -/
def FColor.Transparent : FColor := ⟨0, 0, 0, 0⟩
/-- Constant `FColor::White`. -/
def FColor.White : FColor := ⟨255, 255, 255, 255⟩
/-- Constant `FColor::Yellow`. -/
def FColor.Yellow : FColor := ⟨255, 255, 0, 255⟩
/-- Constant `FColor::Red`. -/
def FColor.Red : FColor := ⟨255, 0, 0, 255⟩
/-- Constant `FColor::Blue`. -/
def FColor.Blue : FColor := ⟨0, 0, 255, 255⟩
/-- Constant `FColor::Orange`. -/
def FColor.Orange : FColor := ⟨243, 156, 18, 255⟩

/-- An engine object, known by its identity; a pointer is an `Option UObject`. -/
abbrev UObject := Nat

/-- Enumeration `ENetMode`. -/
inductive ENetMode
  | NM_Standalone
  | NM_DedicatedServer
  | NM_ListenServer
  | NM_Client
  | NM_MAX
deriving DecidableEq, Repr

/-- What the code reads from a `UWorld`: its net mode and, when the engine has a
world context for it, that context's `PIEInstance`. -/
structure UWorld where
  NetMode : ENetMode
  WorldContext : Option Int
deriving DecidableEq, Repr

/-- What `VisualLogBounds` reads from a valid actor. -/
structure AActor where
  ComponentsBoundingBox : FBox
  ActorLocation : FVector
  ActorRotation : FRotator
deriving DecidableEq

/-- Enumeration `EAppMsgType::Type`. -/
inductive EAppMsgType
  | Ok
  | YesNo
  | OkCancel
  | YesNoCancel
  | CancelRetryContinue
  | YesNoYesAllNoAll
  | YesNoYesAllNoAllCancel
  | YesNoYesAll
deriving DecidableEq, Repr

/-- Enumeration `EAppReturnType::Type`. -/
inductive EAppReturnType
  | No
  | Yes
  | YesAll
  | NoAll
  | Cancel
  | Ok
  | Retry
  | Continue
deriving DecidableEq, Repr

/-- Enumeration `EMessageSeverity::Type` (the three levels the code uses). -/
inductive EMessageSeverity
  | Error
  | Warning
  | Info
deriving DecidableEq, Repr

/-- Enumeration `EDbgLogOutput`. -/
inductive EDbgLogOutput
  | Con
  | Scr
  | Both
deriving DecidableEq, Repr

/-- Enumeration `DbgLogArgs::EDbgVisualLogShape`. -/
inductive EDbgVisualLogShape
  | None
  | Sphere
  | Box
  | Cone
  | Line
  | Arrow
  | Disk
  | Capsule
deriving DecidableEq, Repr

/-- The value of `std::source_location` read by the code. -/
structure SourceLocation where
  file_name : String
  line : Nat
  function_name : String
deriving DecidableEq, Repr

/-! ## The builder `DbgLogArgs` -/

/-- Struct `DbgLogArgs` with its member initialisers. A pointer member is an
`Option`, `nullptr` being `none`; the callback `AppMessageResponse` is known by
an identifier. -/
structure DbgLogArgs where
  LogCategory : Option FLogCategoryBase := none
  WCOResultValue : Option UWorld := none
  VisualLoggerOwnerValue : Option UObject := none
  DateTimeFormat : Option String := none
  AppMessageResponse : Option Nat := none
  PrefixValue : String := ""
  LogCategoryName : FName := NAME_None
  ScreenColorValue : FColor := FColor.Transparent
  ScreenDurationValue : ℚ := -1
  ScreenKeyValue : Option Int := none
  OutputDestinationValue : EDbgLogOutput := .Con
  VisualLogShapeValue : EDbgVisualLogShape := .None
  VisualLogShapeLocationValue : FVector := FVector.ZeroVector
  VisualLogShapeRotationValue : FRotator := FRotator.ZeroRotator
  VisualLogShapeScaleValue : FVector := FVector.OneVector
  VisualLogVectorOne : FVector := FVector.ZeroVector
  VisualLogVectorTwo : FVector := FVector.ZeroVector
  VisualLogShapeColorValue : FColor := FColor.Orange
  bLogConditionValue : Bool := true
  bLogSourceLocation : Bool := false
  bLogToSlateNotify : Bool := false
  bOnlyLogToSlateNotify : Bool := false
  bLogToMessageDialog : Bool := false
  bOnlyLogToMessageDialog : Bool := false
  bLogToEditorMessageLog : Bool := false
  bShowEditorMessageLogImmediately : Bool := false
  bLogDateAndTime : Bool := false
  bDrawWireframeValue : Bool := false
  bOnlyUseVisualLogger : Bool := false
  AppMsgType : EAppMsgType := .Ok
  VerbosityValue : ELogVerbosity := .Display
deriving DecidableEq

namespace DbgLogArgs

/-- Setter `Category(FName CategoryName)`. -/
def Category (A : DbgLogArgs) (CategoryName : FName) : DbgLogArgs :=
  { A with LogCategoryName := CategoryName }

/-- Setter `Category(const FLogCategoryBase& InCategory)`. -/
def CategoryRef (A : DbgLogArgs) (InCategory : FLogCategoryBase) : DbgLogArgs :=
  { A with LogCategory := some InCategory }

/-- Setter `Verbosity`. -/
def Verbosity (A : DbgLogArgs) (Verb : ELogVerbosity) : DbgLogArgs :=
  { A with VerbosityValue := Verb }

/-- Setter `Verbose`. -/
def Verbose (A : DbgLogArgs) : DbgLogArgs := { A with VerbosityValue := .Verbose }

/-- Setter `Warn`. -/
def Warn (A : DbgLogArgs) : DbgLogArgs := { A with VerbosityValue := .Warning }

/-- Setter `Error`. -/
def Error (A : DbgLogArgs) : DbgLogArgs := { A with VerbosityValue := .Error }

/-- Setter `Fatal`. -/
def Fatal (A : DbgLogArgs) : DbgLogArgs := { A with VerbosityValue := .Fatal }

/-- Setter `WCO`; the argument is the world the engine resolves the context object to. -/
def WCO (A : DbgLogArgs) (World : Option UWorld) : DbgLogArgs :=
  { A with WCOResultValue := World }

/-- Setter `Screen`. -/
def Screen (A : DbgLogArgs) : DbgLogArgs := { A with OutputDestinationValue := .Scr }

/-- Setter `Console`. -/
def Console (A : DbgLogArgs) : DbgLogArgs := { A with OutputDestinationValue := .Con }

/-- Setter `ScreenAndConsole`. -/
def ScreenAndConsole (A : DbgLogArgs) : DbgLogArgs := { A with OutputDestinationValue := .Both }

/-- Setter `Prefix`. -/
def Prefix (A : DbgLogArgs) (PrefixStr : String) : DbgLogArgs :=
  { A with PrefixValue := PrefixStr }

/-- Setter `ScrnColor`. -/
def ScrnColor (A : DbgLogArgs) (Col : FColor) : DbgLogArgs := { A with ScreenColorValue := Col }

/-- Setter `ScrnDuration`. -/
def ScrnDuration (A : DbgLogArgs) (Duration : ℚ) : DbgLogArgs :=
  { A with ScreenDurationValue := Duration }

/-- Setter `ScrnKey`. -/
def ScrnKey (A : DbgLogArgs) (Key : Int) : DbgLogArgs := { A with ScreenKeyValue := some Key }

/-- Setter `Condition`. -/
def Condition (A : DbgLogArgs) (Cond : Bool) : DbgLogArgs := { A with bLogConditionValue := Cond }

/-- Setter `LogSourceLoc`. -/
def LogSourceLoc (A : DbgLogArgs) : DbgLogArgs := { A with bLogSourceLocation := true }

/-- Setter `LogDateAndTime()`. -/
def LogDateAndTime (A : DbgLogArgs) : DbgLogArgs := { A with bLogDateAndTime := true }

/-- Setter `LogDateAndTime(Format)`. -/
def LogDateAndTimeFormat (A : DbgLogArgs) (Format : String) : DbgLogArgs :=
  { A with bLogDateAndTime := true, DateTimeFormat := some Format }

/-- Setter `LogToSlateNotify`. -/
def LogToSlateNotify (A : DbgLogArgs) (bOnlyUseThisLog : Bool := false) : DbgLogArgs :=
  { A with bOnlyLogToSlateNotify := bOnlyUseThisLog, bLogToSlateNotify := true }

/-- Setter `LogToMessageDialog`. -/
def LogToMessageDialog (A : DbgLogArgs) (Response : Option Nat) (MsgType : EAppMsgType)
    (bOnlyUseThisLog : Bool := false) : DbgLogArgs :=
  { A with AppMessageResponse := Response, AppMsgType := MsgType,
           bOnlyLogToMessageDialog := bOnlyUseThisLog, bLogToMessageDialog := true }

/-- Setter `LogToEditorMessageLog`. -/
def LogToEditorMessageLog (A : DbgLogArgs)
    (bShouldShowEditorMessageLogImmediately : Bool := false) : DbgLogArgs :=
  { A with bLogToEditorMessageLog := true,
           bShowEditorMessageLogImmediately := bShouldShowEditorMessageLogImmediately }

/-- Setter `VisualLogText`. -/
def VisualLogText (A : DbgLogArgs) (Owner : Option UObject) (bOnlyLogVisually : Bool := true) :
    DbgLogArgs :=
  { A with VisualLoggerOwnerValue := Owner, VisualLogShapeValue := .None,
           bOnlyUseVisualLogger := bOnlyLogVisually }

/-- Setter `VisualLogSphere`. -/
def VisualLogSphere (A : DbgLogArgs) (Owner : Option UObject) (Location : FVector) (Radius : ℚ)
    (bDrawWireframe : Bool := false) (bOnlyLogVisually : Bool := true) : DbgLogArgs :=
  if A.VisualLoggerOwnerValue = none then
    { A with VisualLoggerOwnerValue := Owner, VisualLogShapeValue := .Sphere,
             VisualLogShapeLocationValue := Location,
             VisualLogVectorOne := { A.VisualLogVectorOne with X := Radius },
             bDrawWireframeValue := bDrawWireframe, bOnlyUseVisualLogger := bOnlyLogVisually }
  else A

/-- Setter `VisualLogBox`. -/
def VisualLogBox (A : DbgLogArgs) (Owner : Option UObject) (MinExtent MaxExtent Location : FVector)
    (Rotation : FRotator := FRotator.ZeroRotator) (BoxColor : FColor := FColor.Orange)
    (bDrawWireframe : Bool := false) (bOnlyLogVisually : Bool := true) : DbgLogArgs :=
  if A.VisualLoggerOwnerValue = none then
    { A with VisualLoggerOwnerValue := Owner, VisualLogShapeValue := .Box,
             VisualLogShapeColorValue := BoxColor,
             VisualLogShapeLocationValue := Location, VisualLogShapeRotationValue := Rotation,
             VisualLogVectorOne := MinExtent, VisualLogVectorTwo := MaxExtent,
             bDrawWireframeValue := bDrawWireframe, bOnlyUseVisualLogger := bOnlyLogVisually }
  else A

/-- Setter `VisualLogBounds`; an actor that is not valid is `none`. -/
def VisualLogBounds (A : DbgLogArgs) (Owner : Option UObject) (ActorToGetBoundsFrom : Option AActor)
    (BoundsColor : FColor := FColor.Orange) (bDrawWireframe : Bool := false)
    (bOnlyLogVisually : Bool := true) : DbgLogArgs :=
  match ActorToGetBoundsFrom with
  | some Actor =>
    if A.VisualLoggerOwnerValue = none then
      let B := Actor.ComponentsBoundingBox
      A.VisualLogBox Owner B.Min B.Max Actor.ActorLocation Actor.ActorRotation BoundsColor
        bDrawWireframe bOnlyLogVisually
    else A
  | none => A

/-- Setter `VisualLogCone`. -/
def VisualLogCone (A : DbgLogArgs) (Owner : Option UObject) (Location Direction : FVector)
    (Length Angle : ℚ) (ConeColor : FColor := FColor.Orange) (bDrawWireframe : Bool := false)
    (bOnlyLogVisually : Bool := true) : DbgLogArgs :=
  if A.VisualLoggerOwnerValue = none then
    { A with VisualLoggerOwnerValue := Owner, VisualLogShapeValue := .Cone,
             VisualLogShapeColorValue := ConeColor,
             VisualLogShapeLocationValue := Location,
             VisualLogVectorOne := Direction,
             VisualLogVectorTwo := { A.VisualLogVectorTwo with X := Length, Y := Angle },
             bDrawWireframeValue := bDrawWireframe, bOnlyUseVisualLogger := bOnlyLogVisually }
  else A

/-- Setter `VisualLogLine`. -/
def VisualLogLine (A : DbgLogArgs) (Owner : Option UObject) (Start End : FVector)
    (Thickness : ℚ := 1) (LineColor : FColor := FColor.Orange) (bOnlyLogVisually : Bool := true) :
    DbgLogArgs :=
  if A.VisualLoggerOwnerValue = none then
    { A with VisualLoggerOwnerValue := Owner, VisualLogShapeValue := .Line,
             VisualLogShapeColorValue := LineColor,
             VisualLogShapeLocationValue := Start,
             VisualLogVectorOne := End,
             VisualLogVectorTwo := { A.VisualLogVectorTwo with X := Thickness },
             bOnlyUseVisualLogger := bOnlyLogVisually }
  else A

/-- Setter `VisualLogArrow`. -/
def VisualLogArrow (A : DbgLogArgs) (Owner : Option UObject) (Start End : FVector)
    (ArrowColor : FColor := FColor.Orange) (bOnlyLogVisually : Bool := true) : DbgLogArgs :=
  if A.VisualLoggerOwnerValue = none then
    { A with VisualLoggerOwnerValue := Owner, VisualLogShapeValue := .Arrow,
             VisualLogShapeColorValue := ArrowColor,
             VisualLogShapeLocationValue := Start,
             VisualLogVectorOne := End,
             bOnlyUseVisualLogger := bOnlyLogVisually }
  else A

/-- Setter `VisualLogDisk`; `Thickness` is a `uint16`. -/
def VisualLogDisk (A : DbgLogArgs) (Owner : Option UObject) (Start UpDir : FVector) (Radius : ℚ)
    (DiskColor : FColor := FColor.Orange) (Thickness : Nat := 1) (bOnlyLogVisually : Bool := true) :
    DbgLogArgs :=
  if A.VisualLoggerOwnerValue = none then
    { A with VisualLoggerOwnerValue := Owner, VisualLogShapeValue := .Disk,
             VisualLogShapeColorValue := DiskColor,
             VisualLogShapeLocationValue := Start,
             VisualLogVectorOne := UpDir,
             VisualLogVectorTwo := { A.VisualLogVectorTwo with X := Radius, Y := (Thickness % 65536 : Nat) },
             bOnlyUseVisualLogger := bOnlyLogVisually }
  else A

/-- Setter `VisualLogCapsule`. -/
def VisualLogCapsule (A : DbgLogArgs) (Owner : Option UObject) (Base : FVector) (Rotation : FRotator)
    (Radius HalfHeight : ℚ) (CapsuleColor : FColor := FColor.Orange) (bDrawWireframe : Bool := false)
    (bOnlyLogVisually : Bool := true) : DbgLogArgs :=
  if A.VisualLoggerOwnerValue = none then
    { A with VisualLoggerOwnerValue := Owner, VisualLogShapeValue := .Capsule,
             VisualLogShapeColorValue := CapsuleColor,
             VisualLogShapeLocationValue := Base, VisualLogShapeRotationValue := Rotation,
             VisualLogVectorOne := { A.VisualLogVectorOne with X := HalfHeight, Y := Radius },
             bDrawWireframeValue := bDrawWireframe, bOnlyUseVisualLogger := bOnlyLogVisually }
  else A

end DbgLogArgs

/-! ## Outgoing calls and engine state -/

/-- The `FVisualLogger` entry point called and the shape arguments passed to it.
On engine versions up to 5.4 the code calls the `GeometryShapeLogf` /
`GeometryBoxLogf` overloads, which take no wireframe flag: `bWireframe` is then
`none`. -/
inductive FVisualLoggerShape
  | CategorizedLogf
  | SphereLogf (Center : FVector) (Radius : ℚ) (Color : FColor) (bWireframe : Option Bool)
  | BoxLogf (Box : FBox) (Scale : FVector) (Rotation : FRotator) (Translation : FVector)
      (Color : FColor) (bWireframe : Option Bool)
  | ConeLogf (Origin Direction : FVector) (Length Angle : ℚ) (Color : FColor)
      (bWireframe : Option Bool)
  | SegmentLogf (Start End : FVector) (Color : FColor) (Thickness : Nat)
  | ArrowLogf (Start End : FVector) (Color : FColor)
  | CircleLogf (Center UpAxis : FVector) (Radius : ℚ) (Color : FColor) (Thickness : Nat)
  | CapsuleLogf (Base : FVector) (HalfHeight Radius : ℚ) (Rotation : FRotator) (Color : FColor)
      (bWireframe : Option Bool)
deriving DecidableEq

/-- A call made by `Log` to a collaborator outside the library. -/
inductive Call
  /-- The formatter: `FormatMessage(Format, Args...)`. -/
  | FormatMessage (Format : String) (Args : List String)
  /-- The visual logger (spatial sink). -/
  | VisualLogger (Owner : UObject) (Category : FLogCategoryBase) (Verbosity : ELogVerbosity)
      (Shape : FVisualLoggerShape) (Message : String)
  /-- The notification sink: `FSlateNotificationManager::AddNotification`. -/
  | AddNotification (Message : String) (ExpireDuration : ℚ)
  /-- The persistent-log sink: `FMessageLog(Name).Info / Warning / Error`. -/
  | MessageLog (CategoryName : FName) (Severity : EMessageSeverity) (Message : String)
  /-- The persistent-log sink: `FMessageLog(Name).Open(Severity)`. -/
  | MessageLogOpen (CategoryName : FName) (Severity : EMessageSeverity)
  /-- The dialog sink: `FMessageDialog::Open`. -/
  | MessageDialogOpen (MsgType : EAppMsgType) (Message : String) (Title : FName)
  /-- The caller's response callback. -/
  | AppMessageResponse (Callback : Nat) (Response : EAppReturnType)
  /-- The console sink: the local function `OutputLog`. -/
  | OutputLog (Loc : SourceLocation) (LC : FLogCategoryBase) (Verb : ELogVerbosity) (Msg : String)
  /-- The overlay sink: `GEngine->AddOnScreenDebugMessage`. -/
  | AddOnScreenDebugMessage (Key : Nat) (TimeToDisplay : ℚ) (DisplayColor : FColor)
      (Message : String)
deriving DecidableEq

/-- Whether a call goes to a sink (every call but the formatter's). -/
def Call.IsSink : Call → Bool
  | .FormatMessage _ _ => false
  | _ => true

/-- The category name a call carries, for the calls that carry one. -/
def Call.CategoryName : Call → Option FName
  | .VisualLogger _ LC _ _ _ => some LC.GetCategoryName
  | .MessageLog Name _ _ => some Name
  | .MessageLogOpen Name _ => some Name
  | .MessageDialogOpen _ _ Title => some Title
  | .OutputLog _ LC _ _ => some LC.GetCategoryName
  | _ => none

/-- What `Log` reads from outside the library. `FormatMessage` is the formatter of
`Private/LLog.h`; `Now` is `FDateTime::Now().ToString`, with or without a format;
`MessageDialogOpen` is the answer the user gives to a dialog. -/
structure Engine where
  FormatMessage : String → List String → String
  Now : Option String → String
  MessageDialogOpen : EAppMsgType → String → FName → EAppReturnType
  bENABLE_VISUAL_LOG : Bool
  bIsRecording : Bool
  bUE_VERSION_NEWER_THAN_5_4_0 : Bool
  bGEngine : Bool
  PIEID : Int

/-! ## The dispatcher `DBG::Log::Log` -/

/-- Local function `NetModeToStr`. -/
def NetModeToStr : ENetMode → String
  | .NM_Standalone => "Standalone"
  | .NM_DedicatedServer => "Dedicated Server"
  | .NM_ListenServer => "Listen Server"
  | .NM_Client => "Client"
  | .NM_MAX => "MAX"

/-- Local function `WorldToString`. -/
def WorldToString (W : UWorld) : String :=
  match W.WorldContext with
  | none => "NullWorld"
  | some PIEInstance => NetModeToStr W.NetMode ++ " | Instance: " ++ toString PIEInstance

/-- Engine function `FPaths::GetCleanFilename`: the text after the last path separator. -/
def GetCleanFilename (Path : String) : String :=
  String.mk ((Path.toList.reverse.takeWhile
    (fun C => C != '/' && C != Char.ofNat 92)).reverse)

/-- The characters of a text after every occurrence of a non-empty pattern is replaced,
scanning from the left; `Skip` counts the characters of the current occurrence still to
be dropped. -/
def ReplaceChars (Pattern Replacement : List Char) : Nat → List Char → List Char
  | _, [] => []
  | Skip + 1, _ :: Rest => ReplaceChars Pattern Replacement Skip Rest
  | 0, C :: Rest =>
    if Pattern.isPrefixOf (C :: Rest) then
      Replacement ++ ReplaceChars Pattern Replacement (Pattern.length - 1) Rest
    else C :: ReplaceChars Pattern Replacement 0 Rest

/-- Member `FString::ReplaceInline` (the text after the replacement). -/
def ReplaceInline (S From To : String) : String :=
  if From = "" then S else String.mk (ReplaceChars From.toList To.toList 0 S.toList)

/-- Local function `SourceLocationToStr`. -/
def SourceLocationToStr (L : SourceLocation) : String :=
  let FuncName := ReplaceInline L.function_name " __cdecl" ""
  "[File: " ++ GetCleanFilename L.file_name ++ " (" ++ toString L.line ++ "), " ++ FuncName ++ "]"

/-- The text collected in `MessagePrefixBuilder`. -/
def MessagePrefixBuilder (E : Engine) (Location : SourceLocation) (LogArgs : DbgLogArgs) : String :=
  let DateAndTime :=
    if LogArgs.bLogDateAndTime then
      match LogArgs.DateTimeFormat with
      | some Fmt => "(" ++ E.Now (some Fmt) ++ ") "
      | none => "(" ++ E.Now none ++ ") "
    else ""
  let PrefixText :=
    if LogArgs.PrefixValue.length > 0 then "[" ++ LogArgs.PrefixValue ++ "] " else ""
  let Context :=
    match LogArgs.WCOResultValue with
    | some W =>
      if LogArgs.bLogSourceLocation then
        "[" ++ WorldToString W ++ "] " ++ SourceLocationToStr Location ++ " "
      else "[" ++ WorldToString W ++ "] "
    | none =>
      if LogArgs.bLogSourceLocation then SourceLocationToStr Location ++ " " else ""
  DateAndTime ++ PrefixText ++ Context

/-- The conversion `static_cast<uint16>` of a floating point value: the fraction is
dropped (rounding toward zero). C++ defines the result only when that integer lies within
`uint16`; outside it the value is the one the compiled code gives, the low 16 bits of the
integer (so -1.5 gives 65535). -/
def CastUInt16 (V : ℚ) : Nat :=
  ((if 0 ≤ V then Rat.floor V else -(Rat.floor (-V))) % 65536).toNat

/-- The `switch (LogArgs.VisualLogShapeValue)` of the visual logger block. On engine
versions newer than 5.4 the `Cone` case has no `break` and runs on into the `Line` case. -/
def VisualLogSwitch (E : Engine) (LogArgs : DbgLogArgs) (Owner : UObject)
    (LogCategory : FLogCategoryBase) (Message : String) : List Call :=
  let Wire : Option Bool :=
    if E.bUE_VERSION_NEWER_THAN_5_4_0 then some LogArgs.bDrawWireframeValue else none
  let Emit := fun (S : FVisualLoggerShape) =>
    Call.VisualLogger Owner LogCategory LogArgs.VerbosityValue S Message
  let LineCase := Emit (.SegmentLogf LogArgs.VisualLogShapeLocationValue LogArgs.VisualLogVectorOne
    LogArgs.VisualLogShapeColorValue (CastUInt16 LogArgs.VisualLogVectorTwo.X))
  match LogArgs.VisualLogShapeValue with
  | .None => [Emit .CategorizedLogf]
  | .Sphere =>
    [Emit (.SphereLogf LogArgs.VisualLogShapeLocationValue LogArgs.VisualLogVectorOne.X
      LogArgs.VisualLogShapeColorValue Wire)]
  | .Box =>
    [Emit (.BoxLogf ⟨LogArgs.VisualLogVectorOne, LogArgs.VisualLogVectorTwo⟩
      LogArgs.VisualLogShapeScaleValue LogArgs.VisualLogShapeRotationValue
      LogArgs.VisualLogShapeLocationValue LogArgs.VisualLogShapeColorValue Wire)]
  | .Cone =>
    let ConeCase := Emit (.ConeLogf LogArgs.VisualLogShapeLocationValue LogArgs.VisualLogVectorOne
      LogArgs.VisualLogVectorTwo.X LogArgs.VisualLogVectorTwo.Y
      LogArgs.VisualLogShapeColorValue Wire)
    if E.bUE_VERSION_NEWER_THAN_5_4_0 then [ConeCase, LineCase] else [ConeCase]
  | .Line => [LineCase]
  | .Arrow =>
    [Emit (.ArrowLogf LogArgs.VisualLogShapeLocationValue LogArgs.VisualLogVectorOne
      LogArgs.VisualLogShapeColorValue)]
  | .Disk =>
    [Emit (.CircleLogf LogArgs.VisualLogShapeLocationValue LogArgs.VisualLogVectorOne
      LogArgs.VisualLogVectorTwo.X LogArgs.VisualLogShapeColorValue
      (CastUInt16 LogArgs.VisualLogVectorTwo.Y))]
  | .Capsule =>
    [Emit (.CapsuleLogf LogArgs.VisualLogShapeLocationValue LogArgs.VisualLogVectorOne.X
      LogArgs.VisualLogVectorOne.Y LogArgs.VisualLogShapeRotationValue
      LogArgs.VisualLogShapeColorValue Wire)]

/-- The block under `#if ENABLE_VISUAL_LOG`. -/
def VisualLogBlock (E : Engine) (LogArgs : DbgLogArgs) (LogCategory : FLogCategoryBase)
    (Message : String) : List Call :=
  if E.bENABLE_VISUAL_LOG then
    match LogArgs.VisualLoggerOwnerValue with
    | some Owner =>
      if E.bIsRecording then VisualLogSwitch E LogArgs Owner LogCategory Message else []
    | none => []
  else []

/-- The body shared by the cases of `switch (LogArgs.VerbosityValue)`; the cases differ
only in the colour, the two durations and the message-log severity. The result is the
updated local copy of the arguments and the calls made. -/
def VerbosityCase (LogArgs : DbgLogArgs) (LogCategory : FLogCategoryBase) (Message : String)
    (Color : FColor) (ScreenDuration ExpireDuration : ℚ) (Severity : EMessageSeverity) :
    DbgLogArgs × List Call :=
  let A1 := if LogArgs.ScreenColorValue = FColor.Transparent then LogArgs.ScrnColor Color else LogArgs
  let A2 := if A1.ScreenDurationValue < 0 then A1.ScrnDuration ScreenDuration else A1
  let Notify := if A2.bLogToSlateNotify then [Call.AddNotification Message ExpireDuration] else []
  let MsgLog :=
    if A2.bLogToEditorMessageLog then
      Call.MessageLog LogCategory.GetCategoryName Severity Message ::
        (if A2.bShowEditorMessageLogImmediately then
          [Call.MessageLogOpen LogCategory.GetCategoryName Severity] else [])
    else []
  (A2, Notify ++ MsgLog)

/-- The statement `switch (LogArgs.VerbosityValue)`. -/
def VerbositySwitch (LogArgs : DbgLogArgs) (LogCategory : FLogCategoryBase) (Message : String) :
    DbgLogArgs × List Call :=
  match LogArgs.VerbosityValue with
  | .Display => VerbosityCase LogArgs LogCategory Message FColor.White 10 6 .Info
  | .Warning => VerbosityCase LogArgs LogCategory Message FColor.Yellow 20 15 .Warning
  | .Error => VerbosityCase LogArgs LogCategory Message FColor.Red 30 30 .Error
  | .Fatal => VerbosityCase LogArgs LogCategory Message FColor.Blue 30 30 .Error
  | _ => VerbosityCase LogArgs LogCategory Message FColor.White 10 6 .Info

/-- The block `if (LogArgs.bLogToMessageDialog)`. -/
def MessageDialogBlock (E : Engine) (LogArgs : DbgLogArgs) (LogCategory : FLogCategoryBase)
    (Message : String) : List Call :=
  if LogArgs.bLogToMessageDialog then
    let Response := E.MessageDialogOpen LogArgs.AppMsgType Message LogCategory.GetCategoryName
    Call.MessageDialogOpen LogArgs.AppMsgType Message LogCategory.GetCategoryName ::
      (match LogArgs.AppMessageResponse with
       | some Callback => [Call.AppMessageResponse Callback Response]
       | none => [])
  else []

/-- The computation of `Key`: the sum is formed in 32-bit unsigned arithmetic and
widened to `uint64`. -/
def ScreenKey (E : Engine) (UniqueIdentifier : Int) (Location : SourceLocation)
    (LogArgs : DbgLogArgs) : Nat :=
  if LogArgs.OutputDestinationValue ≠ .Con then
    (((Location.line : Int) + E.PIEID + UniqueIdentifier +
      (match LogArgs.ScreenKeyValue with
       | some Key => Key
       | none => 0)) % 4294967296).toNat
  else 0

/-- What the engine is asked to do by the body of `OutputLog`. -/
inductive BasicLogCall
  | BasicFatalLog
  | BasicLog
deriving DecidableEq, Repr

/-- The body of the local function `OutputLog`: the engine call it makes, if any. -/
def OutputLog (LC : FLogCategoryBase) (Verb : ELogVerbosity) : Option BasicLogCall :=
  if Verb = .Fatal then some .BasicFatalLog
  else if Verb.toNat ≤ ELogVerbosity.VeryVerbose.toNat then
    if Verb.toNat ≤ LC.CompileTimeVerbosity.toNat then
      if !LC.IsSuppressed Verb then some .BasicLog else none
    else none
  else none

/-- The statement `switch (LogArgs.OutputDestinationValue)`. The console call of a
`Fatal` message is `BasicFatalLog`, which ends the process inside `OutputLog`: in the
case `Both` the statements after that call are then not run. -/
def OutputSwitch (E : Engine) (Key : Nat) (Location : SourceLocation) (LogArgs : DbgLogArgs)
    (LogCategory : FLogCategoryBase) (Message : String) : List Call :=
  let OnScreen :=
    if E.bGEngine then
      [Call.AddOnScreenDebugMessage Key LogArgs.ScreenDurationValue LogArgs.ScreenColorValue Message]
    else []
  match LogArgs.OutputDestinationValue with
  | .Con => [Call.OutputLog Location LogCategory LogArgs.VerbosityValue Message]
  | .Scr => OnScreen
  | .Both =>
    if LogArgs.bLogToEditorMessageLog = false then
      if OutputLog LogCategory LogArgs.VerbosityValue = some .BasicFatalLog then
        [Call.OutputLog Location LogCategory LogArgs.VerbosityValue Message]
      else Call.OutputLog Location LogCategory LogArgs.VerbosityValue Message :: OnScreen
    else OnScreen

/-- The category `Log` works out: the one passed in, one created from the runtime
name, or the default one. -/
def ResolveCategory (LogArgs : DbgLogArgs) : FLogCategoryBase :=
  match LogArgs.LogCategory with
  | some Category => Category
  | none =>
    if LogArgs.LogCategoryName.IsNone = false ∧ LogArgs.LogCategoryName ≠ dbgLOG.GetCategoryName then
      let CategoryName : FName := FName.ofString ("dbg" ++ LogArgs.LogCategoryName.ToString)
      FLogCategory CategoryName
    else dbgLOG

/-- Function `DBG::Log::Log`: the category map afterwards and the calls made, in order. -/
def Log (E : Engine) (M : CategoryMap) (UniqueIdentifier : Int) (Location : SourceLocation)
    (LogArgs : DbgLogArgs) (Format : String) (Args : List String) : CategoryMap × List Call :=
  if LogArgs.VerbosityValue = .NoLogging ∨ LogArgs.bLogConditionValue = false then (M, [])
  else
    let LogCategory := ResolveCategory LogArgs
    let Disabled := IsCategoryDisabled true M LogCategory.GetCategoryName
    if Disabled.1 then (Disabled.2, [])
    else
      let Formatted := E.FormatMessage Format Args
      let Message := MessagePrefixBuilder E Location LogArgs ++ Formatted
      let Visual := VisualLogBlock E LogArgs LogCategory Message
      if LogArgs.VisualLoggerOwnerValue.isSome ∧ LogArgs.bOnlyUseVisualLogger then
        (Disabled.2, Call.FormatMessage Format Args :: Visual)
      else
        let Switched := VerbositySwitch LogArgs LogCategory Message
        let Dialog := MessageDialogBlock E Switched.1 LogCategory Message
        if Switched.1.bOnlyLogToSlateNotify ∨ Switched.1.bOnlyLogToMessageDialog
            ∨ (Switched.1.bLogToEditorMessageLog ∧ Switched.1.OutputDestinationValue = .Con) then
          (Disabled.2, Call.FormatMessage Format Args :: (Visual ++ Switched.2 ++ Dialog))
        else
          let Key := ScreenKey E UniqueIdentifier Location Switched.1
          (Disabled.2, Call.FormatMessage Format Args ::
            (Visual ++ Switched.2 ++ Dialog ++
              OutputSwitch E Key Location Switched.1 LogCategory Message))

/-- An engine with a toy formatter (the template followed by the arguments), used to
evaluate the definitions on concrete inputs. -/
def Engine.Example : Engine where
  FormatMessage := fun Format Args => Format ++ String.join Args
  Now := fun _ => "2025.04.03-06.42.29"
  MessageDialogOpen := fun _ _ _ => .Ok
  bENABLE_VISUAL_LOG := true
  bIsRecording := true
  bUE_VERSION_NEWER_THAN_5_4_0 := true
  bGEngine := true
  PIEID := 0

/-- A source location used to evaluate the definitions on concrete inputs. -/
def SourceLocation.Example : SourceLocation := ⟨"Game/Player.cpp", 42, "void APlayer::Tick()"⟩

/-- Every call of the list that carries a category name carries this one. -/
def CallsCarry (Name : FName) (L : List Call) : Prop :=
  ∀ c ∈ L, ∀ N : FName, c.CategoryName = some N → N = Name

/-- An engine like `Engine.Example` in which `GEngine` is null: the on-screen overlay is
not available. -/
def Engine.NoGEngine : Engine := { Engine.Example with bGEngine := false }

/-- The collaborators `Log` calls. -/
inductive ESink
  | Formatter
  | Spatial
  | Notification
  | PersistentLog
  | Dialog
  | Response
  | Console
  | Overlay
deriving DecidableEq, Repr

/-- The collaborator a call goes to. -/
def Call.Sink : Call → ESink
  | .FormatMessage _ _ => .Formatter
  | .VisualLogger _ _ _ _ _ => .Spatial
  | .AddNotification _ _ => .Notification
  | .MessageLog _ _ _ => .PersistentLog
  | .MessageLogOpen _ _ => .PersistentLog
  | .MessageDialogOpen _ _ _ => .Dialog
  | .AppMessageResponse _ _ => .Response
  | .OutputLog _ _ _ _ => .Console
  | .AddOnScreenDebugMessage _ _ _ _ => .Overlay

/-- The calls of a list that go to one collaborator, in order. -/
def CallsTo (S : ESink) (L : List Call) : List Call := L.filter (fun c => c.Sink == S)

/-- The message text a call hands over, for the calls that hand one over. -/
def Call.Message : Call → Option String
  | .VisualLogger _ _ _ _ Message => some Message
  | .AddNotification Message _ => some Message
  | .MessageLog _ _ Message => some Message
  | .MessageDialogOpen _ Message _ => some Message
  | .OutputLog _ _ _ Msg => some Msg
  | .AddOnScreenDebugMessage _ _ _ Message => some Message
  | _ => none

/-- The value of the local `Message` of `Log` once the prefix has been inserted. -/
def LogMessage (E : Engine) (Location : SourceLocation) (LogArgs : DbgLogArgs) (Format : String)
    (Args : List String) : String :=
  MessagePrefixBuilder E Location LogArgs ++ E.FormatMessage Format Args

/-- The colour constant of the case of `switch (LogArgs.VerbosityValue)` that runs for a
verbosity (the `default` label is on the `Verbose` case). -/
def VerbosityCaseColor : ELogVerbosity → FColor
  | .Display => FColor.White
  | .Warning => FColor.Yellow
  | .Error => FColor.Red
  | .Fatal => FColor.Blue
  | _ => FColor.White

/-- The screen duration constant of the case that runs for a verbosity. -/
def VerbosityCaseScreenDuration : ELogVerbosity → ℚ
  | .Display => 10
  | .Warning => 20
  | .Error => 30
  | .Fatal => 30
  | _ => 10

/-- The notification `ExpireDuration` constant of the case that runs for a verbosity. -/
def VerbosityCaseExpireDuration : ELogVerbosity → ℚ
  | .Display => 6
  | .Warning => 15
  | .Error => 30
  | .Fatal => 30
  | _ => 6

/-- The message-log severity of the case that runs for a verbosity. -/
def VerbosityCaseSeverity : ELogVerbosity → EMessageSeverity
  | .Display => .Info
  | .Warning => .Warning
  | .Error => .Error
  | .Fatal => .Error
  | _ => .Info

/-- The decoration as the specification words it: in this order, `(timestamp) ` when
date and time logging is enabled, `[prefix] ` when a non-empty prefix was set,
`[context] ` when a context world was set, and the source location followed by a space
when source location logging is enabled. To be compared with `MessagePrefixBuilder`. -/
def DecorationPrefix (E : Engine) (Location : SourceLocation) (LogArgs : DbgLogArgs) : String :=
  (if LogArgs.bLogDateAndTime then "(" ++ E.Now LogArgs.DateTimeFormat ++ ") " else "") ++
  (if LogArgs.PrefixValue ≠ "" then "[" ++ LogArgs.PrefixValue ++ "] " else "") ++
  (match LogArgs.WCOResultValue with
   | some W => "[" ++ WorldToString W ++ "] "
   | none => "") ++
  (if LogArgs.bLogSourceLocation then SourceLocationToStr Location ++ " " else "")

/-! ## Lemmas on the category map -/

namespace CategoryMap

theorem Find_eq_none_iff (M : CategoryMap) (Key : FName) :
    Find M Key = none ↔ Key ∉ Names M := by
  induction M with
  | nil => simp [Find, Names]
  | cons P Rest ih =>
    obtain ⟨K, V⟩ := P
    by_cases h : K = Key
    · simp [Find, Names, h]
    · have h2 : ¬ Key = K := fun e => h e.symm
      simpa [Find, Names, h, h2] using ih

theorem Find_isSome_iff (M : CategoryMap) (Key : FName) :
    (Find M Key).isSome = true ↔ Key ∈ Names M := by
  have h := Find_eq_none_iff M Key
  cases hf : Find M Key with
  | none => simpa [hf] using h
  | some V =>
    rw [hf] at h
    simp only [Option.isSome_some, true_iff]
    by_contra hc
    exact absurd (h.mpr hc) (by simp)

theorem Names_Assign (M : CategoryMap) (Key : FName) (New : FRegisteredCategory) :
    Names (Assign M Key New) = Names M := by
  induction M with
  | nil => rfl
  | cons P Rest ih =>
    obtain ⟨K, V⟩ := P
    by_cases h : K = Key
    · simp [Assign, Names, h]
    · simp only [Names] at ih
      simp [Assign, Names, h, ih]

theorem Find_Assign_self (M : CategoryMap) (Key : FName) (New : FRegisteredCategory)
    (h : Key ∈ Names M) : Find (Assign M Key New) Key = some New := by
  induction M with
  | nil => simp [Names] at h
  | cons P Rest ih =>
    obtain ⟨K, V⟩ := P
    by_cases hk : K = Key
    · simp [Assign, Find, hk]
    · have h2 : Key ∈ Names Rest := by
        simp only [Names, List.map_cons, List.mem_cons] at h
        rcases h with h | h
        · exact absurd h.symm hk
        · exact h
      simp [Assign, Find, hk, ih h2]

theorem Find_Assign_other (M : CategoryMap) (Key Other : FName) (New : FRegisteredCategory)
    (h : Other ≠ Key) : Find (Assign M Key New) Other = Find M Other := by
  induction M with
  | nil => rfl
  | cons P Rest ih =>
    obtain ⟨K, V⟩ := P
    by_cases hk : K = Key
    · subst hk
      have h2 : ¬ K = Other := fun e => h e.symm
      simp [Assign, Find, h2]
    · by_cases ho : K = Other
      · subst ho
        simp [Assign, Find, hk]
      · simp [Assign, Find, hk, ho, ih]

theorem Find_append_self (M : CategoryMap) (Key : FName) (New : FRegisteredCategory)
    (h : Find M Key = none) : Find (M ++ [(Key, New)]) Key = some New := by
  induction M with
  | nil => simp [Find]
  | cons P Rest ih =>
    obtain ⟨K, V⟩ := P
    by_cases hk : K = Key
    · simp [Find, hk] at h
    · simp only [Find, hk, if_false] at h
      simp [Find, hk, ih h]

theorem Find_append_other (M : CategoryMap) (Key Other : FName) (New : FRegisteredCategory)
    (h : Other ≠ Key) : Find (M ++ [(Key, New)]) Other = Find M Other := by
  induction M with
  | nil =>
    have h2 : ¬ Key = Other := fun e => h e.symm
    simp [Find, h2]
  | cons P Rest ih =>
    obtain ⟨K, V⟩ := P
    by_cases ho : K = Other
    · simp [Find, ho]
    · simp [Find, ho, ih]

theorem Emplace_of_absent (M : CategoryMap) (Key : FName) (New : FRegisteredCategory)
    (h : Find M Key = none) : Emplace M Key New = M ++ [(Key, New)] := by
  simp [Emplace, h]

theorem Names_SetAllStates (M : CategoryMap) (bState : Bool) :
    Names (M.map (fun P => (P.1, (⟨bState⟩ : FRegisteredCategory)))) = Names M := by
  simp [Names, List.map_map, Function.comp_def]

theorem mem_Names_Emplace (M : CategoryMap) (Key Name : FName) (New : FRegisteredCategory)
    (h : Name ∈ Names M) : Name ∈ Names (Emplace M Key New) := by
  unfold Emplace
  cases hf : Find M Key with
  | some V => simpa [Names_Assign] using h
  | none =>
    simp only [Names, List.map_append, List.mem_append]
    exact Or.inl h

end CategoryMap

/-! ## Lemmas on the registry operations -/

theorem IsCategoryDisabled_of_absent (M : CategoryMap) (Name : FName)
    (h : M.Find Name = none) :
    IsCategoryDisabled true M Name = (false, M ++ [(Name, ⟨true⟩)]) := by
  simp [IsCategoryDisabled, h, CategoryMap.Emplace]

theorem IsCategoryDisabled_of_present (b : Bool) (M : CategoryMap) (Name : FName)
    (Cat : FRegisteredCategory) (h : M.Find Name = some Cat) :
    IsCategoryDisabled b M Name = (Cat.bState == false, M) := by
  simp [IsCategoryDisabled, h]

theorem mem_Names_IsCategoryDisabled (b : Bool) (M : CategoryMap) (Name N : FName)
    (h : N ∈ M.Names) : N ∈ (IsCategoryDisabled b M Name).2.Names := by
  unfold IsCategoryDisabled
  cases hf : M.Find Name with
  | some Cat => simpa using h
  | none =>
    cases b
    · simpa using h
    · simpa using CategoryMap.mem_Names_Emplace M Name N ⟨true⟩ h

theorem mem_Names_SetCategoryState (b : Bool) (M : CategoryMap) (Name N : FName) (s : Bool)
    (h : N ∈ M.Names) : N ∈ (SetCategoryState b M Name s).1.Names := by
  unfold SetCategoryState
  cases hf : M.Find Name with
  | some Cat => simpa [CategoryMap.Names_Assign] using h
  | none =>
    cases b
    · simpa using h
    · simpa using CategoryMap.mem_Names_Emplace M Name N ⟨s⟩ h

theorem mem_Names_SetEachState (Input : List String) (s : Bool) :
    ∀ (M : CategoryMap) (N : FName), N ∈ M.Names → N ∈ (SetEachState M Input s).1.Names := by
  induction Input with
  | nil => intro M N h; simpa [SetEachState] using h
  | cons CommandStr Rest ih =>
    intro M N h
    simp only [SetEachState]
    exact ih _ N (mem_Names_SetCategoryState true M _ N s h)

theorem mem_Names_SetAllStates (M : CategoryMap) (s : Bool) (N : FName) (h : N ∈ M.Names) :
    N ∈ (SetAllStates M s).Names := by
  unfold SetAllStates
  rw [CategoryMap.Names_SetAllStates]
  exact h

/-- The map returned by `Log` is the map it was given, or that map after the lookup
`IsCategoryDisabled<true>` of the resolved category name. -/
theorem Log_map_cases (E : Engine) (M : CategoryMap) (UniqueIdentifier : Int)
    (Location : SourceLocation) (LogArgs : DbgLogArgs) (Format : String) (Args : List String) :
    (Log E M UniqueIdentifier Location LogArgs Format Args).1 = M ∨
    (Log E M UniqueIdentifier Location LogArgs Format Args).1 =
      (IsCategoryDisabled true M (ResolveCategory LogArgs).GetCategoryName).2 := by
  unfold Log
  split
  · exact Or.inl rfl
  · right
    simp only []
    split
    · rfl
    · split
      · rfl
      · split <;> rfl

/-! ## Lemmas on the dispatcher -/

theorem CallsCarry_nil (Name : FName) : CallsCarry Name [] := by
  intro c hc; simp at hc

theorem CallsCarry_append (Name : FName) (L1 L2 : List Call)
    (h1 : CallsCarry Name L1) (h2 : CallsCarry Name L2) : CallsCarry Name (L1 ++ L2) := by
  intro c hc
  rcases List.mem_append.mp hc with h | h
  · exact h1 c h
  · exact h2 c h

theorem CallsCarry_cons (Name : FName) (c : Call) (L : List Call)
    (h1 : ∀ N : FName, c.CategoryName = some N → N = Name) (h2 : CallsCarry Name L) :
    CallsCarry Name (c :: L) := by
  intro d hd
  rcases List.mem_cons.mp hd with h | h
  · subst h; exact h1
  · exact h2 d h

theorem VisualLogBlock_carries (E : Engine) (LogArgs : DbgLogArgs) (LC : FLogCategoryBase)
    (Message : String) : CallsCarry LC.GetCategoryName (VisualLogBlock E LogArgs LC Message) := by
  unfold VisualLogBlock
  split
  · split
    · split
      · unfold VisualLogSwitch
        intro c hc N hN
        simp only [] at hc
        split at hc
        all_goals first
          | (split at hc
             all_goals 
               simp only [List.mem_cons, List.mem_singleton, List.not_mem_nil, or_false] at hc
               rcases hc with rfl | rfl
               all_goals first
                | (simp only [Call.CategoryName, Option.some.injEq] at hN; exact hN.symm))
          | (simp only [List.mem_cons, List.mem_singleton, List.not_mem_nil, or_false] at hc
             subst hc
             simp only [Call.CategoryName, Option.some.injEq] at hN; exact hN.symm)
      · exact CallsCarry_nil _
    · exact CallsCarry_nil _
  · exact CallsCarry_nil _

/-- The calls of a verbosity case depend only on the notify and message-log flags. -/
theorem VerbosityCase_calls (LogArgs : DbgLogArgs) (LC : FLogCategoryBase) (Message : String)
    (Color : FColor) (ScreenDuration ExpireDuration : ℚ) (Severity : EMessageSeverity) :
    (VerbosityCase LogArgs LC Message Color ScreenDuration ExpireDuration Severity).2 =
      (if LogArgs.bLogToSlateNotify then [Call.AddNotification Message ExpireDuration] else []) ++
      (if LogArgs.bLogToEditorMessageLog then
        Call.MessageLog LC.GetCategoryName Severity Message ::
          (if LogArgs.bShowEditorMessageLogImmediately then
            [Call.MessageLogOpen LC.GetCategoryName Severity] else [])
       else []) := by
  unfold VerbosityCase
  by_cases h1 : LogArgs.ScreenColorValue = FColor.Transparent <;>
    by_cases h2 : LogArgs.ScreenDurationValue < 0 <;>
    simp [h1, h2, DbgLogArgs.ScrnColor, DbgLogArgs.ScrnDuration]

/-- The arguments after a verbosity case: only the screen colour and the screen
duration can have changed, and only when they were unset. -/
theorem VerbosityCase_args (LogArgs : DbgLogArgs) (LC : FLogCategoryBase) (Message : String)
    (Color : FColor) (ScreenDuration ExpireDuration : ℚ) (Severity : EMessageSeverity) :
    (VerbosityCase LogArgs LC Message Color ScreenDuration ExpireDuration Severity).1 =
      { LogArgs with
        ScreenColorValue :=
          if LogArgs.ScreenColorValue = FColor.Transparent then Color
          else LogArgs.ScreenColorValue
        ScreenDurationValue :=
          if LogArgs.ScreenDurationValue < 0 then ScreenDuration
          else LogArgs.ScreenDurationValue } := by
  unfold VerbosityCase
  by_cases h1 : LogArgs.ScreenColorValue = FColor.Transparent <;>
    by_cases h2 : LogArgs.ScreenDurationValue < 0 <;>
    simp [h1, h2, DbgLogArgs.ScrnColor, DbgLogArgs.ScrnDuration]

theorem VerbosityCase_carries (LogArgs : DbgLogArgs) (LC : FLogCategoryBase) (Message : String)
    (Color : FColor) (ScreenDuration ExpireDuration : ℚ) (Severity : EMessageSeverity) :
    CallsCarry LC.GetCategoryName
      (VerbosityCase LogArgs LC Message Color ScreenDuration ExpireDuration Severity).2 := by
  rw [VerbosityCase_calls]
  intro c hc N hN
  cases h1 : LogArgs.bLogToSlateNotify <;> cases h2 : LogArgs.bLogToEditorMessageLog <;>
    cases h3 : LogArgs.bShowEditorMessageLogImmediately <;>
    simp [h1, h2, h3] at hc
  all_goals
    rcases hc with rfl | rfl | rfl
  all_goals
    simp [Call.CategoryName] at hN
  all_goals
    exact hN.symm

theorem VerbositySwitch_carries (LogArgs : DbgLogArgs) (LC : FLogCategoryBase)
    (Message : String) :
    CallsCarry LC.GetCategoryName (VerbositySwitch LogArgs LC Message).2 := by
  unfold VerbositySwitch
  split <;> exact VerbosityCase_carries _ _ _ _ _ _ _

theorem MessageDialogBlock_carries (E : Engine) (LogArgs : DbgLogArgs) (LC : FLogCategoryBase)
    (Message : String) :
    CallsCarry LC.GetCategoryName (MessageDialogBlock E LogArgs LC Message) := by
  unfold MessageDialogBlock
  split
  · apply CallsCarry_cons
    · intro N hN
      simp only [Call.CategoryName, Option.some.injEq] at hN
      exact hN.symm
    · split
      · exact CallsCarry_cons _ _ _ (by intro N hN; simp [Call.CategoryName] at hN)
          (CallsCarry_nil _)
      · exact CallsCarry_nil _
  · exact CallsCarry_nil _

/-- The console call is the fatal one exactly for the severity `Fatal`. -/
theorem OutputLog_eq_BasicFatalLog_iff (LC : FLogCategoryBase) (Verb : ELogVerbosity) :
    OutputLog LC Verb = some .BasicFatalLog ↔ Verb = .Fatal := by
  unfold OutputLog
  constructor
  · intro h
    by_contra hV
    rw [if_neg hV] at h
    repeat' split at h
    all_goals simp at h
  · intro h
    rw [if_pos h]

theorem OutputSwitch_carries (E : Engine) (Key : Nat) (Location : SourceLocation)
    (LogArgs : DbgLogArgs) (LC : FLogCategoryBase) (Message : String) :
    CallsCarry LC.GetCategoryName (OutputSwitch E Key Location LogArgs LC Message) := by
  have hOut : ∀ N : FName,
      (Call.OutputLog Location LC LogArgs.VerbosityValue Message).CategoryName = some N →
      N = LC.GetCategoryName := by
    intro N hN
    simp only [Call.CategoryName, Option.some.injEq] at hN
    exact hN.symm
  have hScr : CallsCarry LC.GetCategoryName
      (if E.bGEngine then
        [Call.AddOnScreenDebugMessage Key LogArgs.ScreenDurationValue LogArgs.ScreenColorValue
          Message]
       else []) := by
    split
    · exact CallsCarry_cons _ _ _ (by intro N hN; simp [Call.CategoryName] at hN)
        (CallsCarry_nil _)
    · exact CallsCarry_nil _
  unfold OutputSwitch
  simp only []
  split
  · exact CallsCarry_cons _ _ _ hOut (CallsCarry_nil _)
  · exact hScr
  · split
    · split
      · exact CallsCarry_cons _ _ _ hOut (CallsCarry_nil _)
      · exact CallsCarry_cons _ _ _ hOut hScr
    · exact hScr

/-- Every call `Log` makes that carries a category name carries the name of the
resolved category. -/
theorem Log_calls_carry_resolved (E : Engine) (M : CategoryMap) (UniqueIdentifier : Int)
    (Location : SourceLocation) (LogArgs : DbgLogArgs) (Format : String) (Args : List String) :
    CallsCarry (ResolveCategory LogArgs).GetCategoryName
      (Log E M UniqueIdentifier Location LogArgs Format Args).2 := by
  have hF : ∀ N : FName, (Call.FormatMessage Format Args).CategoryName = some N →
      N = (ResolveCategory LogArgs).GetCategoryName := by
    intro N hN; simp [Call.CategoryName] at hN
  unfold Log
  split
  · exact CallsCarry_nil _
  · simp only []
    split
    · exact CallsCarry_nil _
    · split
      · exact CallsCarry_cons _ _ _ hF (VisualLogBlock_carries _ _ _ _)
      · split
        · apply CallsCarry_cons _ _ _ hF
          exact CallsCarry_append _ _ _
            (CallsCarry_append _ _ _ (VisualLogBlock_carries _ _ _ _)
              (VerbositySwitch_carries _ _ _)) (MessageDialogBlock_carries _ _ _ _)
        · apply CallsCarry_cons _ _ _ hF
          exact CallsCarry_append _ _ _ (CallsCarry_append _ _ _
            (CallsCarry_append _ _ _ (VisualLogBlock_carries _ _ _ _)
              (VerbositySwitch_carries _ _ _)) (MessageDialogBlock_carries _ _ _ _))
            (OutputSwitch_carries _ _ _ _ _ _)

/-- Past the first gate, the map returned by `Log` is the map after the lookup
`IsCategoryDisabled<true>` of the resolved category name. -/
theorem Log_map_of_gate_passed (E : Engine) (M : CategoryMap) (UniqueIdentifier : Int)
    (Location : SourceLocation) (LogArgs : DbgLogArgs) (Format : String) (Args : List String)
    (hCond : LogArgs.bLogConditionValue = true) (hVerb : LogArgs.VerbosityValue ≠ .NoLogging) :
    (Log E M UniqueIdentifier Location LogArgs Format Args).1 =
      (IsCategoryDisabled true M (ResolveCategory LogArgs).GetCategoryName).2 := by
  unfold Log
  rw [if_neg (by simp [hCond, hVerb])]
  simp only []
  split
  · rfl
  · split
    · rfl
    · split <;> rfl

/-- Past the first gate, a resolved category registered with state false makes `Log`
return at the registry check. -/
theorem Log_of_disabled (E : Engine) (M : CategoryMap) (UniqueIdentifier : Int)
    (Location : SourceLocation) (LogArgs : DbgLogArgs) (Format : String) (Args : List String)
    (hCond : LogArgs.bLogConditionValue = true) (hVerb : LogArgs.VerbosityValue ≠ .NoLogging)
    (hOff : M.Find (ResolveCategory LogArgs).GetCategoryName = some ⟨false⟩) :
    Log E M UniqueIdentifier Location LogArgs Format Args = (M, []) := by
  unfold Log
  rw [if_neg (by simp [hCond, hVerb])]
  simp [IsCategoryDisabled_of_present true M _ _ hOff]

/-- Past the first gate, `Log` makes no call exactly when the resolved category name is
registered with state false. -/
theorem Log_calls_eq_nil_iff (E : Engine) (M : CategoryMap) (UniqueIdentifier : Int)
    (Location : SourceLocation) (LogArgs : DbgLogArgs) (Format : String) (Args : List String)
    (hCond : LogArgs.bLogConditionValue = true) (hVerb : LogArgs.VerbosityValue ≠ .NoLogging) :
    (Log E M UniqueIdentifier Location LogArgs Format Args).2 = [] ↔
      M.Find (ResolveCategory LogArgs).GetCategoryName = some ⟨false⟩ := by
  constructor
  · intro h
    unfold Log at h
    rw [if_neg (by simp [hCond, hVerb])] at h
    simp only [] at h
    split at h
    · rename_i hd
      unfold IsCategoryDisabled at hd
      cases hf : M.Find (ResolveCategory LogArgs).GetCategoryName with
      | none => rw [hf] at hd; simp at hd
      | some Cat =>
        rw [hf] at hd
        obtain ⟨b⟩ := Cat
        simp only [beq_iff_eq] at hd
        simp [hd]
    · split at h
      · simp at h
      · split at h <;> simp at h
  · intro h
    have := Log_of_disabled E M UniqueIdentifier Location LogArgs Format Args
      hCond hVerb h
    rw [this]

/-- With no explicit reference, a runtime name that is neither `None` nor `dbgLOG` gives
the category created from the name prefixed with `dbg`. -/
theorem ResolveCategory_of_runtime_name (LogArgs : DbgLogArgs) (n : FName)
    (hRef : LogArgs.LogCategory = none) (hNone : n.IsNone = false)
    (hDefault : n ≠ dbgLOG.GetCategoryName) :
    ResolveCategory (LogArgs.Category n) = FLogCategory ⟨"dbg" ++ n.Text⟩ := by
  have hne : ¬ ("dbg" ++ n.Text = "") := by
    intro h
    have hl := congrArg String.length h
    simp only [String.length_append] at hl
    have h3 : "dbg".length = 3 := by decide
    have h0 : "".length = 0 := by decide
    omega
  have hd : ¬ n = dbgLOG.CategoryName := hDefault
  simp [ResolveCategory, DbgLogArgs.Category, hRef, hNone, FName.ofString,
    FName.ToString, FLogCategoryBase.GetCategoryName, hne, hd]

/-! ## Lemmas on the calls of the dispatcher -/

theorem CallsTo_nil (S : ESink) : CallsTo S [] = [] := rfl

theorem CallsTo_append (S : ESink) (L1 L2 : List Call) :
    CallsTo S (L1 ++ L2) = CallsTo S L1 ++ CallsTo S L2 := by
  simp [CallsTo]

theorem CallsTo_cons (S : ESink) (c : Call) (L : List Call) :
    CallsTo S (c :: L) = if c.Sink = S then c :: CallsTo S L else CallsTo S L := by
  by_cases h : c.Sink = S <;> simp [CallsTo, List.filter_cons, h]

theorem mem_CallsTo (S : ESink) (c : Call) (L : List Call) :
    c ∈ CallsTo S L ↔ c ∈ L ∧ c.Sink = S := by
  simp [CallsTo, List.mem_filter]

theorem CallsTo_eq_nil_of_forall (S : ESink) (L : List Call) (h : ∀ c ∈ L, c.Sink ≠ S) :
    CallsTo S L = [] := by
  unfold CallsTo
  rw [List.filter_eq_nil_iff]
  intro c hc
  simpa using h c hc

/-- The case of `switch (LogArgs.VerbosityValue)` that runs is the shared body with the
constants of the verbosity. -/
theorem VerbositySwitch_eq (LogArgs : DbgLogArgs) (LC : FLogCategoryBase) (Message : String) :
    VerbositySwitch LogArgs LC Message =
      VerbosityCase LogArgs LC Message (VerbosityCaseColor LogArgs.VerbosityValue)
        (VerbosityCaseScreenDuration LogArgs.VerbosityValue)
        (VerbosityCaseExpireDuration LogArgs.VerbosityValue)
        (VerbosityCaseSeverity LogArgs.VerbosityValue) := by
  unfold VerbositySwitch
  cases h : LogArgs.VerbosityValue <;> rfl

theorem VerbositySwitch_calls (LogArgs : DbgLogArgs) (LC : FLogCategoryBase) (Message : String) :
    (VerbositySwitch LogArgs LC Message).2 =
      (if LogArgs.bLogToSlateNotify then
        [Call.AddNotification Message (VerbosityCaseExpireDuration LogArgs.VerbosityValue)]
       else []) ++
      (if LogArgs.bLogToEditorMessageLog then
        Call.MessageLog LC.GetCategoryName (VerbosityCaseSeverity LogArgs.VerbosityValue) Message ::
          (if LogArgs.bShowEditorMessageLogImmediately then
            [Call.MessageLogOpen LC.GetCategoryName (VerbosityCaseSeverity LogArgs.VerbosityValue)]
           else [])
       else []) := by
  rw [VerbositySwitch_eq, VerbosityCase_calls]

theorem VerbositySwitch_args (LogArgs : DbgLogArgs) (LC : FLogCategoryBase) (Message : String) :
    (VerbositySwitch LogArgs LC Message).1 =
      { LogArgs with
        ScreenColorValue :=
          if LogArgs.ScreenColorValue = FColor.Transparent then
            VerbosityCaseColor LogArgs.VerbosityValue
          else LogArgs.ScreenColorValue
        ScreenDurationValue :=
          if LogArgs.ScreenDurationValue < 0 then
            VerbosityCaseScreenDuration LogArgs.VerbosityValue
          else LogArgs.ScreenDurationValue } := by
  rw [VerbositySwitch_eq, VerbosityCase_args]

theorem VisualLogBlock_sink (E : Engine) (LogArgs : DbgLogArgs) (LC : FLogCategoryBase)
    (Message : String) :
    ∀ c ∈ VisualLogBlock E LogArgs LC Message, c.Sink = .Spatial ∧ c.Message = some Message := by
  intro c hc
  unfold VisualLogBlock at hc
  split at hc
  · split at hc
    · split at hc
      · unfold VisualLogSwitch at hc
        simp only [] at hc
        split at hc
        all_goals first
          | (split at hc
             all_goals
               simp only [List.mem_cons, List.mem_singleton, List.not_mem_nil, or_false] at hc
               rcases hc with rfl | rfl
               all_goals exact ⟨rfl, rfl⟩)
          | (simp only [List.mem_cons, List.mem_singleton, List.not_mem_nil, or_false] at hc
             subst hc
             exact ⟨rfl, rfl⟩)
      · simp at hc
    · simp at hc
  · simp at hc

theorem CallsTo_VisualLogBlock (S : ESink) (E : Engine) (LogArgs : DbgLogArgs)
    (LC : FLogCategoryBase) (Message : String) (hS : S ≠ .Spatial) :
    CallsTo S (VisualLogBlock E LogArgs LC Message) = [] := by
  apply CallsTo_eq_nil_of_forall
  intro c hc h
  exact hS (h ▸ (VisualLogBlock_sink E LogArgs LC Message c hc).1)

theorem MessageDialogBlock_switched (E : Engine) (LogArgs : DbgLogArgs) (LC : FLogCategoryBase)
    (Message : String) :
    MessageDialogBlock E (VerbositySwitch LogArgs LC Message).1 LC Message =
      MessageDialogBlock E LogArgs LC Message := by
  rw [VerbositySwitch_args]
  rfl

theorem ScreenKey_switched (E : Engine) (UniqueIdentifier : Int) (Location : SourceLocation)
    (LogArgs : DbgLogArgs) (LC : FLogCategoryBase) (Message : String) :
    ScreenKey E UniqueIdentifier Location (VerbositySwitch LogArgs LC Message).1 =
      ScreenKey E UniqueIdentifier Location LogArgs := by
  rw [VerbositySwitch_args]
  rfl

theorem MessageDialogBlock_sink (E : Engine) (LogArgs : DbgLogArgs) (LC : FLogCategoryBase)
    (Message : String) :
    ∀ c ∈ MessageDialogBlock E LogArgs LC Message,
      (c.Sink = .Dialog ∨ c.Sink = .Response) ∧ ∀ m, c.Message = some m → m = Message := by
  intro c hc
  unfold MessageDialogBlock at hc
  split at hc
  · simp only [List.mem_cons] at hc
    rcases hc with rfl | hc
    · exact ⟨Or.inl rfl, fun m hm => by simpa [Call.Message] using hm.symm⟩
    · split at hc
      · simp only [List.mem_singleton] at hc
        subst hc
        exact ⟨Or.inr rfl, fun m hm => by simp [Call.Message] at hm⟩
      · simp at hc
  · simp at hc

theorem CallsTo_MessageDialogBlock (S : ESink) (E : Engine) (LogArgs : DbgLogArgs)
    (LC : FLogCategoryBase) (Message : String) (hD : S ≠ .Dialog) (hR : S ≠ .Response) :
    CallsTo S (MessageDialogBlock E LogArgs LC Message) = [] := by
  apply CallsTo_eq_nil_of_forall
  intro c hc h
  rcases (MessageDialogBlock_sink E LogArgs LC Message c hc).1 with h2 | h2
  · exact hD (h ▸ h2)
  · exact hR (h ▸ h2)

theorem CallsTo_Notification_VerbositySwitch (LogArgs : DbgLogArgs) (LC : FLogCategoryBase)
    (Message : String) :
    CallsTo .Notification (VerbositySwitch LogArgs LC Message).2 =
      if LogArgs.bLogToSlateNotify then
        [Call.AddNotification Message (VerbosityCaseExpireDuration LogArgs.VerbosityValue)]
      else [] := by
  rw [VerbositySwitch_calls]
  cases LogArgs.bLogToSlateNotify <;> cases LogArgs.bLogToEditorMessageLog <;>
    cases LogArgs.bShowEditorMessageLogImmediately <;> rfl

theorem CallsTo_PersistentLog_VerbositySwitch (LogArgs : DbgLogArgs) (LC : FLogCategoryBase)
    (Message : String) :
    CallsTo .PersistentLog (VerbositySwitch LogArgs LC Message).2 =
      if LogArgs.bLogToEditorMessageLog then
        Call.MessageLog LC.GetCategoryName (VerbosityCaseSeverity LogArgs.VerbosityValue) Message ::
          (if LogArgs.bShowEditorMessageLogImmediately then
            [Call.MessageLogOpen LC.GetCategoryName (VerbosityCaseSeverity LogArgs.VerbosityValue)]
           else [])
      else [] := by
  rw [VerbositySwitch_calls]
  cases LogArgs.bLogToSlateNotify <;> cases LogArgs.bLogToEditorMessageLog <;>
    cases LogArgs.bShowEditorMessageLogImmediately <;> rfl

theorem VerbositySwitch_sink (LogArgs : DbgLogArgs) (LC : FLogCategoryBase) (Message : String) :
    ∀ c ∈ (VerbositySwitch LogArgs LC Message).2,
      (c.Sink = .Notification ∨ c.Sink = .PersistentLog) ∧
        ∀ m, c.Message = some m → m = Message := by
  intro c hc
  rw [VerbositySwitch_calls] at hc
  cases h1 : LogArgs.bLogToSlateNotify <;> cases h2 : LogArgs.bLogToEditorMessageLog <;>
    cases h3 : LogArgs.bShowEditorMessageLogImmediately <;>
    simp [h1, h2, h3] at hc
  all_goals
    rcases hc with rfl | rfl | rfl
  all_goals
    refine ⟨by simp [Call.Sink], fun m hm => ?_⟩
    simp [Call.Message] at hm
  all_goals
    exact hm.symm

theorem CallsTo_VerbositySwitch (S : ESink) (LogArgs : DbgLogArgs) (LC : FLogCategoryBase)
    (Message : String) (hN : S ≠ .Notification) (hP : S ≠ .PersistentLog) :
    CallsTo S (VerbositySwitch LogArgs LC Message).2 = [] := by
  apply CallsTo_eq_nil_of_forall
  intro c hc h
  rcases (VerbositySwitch_sink LogArgs LC Message c hc).1 with h2 | h2
  · exact hN (h ▸ h2)
  · exact hP (h ▸ h2)

theorem CallsTo_Console_OutputSwitch (E : Engine) (Key : Nat) (Location : SourceLocation)
    (LogArgs : DbgLogArgs) (LC : FLogCategoryBase) (Message : String) :
    CallsTo .Console (OutputSwitch E Key Location LogArgs LC Message) =
      if LogArgs.OutputDestinationValue = .Con ∨
          (LogArgs.OutputDestinationValue = .Both ∧ LogArgs.bLogToEditorMessageLog = false) then
        [Call.OutputLog Location LC LogArgs.VerbosityValue Message]
      else [] := by
  unfold OutputSwitch
  cases hd : LogArgs.OutputDestinationValue <;> cases hg : E.bGEngine <;>
    cases hm : LogArgs.bLogToEditorMessageLog <;>
    by_cases hf : LogArgs.VerbosityValue = .Fatal <;>
    simp [CallsTo, Call.Sink, OutputLog_eq_BasicFatalLog_iff, hf]

theorem CallsTo_Overlay_OutputSwitch (E : Engine) (Key : Nat) (Location : SourceLocation)
    (LogArgs : DbgLogArgs) (LC : FLogCategoryBase) (Message : String) :
    CallsTo .Overlay (OutputSwitch E Key Location LogArgs LC Message) =
      if LogArgs.OutputDestinationValue ≠ .Con ∧ E.bGEngine = true ∧
          ¬ (LogArgs.OutputDestinationValue = .Both ∧ LogArgs.bLogToEditorMessageLog = false ∧
            LogArgs.VerbosityValue = .Fatal) then
        [Call.AddOnScreenDebugMessage Key LogArgs.ScreenDurationValue LogArgs.ScreenColorValue
          Message]
      else [] := by
  unfold OutputSwitch
  cases hd : LogArgs.OutputDestinationValue <;> cases hg : E.bGEngine <;>
    cases hm : LogArgs.bLogToEditorMessageLog <;>
    by_cases hf : LogArgs.VerbosityValue = .Fatal <;>
    simp [CallsTo, Call.Sink, OutputLog_eq_BasicFatalLog_iff, hf]

theorem OutputSwitch_sink (E : Engine) (Key : Nat) (Location : SourceLocation)
    (LogArgs : DbgLogArgs) (LC : FLogCategoryBase) (Message : String) :
    ∀ c ∈ OutputSwitch E Key Location LogArgs LC Message,
      (c.Sink = .Console ∨ c.Sink = .Overlay) ∧ c.Message = some Message := by
  intro c hc
  unfold OutputSwitch at hc
  cases hd : LogArgs.OutputDestinationValue <;> cases hg : E.bGEngine <;>
    cases hm : LogArgs.bLogToEditorMessageLog <;>
    by_cases hf : LogArgs.VerbosityValue = .Fatal <;>
    simp [hd, hg, hm, hf, OutputLog_eq_BasicFatalLog_iff] at hc
  all_goals
    rcases hc with rfl | rfl <;> simp [Call.Sink, Call.Message]

theorem CallsTo_OutputSwitch (S : ESink) (E : Engine) (Key : Nat) (Location : SourceLocation)
    (LogArgs : DbgLogArgs) (LC : FLogCategoryBase) (Message : String)
    (hC : S ≠ .Console) (hO : S ≠ .Overlay) :
    CallsTo S (OutputSwitch E Key Location LogArgs LC Message) = [] := by
  apply CallsTo_eq_nil_of_forall
  intro c hc h
  rcases (OutputSwitch_sink E Key Location LogArgs LC Message c hc).1 with h2 | h2
  · exact hC (h ▸ h2)
  · exact hO (h ▸ h2)

/-- The calls of `Log` are empty unless both gates are passed. -/
theorem Log_calls_cases (E : Engine) (M : CategoryMap) (UniqueIdentifier : Int)
    (Location : SourceLocation) (LogArgs : DbgLogArgs) (Format : String) (Args : List String) :
    (Log E M UniqueIdentifier Location LogArgs Format Args).2 = [] ∨
    (LogArgs.bLogConditionValue = true ∧ LogArgs.VerbosityValue ≠ .NoLogging ∧
      M.Find (ResolveCategory LogArgs).GetCategoryName ≠ some ⟨false⟩) := by
  by_cases hCond : LogArgs.bLogConditionValue = true
  · by_cases hVerb : LogArgs.VerbosityValue = .NoLogging
    · left
      unfold Log
      rw [if_pos (Or.inl hVerb)]
    · by_cases hOff : M.Find (ResolveCategory LogArgs).GetCategoryName = some ⟨false⟩
      · left
        rw [Log_of_disabled E M UniqueIdentifier Location LogArgs Format Args hCond hVerb hOff]
      · exact Or.inr ⟨hCond, hVerb, hOff⟩
  · left
    unfold Log
    rw [if_pos (Or.inr (by simpa using hCond))]

theorem IsCategoryDisabled_eq_false (b : Bool) (M : CategoryMap) (Name : FName)
    (h : M.Find Name ≠ some ⟨false⟩) : (IsCategoryDisabled b M Name).1 = false := by
  unfold IsCategoryDisabled
  cases hf : M.Find Name with
  | none => cases b <;> rfl
  | some Cat =>
    obtain ⟨s⟩ := Cat
    cases s
    · exact absurd hf h
    · rfl

/-- The calls of `Log` once both gates are passed: the formatter, the visual logger
block and, unless the visual logger is the only destination, the calls of the verbosity
switch, the dialog and, unless one of the early-return flags holds, the destination
switch. -/
theorem Log_calls_of_passed (E : Engine) (M : CategoryMap) (UniqueIdentifier : Int)
    (Location : SourceLocation) (LogArgs : DbgLogArgs) (Format : String) (Args : List String)
    (hCond : LogArgs.bLogConditionValue = true) (hVerb : LogArgs.VerbosityValue ≠ .NoLogging)
    (hOn : M.Find (ResolveCategory LogArgs).GetCategoryName ≠ some ⟨false⟩) :
    (Log E M UniqueIdentifier Location LogArgs Format Args).2 =
      Call.FormatMessage Format Args ::
        (VisualLogBlock E LogArgs (ResolveCategory LogArgs)
            (LogMessage E Location LogArgs Format Args) ++
          if LogArgs.VisualLoggerOwnerValue.isSome ∧ LogArgs.bOnlyUseVisualLogger then []
          else
            (VerbositySwitch LogArgs (ResolveCategory LogArgs)
                (LogMessage E Location LogArgs Format Args)).2 ++
              MessageDialogBlock E LogArgs (ResolveCategory LogArgs)
                (LogMessage E Location LogArgs Format Args) ++
              if LogArgs.bOnlyLogToSlateNotify ∨ LogArgs.bOnlyLogToMessageDialog
                  ∨ (LogArgs.bLogToEditorMessageLog ∧ LogArgs.OutputDestinationValue = .Con)
              then []
              else
                OutputSwitch E (ScreenKey E UniqueIdentifier Location LogArgs) Location
                  (VerbositySwitch LogArgs (ResolveCategory LogArgs)
                    (LogMessage E Location LogArgs Format Args)).1
                  (ResolveCategory LogArgs) (LogMessage E Location LogArgs Format Args)) := by
  have hD := IsCategoryDisabled_eq_false true M _ hOn
  have hF : ∀ (LC : FLogCategoryBase) (Msg : String),
      ((VerbositySwitch LogArgs LC Msg).1.bOnlyLogToSlateNotify = LogArgs.bOnlyLogToSlateNotify) ∧
      ((VerbositySwitch LogArgs LC Msg).1.bOnlyLogToMessageDialog
        = LogArgs.bOnlyLogToMessageDialog) ∧
      ((VerbositySwitch LogArgs LC Msg).1.bLogToEditorMessageLog
        = LogArgs.bLogToEditorMessageLog) ∧
      ((VerbositySwitch LogArgs LC Msg).1.OutputDestinationValue
        = LogArgs.OutputDestinationValue) := by
    intro LC Msg
    rw [VerbositySwitch_args]
    exact ⟨rfl, rfl, rfl, rfl⟩
  unfold Log LogMessage
  rw [if_neg (by simp [hCond, hVerb])]
  simp only [hD, Bool.false_eq_true, if_false]
  by_cases h1 : LogArgs.VisualLoggerOwnerValue.isSome = true ∧ LogArgs.bOnlyUseVisualLogger = true
  · rw [if_pos h1, if_pos h1]
    simp
  · rw [if_neg h1, if_neg h1]
    simp only [MessageDialogBlock_switched, ScreenKey_switched, (hF _ _).1, (hF _ _).2.1,
      (hF _ _).2.2.1, (hF _ _).2.2.2]
    by_cases h2 : LogArgs.bOnlyLogToSlateNotify = true ∨ LogArgs.bOnlyLogToMessageDialog = true
        ∨ (LogArgs.bLogToEditorMessageLog = true ∧ LogArgs.OutputDestinationValue = .Con)
    · rw [if_pos h2, if_pos h2]
      simp
    · rw [if_neg h2, if_neg h2]
      simp [List.append_assoc]

/-- Every message `Log` hands to a sink is the decorated message. -/
theorem Log_calls_message (E : Engine) (M : CategoryMap) (UniqueIdentifier : Int)
    (Location : SourceLocation) (LogArgs : DbgLogArgs) (Format : String) (Args : List String) :
    ∀ c ∈ (Log E M UniqueIdentifier Location LogArgs Format Args).2,
      ∀ m, c.Message = some m → m = LogMessage E Location LogArgs Format Args := by
  intro c hc m hm
  rcases Log_calls_cases E M UniqueIdentifier Location LogArgs Format Args with h | ⟨h1, h2, h3⟩
  · rw [h] at hc
    simp at hc
  · rw [Log_calls_of_passed E M UniqueIdentifier Location LogArgs Format Args h1 h2 h3] at hc
    simp only [List.mem_cons, List.mem_append] at hc
    rcases hc with rfl | hc | hc
    · simp [Call.Message] at hm
    · have := (VisualLogBlock_sink _ _ _ _ c hc).2
      rw [this] at hm
      exact (Option.some.inj hm).symm
    · split at hc
      · simp at hc
      · simp only [List.mem_append] at hc
        rcases hc with (hc | hc) | hc
        · exact (VerbositySwitch_sink _ _ _ c hc).2 m hm
        · exact (MessageDialogBlock_sink _ _ _ _ c hc).2 m hm
        · split at hc
          · simp at hc
          · have := (OutputSwitch_sink _ _ _ _ _ _ c hc).2
            rw [this] at hm
            exact (Option.some.inj hm).symm

theorem CallsTo_ite (S : ESink) (P : Prop) [Decidable P] (L : List Call) :
    CallsTo S (if P then [] else L) = if P then [] else CallsTo S L := by
  split <;> rfl

/-- The calls `Log` makes to one sink once both gates are passed, block by block. -/
theorem CallsTo_Log_of_passed (S : ESink) (hS : S ≠ .Formatter) (E : Engine) (M : CategoryMap)
    (UniqueIdentifier : Int) (Location : SourceLocation) (LogArgs : DbgLogArgs)
    (Format : String) (Args : List String)
    (hCond : LogArgs.bLogConditionValue = true) (hVerb : LogArgs.VerbosityValue ≠ .NoLogging)
    (hOn : M.Find (ResolveCategory LogArgs).GetCategoryName ≠ some ⟨false⟩) :
    CallsTo S (Log E M UniqueIdentifier Location LogArgs Format Args).2 =
      CallsTo S (VisualLogBlock E LogArgs (ResolveCategory LogArgs)
          (LogMessage E Location LogArgs Format Args)) ++
        if LogArgs.VisualLoggerOwnerValue.isSome ∧ LogArgs.bOnlyUseVisualLogger then []
        else
          CallsTo S (VerbositySwitch LogArgs (ResolveCategory LogArgs)
              (LogMessage E Location LogArgs Format Args)).2 ++
            CallsTo S (MessageDialogBlock E LogArgs (ResolveCategory LogArgs)
              (LogMessage E Location LogArgs Format Args)) ++
            if LogArgs.bOnlyLogToSlateNotify ∨ LogArgs.bOnlyLogToMessageDialog
                ∨ (LogArgs.bLogToEditorMessageLog ∧ LogArgs.OutputDestinationValue = .Con)
            then []
            else
              CallsTo S (OutputSwitch E (ScreenKey E UniqueIdentifier Location LogArgs) Location
                (VerbositySwitch LogArgs (ResolveCategory LogArgs)
                  (LogMessage E Location LogArgs Format Args)).1
                (ResolveCategory LogArgs) (LogMessage E Location LogArgs Format Args)) := by
  rw [Log_calls_of_passed E M UniqueIdentifier Location LogArgs Format Args hCond hVerb hOn]
  have hne : ¬ (Call.FormatMessage Format Args).Sink = S := fun h => hS h.symm
  rw [CallsTo_cons, if_neg hne, CallsTo_append, CallsTo_ite, CallsTo_append, CallsTo_append,
    CallsTo_ite]

/-- The calls `Log` makes to the notification sink. -/
theorem CallsTo_Notification_Log (E : Engine) (M : CategoryMap) (UniqueIdentifier : Int)
    (Location : SourceLocation) (LogArgs : DbgLogArgs) (Format : String) (Args : List String)
    (hCond : LogArgs.bLogConditionValue = true) (hVerb : LogArgs.VerbosityValue ≠ .NoLogging)
    (hOn : M.Find (ResolveCategory LogArgs).GetCategoryName ≠ some ⟨false⟩) :
    CallsTo .Notification (Log E M UniqueIdentifier Location LogArgs Format Args).2 =
      if LogArgs.VisualLoggerOwnerValue.isSome ∧ LogArgs.bOnlyUseVisualLogger then []
      else if LogArgs.bLogToSlateNotify then
        [Call.AddNotification (LogMessage E Location LogArgs Format Args)
          (VerbosityCaseExpireDuration LogArgs.VerbosityValue)]
      else [] := by
  rw [CallsTo_Log_of_passed _ (by decide) E M UniqueIdentifier Location LogArgs Format Args hCond
      hVerb hOn,
    CallsTo_VisualLogBlock _ _ _ _ _ (by decide), CallsTo_Notification_VerbositySwitch,
    CallsTo_MessageDialogBlock _ _ _ _ _ (by decide) (by decide),
    CallsTo_OutputSwitch _ _ _ _ _ _ _ (by decide) (by decide)]
  simp

/-- The calls `Log` makes to the persistent-log sink. -/
theorem CallsTo_PersistentLog_Log (E : Engine) (M : CategoryMap) (UniqueIdentifier : Int)
    (Location : SourceLocation) (LogArgs : DbgLogArgs) (Format : String) (Args : List String)
    (hCond : LogArgs.bLogConditionValue = true) (hVerb : LogArgs.VerbosityValue ≠ .NoLogging)
    (hOn : M.Find (ResolveCategory LogArgs).GetCategoryName ≠ some ⟨false⟩) :
    CallsTo .PersistentLog (Log E M UniqueIdentifier Location LogArgs Format Args).2 =
      if LogArgs.VisualLoggerOwnerValue.isSome ∧ LogArgs.bOnlyUseVisualLogger then []
      else if LogArgs.bLogToEditorMessageLog then
        Call.MessageLog (ResolveCategory LogArgs).GetCategoryName
            (VerbosityCaseSeverity LogArgs.VerbosityValue)
            (LogMessage E Location LogArgs Format Args) ::
          (if LogArgs.bShowEditorMessageLogImmediately then
            [Call.MessageLogOpen (ResolveCategory LogArgs).GetCategoryName
              (VerbosityCaseSeverity LogArgs.VerbosityValue)]
           else [])
      else [] := by
  rw [CallsTo_Log_of_passed _ (by decide) E M UniqueIdentifier Location LogArgs Format Args hCond
      hVerb hOn,
    CallsTo_VisualLogBlock _ _ _ _ _ (by decide), CallsTo_PersistentLog_VerbositySwitch,
    CallsTo_MessageDialogBlock _ _ _ _ _ (by decide) (by decide),
    CallsTo_OutputSwitch _ _ _ _ _ _ _ (by decide) (by decide)]
  simp

/-- The calls `Log` makes to the console sink. -/
theorem CallsTo_Console_Log (E : Engine) (M : CategoryMap) (UniqueIdentifier : Int)
    (Location : SourceLocation) (LogArgs : DbgLogArgs) (Format : String) (Args : List String)
    (hCond : LogArgs.bLogConditionValue = true) (hVerb : LogArgs.VerbosityValue ≠ .NoLogging)
    (hOn : M.Find (ResolveCategory LogArgs).GetCategoryName ≠ some ⟨false⟩) :
    CallsTo .Console (Log E M UniqueIdentifier Location LogArgs Format Args).2 =
      if LogArgs.VisualLoggerOwnerValue.isSome ∧ LogArgs.bOnlyUseVisualLogger then []
      else if LogArgs.bOnlyLogToSlateNotify ∨ LogArgs.bOnlyLogToMessageDialog
          ∨ (LogArgs.bLogToEditorMessageLog ∧ LogArgs.OutputDestinationValue = .Con) then []
      else if LogArgs.OutputDestinationValue = .Con ∨
          (LogArgs.OutputDestinationValue = .Both ∧ LogArgs.bLogToEditorMessageLog = false) then
        [Call.OutputLog Location (ResolveCategory LogArgs) LogArgs.VerbosityValue
          (LogMessage E Location LogArgs Format Args)]
      else [] := by
  rw [CallsTo_Log_of_passed _ (by decide) E M UniqueIdentifier Location LogArgs Format Args hCond
      hVerb hOn,
    CallsTo_VisualLogBlock _ _ _ _ _ (by decide),
    CallsTo_VerbositySwitch _ _ _ _ (by decide) (by decide),
    CallsTo_MessageDialogBlock _ _ _ _ _ (by decide) (by decide),
    CallsTo_Console_OutputSwitch, VerbositySwitch_args]
  simp

/-- The calls `Log` makes to the overlay sink. -/
theorem CallsTo_Overlay_Log (E : Engine) (M : CategoryMap) (UniqueIdentifier : Int)
    (Location : SourceLocation) (LogArgs : DbgLogArgs) (Format : String) (Args : List String)
    (hCond : LogArgs.bLogConditionValue = true) (hVerb : LogArgs.VerbosityValue ≠ .NoLogging)
    (hOn : M.Find (ResolveCategory LogArgs).GetCategoryName ≠ some ⟨false⟩) :
    CallsTo .Overlay (Log E M UniqueIdentifier Location LogArgs Format Args).2 =
      if LogArgs.VisualLoggerOwnerValue.isSome ∧ LogArgs.bOnlyUseVisualLogger then []
      else if LogArgs.bOnlyLogToSlateNotify ∨ LogArgs.bOnlyLogToMessageDialog
          ∨ (LogArgs.bLogToEditorMessageLog ∧ LogArgs.OutputDestinationValue = .Con) then []
      else if LogArgs.OutputDestinationValue ≠ .Con ∧ E.bGEngine = true ∧
          ¬ (LogArgs.OutputDestinationValue = .Both ∧ LogArgs.bLogToEditorMessageLog = false ∧
            LogArgs.VerbosityValue = .Fatal) then
        [Call.AddOnScreenDebugMessage (ScreenKey E UniqueIdentifier Location LogArgs)
          (if LogArgs.ScreenDurationValue < 0 then
            VerbosityCaseScreenDuration LogArgs.VerbosityValue
           else LogArgs.ScreenDurationValue)
          (if LogArgs.ScreenColorValue = FColor.Transparent then
            VerbosityCaseColor LogArgs.VerbosityValue
           else LogArgs.ScreenColorValue)
          (LogMessage E Location LogArgs Format Args)]
      else [] := by
  rw [CallsTo_Log_of_passed _ (by decide) E M UniqueIdentifier Location LogArgs Format Args hCond
      hVerb hOn,
    CallsTo_VisualLogBlock _ _ _ _ _ (by decide),
    CallsTo_VerbositySwitch _ _ _ _ (by decide) (by decide),
    CallsTo_MessageDialogBlock _ _ _ _ _ (by decide) (by decide),
    CallsTo_Overlay_OutputSwitch, VerbositySwitch_args]
  simp

/-- An overlay call among the calls of `Log` is the one call of the destination switch. -/
theorem Log_overlay_mem (E : Engine) (M : CategoryMap) (UniqueIdentifier : Int)
    (Location : SourceLocation) (LogArgs : DbgLogArgs) (Format : String) (Args : List String)
    (Key : Nat) (TimeToDisplay : ℚ) (DisplayColor : FColor) (Message : String)
    (h : Call.AddOnScreenDebugMessage Key TimeToDisplay DisplayColor Message ∈
      (Log E M UniqueIdentifier Location LogArgs Format Args).2) :
    TimeToDisplay =
      (if LogArgs.ScreenDurationValue < 0 then VerbosityCaseScreenDuration LogArgs.VerbosityValue
       else LogArgs.ScreenDurationValue) ∧
    DisplayColor =
      (if LogArgs.ScreenColorValue = FColor.Transparent then
        VerbosityCaseColor LogArgs.VerbosityValue
       else LogArgs.ScreenColorValue) := by
  rcases Log_calls_cases E M UniqueIdentifier Location LogArgs Format Args with h0 | ⟨h1, h2, h3⟩
  · rw [h0] at h
    simp at h
  · have hm : Call.AddOnScreenDebugMessage Key TimeToDisplay DisplayColor Message ∈
        CallsTo .Overlay (Log E M UniqueIdentifier Location LogArgs Format Args).2 :=
      (mem_CallsTo _ _ _).mpr ⟨h, rfl⟩
    rw [CallsTo_Overlay_Log E M UniqueIdentifier Location LogArgs Format Args h1 h2 h3] at hm
    split at hm
    · simp at hm
    · split at hm
      · simp at hm
      · split at hm
        · simp only [List.mem_singleton, Call.AddOnScreenDebugMessage.injEq] at hm
          exact ⟨hm.2.1, hm.2.2.1⟩
        · simp at hm

/-! ## Lemmas on the overlay key, the spatial calls and the commands -/

/-- An overlay call among the calls of `Log` carries the key computed by `ScreenKey` for a
destination other than `Con`: the sum of the four components, reduced modulo 2^32. -/
theorem Log_overlay_mem_key (E : Engine) (M : CategoryMap) (UniqueIdentifier : Int)
    (Location : SourceLocation) (LogArgs : DbgLogArgs) (Format : String) (Args : List String)
    (Key : Nat) (TimeToDisplay : ℚ) (DisplayColor : FColor) (Message : String)
    (h : Call.AddOnScreenDebugMessage Key TimeToDisplay DisplayColor Message ∈
      (Log E M UniqueIdentifier Location LogArgs Format Args).2) :
    Key = (((Location.line : Int) + E.PIEID + UniqueIdentifier +
      (match LogArgs.ScreenKeyValue with
       | some K => K
       | none => 0)) % 4294967296).toNat := by
  rcases Log_calls_cases E M UniqueIdentifier Location LogArgs Format Args with h0 | ⟨h1, h2, h3⟩
  · rw [h0] at h
    simp at h
  · have hm : Call.AddOnScreenDebugMessage Key TimeToDisplay DisplayColor Message ∈
        CallsTo .Overlay (Log E M UniqueIdentifier Location LogArgs Format Args).2 :=
      (mem_CallsTo _ _ _).mpr ⟨h, rfl⟩
    rw [CallsTo_Overlay_Log E M UniqueIdentifier Location LogArgs Format Args h1 h2 h3] at hm
    split at hm
    · simp at hm
    · split at hm
      · simp at hm
      · split at hm
        · rename_i hd
          simp only [List.mem_singleton, Call.AddOnScreenDebugMessage.injEq] at hm
          rw [hm.1]
          unfold ScreenKey
          rw [if_pos hd.1]
        · simp at hm

/-- Two integers in a window of width 2^32 that agree modulo 2^32 are equal. -/
theorem eq_of_emod_eq_of_window (a b lo : Int) (ha : lo ≤ a) (ha2 : a < lo + 4294967296)
    (hb : lo ≤ b) (hb2 : b < lo + 4294967296) (h : a % 4294967296 = b % 4294967296) : a = b := by
  omega

/-- The calls `Log` makes to the visual logger once both gates are passed. -/
theorem CallsTo_Spatial_Log (E : Engine) (M : CategoryMap) (UniqueIdentifier : Int)
    (Location : SourceLocation) (LogArgs : DbgLogArgs) (Format : String) (Args : List String)
    (hCond : LogArgs.bLogConditionValue = true) (hVerb : LogArgs.VerbosityValue ≠ .NoLogging)
    (hOn : M.Find (ResolveCategory LogArgs).GetCategoryName ≠ some ⟨false⟩) :
    CallsTo .Spatial (Log E M UniqueIdentifier Location LogArgs Format Args).2 =
      VisualLogBlock E LogArgs (ResolveCategory LogArgs)
        (LogMessage E Location LogArgs Format Args) := by
  have hV : CallsTo .Spatial (VisualLogBlock E LogArgs (ResolveCategory LogArgs)
        (LogMessage E Location LogArgs Format Args)) =
      VisualLogBlock E LogArgs (ResolveCategory LogArgs)
        (LogMessage E Location LogArgs Format Args) := by
    unfold CallsTo
    rw [List.filter_eq_self]
    intro c hc
    simp [(VisualLogBlock_sink _ _ _ _ c hc).1]
  rw [CallsTo_Log_of_passed _ (by decide) E M UniqueIdentifier Location LogArgs Format Args hCond
      hVerb hOn, hV,
    CallsTo_VerbositySwitch _ _ _ _ (by decide) (by decide),
    CallsTo_MessageDialogBlock _ _ _ _ _ (by decide) (by decide),
    CallsTo_OutputSwitch _ _ _ _ _ _ _ (by decide) (by decide)]
  simp

/-- The lookup after `SetCategoryState<true>`: the name set is found with the new state,
every other name as before. -/
theorem Find_SetCategoryState (M : CategoryMap) (Name Other : FName) (s : Bool) :
    (SetCategoryState true M Name s).1.Find Other =
      if Other = Name then some ⟨s⟩ else M.Find Other := by
  unfold SetCategoryState
  by_cases ho : Other = Name
  · subst ho
    rw [if_pos rfl]
    cases hf : M.Find Other with
    | some Cat =>
      have hm : Other ∈ M.Names := by
        rw [← CategoryMap.Find_isSome_iff, hf]; rfl
      simpa using CategoryMap.Find_Assign_self M Other ⟨s⟩ hm
    | none =>
      simpa [CategoryMap.Emplace, hf] using CategoryMap.Find_append_self M Other ⟨s⟩ hf
  · rw [if_neg ho]
    cases hf : M.Find Name with
    | some Cat => simpa using CategoryMap.Find_Assign_other M Name Other ⟨s⟩ ho
    | none =>
      simpa [CategoryMap.Emplace, hf] using CategoryMap.Find_append_other M Name Other ⟨s⟩ ho

/-- The lookup after the loop over the command arguments: a name among the arguments is
found with the commanded state, every other name as before. -/
theorem Find_SetEachState (Input : List String) (s : Bool) :
    ∀ (M : CategoryMap) (Other : FName),
      (SetEachState M Input s).1.Find Other =
        if Other ∈ Input.map FName.ofString then some ⟨s⟩ else M.Find Other := by
  induction Input with
  | nil => intro M Other; simp [SetEachState]
  | cons CommandStr Rest ih =>
    intro M Other
    simp only [SetEachState, List.map_cons, List.mem_cons]
    rw [ih, Find_SetCategoryState]
    by_cases h1 : Other ∈ Rest.map FName.ofString
    · simp [h1]
    · by_cases h2 : Other = FName.ofString CommandStr
      · simp [h1, h2]
      · simp [h1, h2]

theorem length_pos_iff_ne_empty (S : String) : S.length > 0 ↔ S ≠ "" := by
  constructor
  · intro h he
    rw [he] at h
    exact absurd h (by decide)
  · intro h
    by_contra hc
    apply h
    have h0 : S.length = 0 := by omega
    apply String.ext
    have hd : S.data.length = 0 := h0
    rw [List.length_eq_zero] at hd
    rw [hd]

/-- A negative screen duration set by the caller is replaced in the verbosity switch
like the unset one: the switch gives the same arguments and the same calls. -/
theorem VerbositySwitch_ScrnDuration_of_neg (LogArgs : DbgLogArgs) (LC : FLogCategoryBase)
    (Message : String) (Duration : ℚ) (hUnset : LogArgs.ScreenDurationValue < 0)
    (hNeg : Duration < 0) :
    VerbositySwitch (LogArgs.ScrnDuration Duration) LC Message =
      VerbositySwitch LogArgs LC Message := by
  apply Prod.ext
  · rw [VerbositySwitch_args, VerbositySwitch_args]
    simp [DbgLogArgs.ScrnDuration, hUnset, hNeg]
  · rw [VerbositySwitch_calls, VerbositySwitch_calls]
    rfl

/-- The whole of `Log` is the same for a negative screen duration set by the caller and
for the unset one. -/
theorem Log_ScrnDuration_of_neg (E : Engine) (M : CategoryMap) (UniqueIdentifier : Int)
    (Location : SourceLocation) (LogArgs : DbgLogArgs) (Format : String) (Args : List String)
    (Duration : ℚ) (hUnset : LogArgs.ScreenDurationValue < 0) (hNeg : Duration < 0) :
    Log E M UniqueIdentifier Location (LogArgs.ScrnDuration Duration) Format Args =
      Log E M UniqueIdentifier Location LogArgs Format Args := by
  have hR : ResolveCategory (LogArgs.ScrnDuration Duration) = ResolveCategory LogArgs := rfl
  have hP : MessagePrefixBuilder E Location (LogArgs.ScrnDuration Duration) =
      MessagePrefixBuilder E Location LogArgs := rfl
  have hV : ∀ (LC : FLogCategoryBase) (Msg : String),
      VisualLogBlock E (LogArgs.ScrnDuration Duration) LC Msg = VisualLogBlock E LogArgs LC Msg :=
    fun _ _ => rfl
  unfold Log
  simp only [hR, hP, hV, VerbositySwitch_ScrnDuration_of_neg LogArgs _ _ Duration hUnset hNeg]
  rfl

/-! ## Claims -/

/-- C1: when the condition is false or the severity is `NoLogging`, `Log` does nothing:
the formatter is not invoked, no sink receives a call (the list of calls is empty), and
the category map is returned exactly as it was given, so the resolved category is not
registered. -/
theorem Log_first_gate_drops (E : Engine) (M : CategoryMap) (UniqueIdentifier : Int)
    (Location : SourceLocation) (LogArgs : DbgLogArgs) (Format : String) (Args : List String)
    (h : LogArgs.bLogConditionValue = false ∨ LogArgs.VerbosityValue = .NoLogging) :
    Log E M UniqueIdentifier Location LogArgs Format Args = (M, []) := by
  unfold Log
  rw [if_pos]
  exact h.symm

/-- Witness of C1: a call with `Condition(false)` and the `Fatal` severity on the
initial registry, where the category `dbgFoo` is not yet registered. -/
theorem Log_first_gate_drops_witness :
    ((({} : DbgLogArgs).Fatal.Category ⟨"Foo"⟩).Condition false).bLogConditionValue = false ∧
    Log Engine.Example FDbgLogSingleton 7 SourceLocation.Example
      ((({} : DbgLogArgs).Fatal.Category ⟨"Foo"⟩).Condition false) "Hello" ["42"]
      = (FDbgLogSingleton, []) :=
  ⟨rfl, Log_first_gate_drops _ _ _ _ _ _ _ (Or.inl rfl)⟩

/-- C2: when the first gate is passed and the resolved category name is registered with
state false, `Log` invokes neither the formatter nor any sink and returns the category
map unchanged. -/
theorem Log_disabled_category_drops (E : Engine) (M : CategoryMap) (UniqueIdentifier : Int)
    (Location : SourceLocation) (LogArgs : DbgLogArgs) (Format : String) (Args : List String)
    (hCond : LogArgs.bLogConditionValue = true) (hVerb : LogArgs.VerbosityValue ≠ .NoLogging)
    (hOff : M.Find (ResolveCategory LogArgs).GetCategoryName = some ⟨false⟩) :
    Log E M UniqueIdentifier Location LogArgs Format Args = (M, []) := by
  exact Log_of_disabled E M UniqueIdentifier Location LogArgs Format Args hCond hVerb hOff

/-- Witness of C2: the runtime category `Foo` after `dbgLog.DisableCategory dbgFoo`. -/
theorem Log_disabled_category_drops_witness :
    (({} : DbgLogArgs).Category ⟨"Foo"⟩).bLogConditionValue = true ∧
    (({} : DbgLogArgs).Category ⟨"Foo"⟩).VerbosityValue ≠ .NoLogging ∧
    CategoryMap.Find (DisableCategoryCommand FDbgLogSingleton ["dbgFoo"]).1
      (ResolveCategory (({} : DbgLogArgs).Category ⟨"Foo"⟩)).GetCategoryName = some ⟨false⟩ ∧
    Log Engine.Example (DisableCategoryCommand FDbgLogSingleton ["dbgFoo"]).1 7
      SourceLocation.Example (({} : DbgLogArgs).Category ⟨"Foo"⟩) "Hello" ["42"]
      = ((DisableCategoryCommand FDbgLogSingleton ["dbgFoo"]).1, []) :=
  ⟨rfl, by decide, by decide,
    Log_disabled_category_drops _ _ _ _ _ _ _ rfl (by decide) (by decide)⟩

/-- C3: for a name that is not registered, `IsCategoryDisabled<true>` returns false and
the map afterwards is the old map with the entry name -> enabled added: the name is now
found enabled, and every other name is found exactly as before. -/
theorem IsCategoryDisabled_registers_unseen (M : CategoryMap) (Name : FName)
    (h : M.Find Name = none) :
    (IsCategoryDisabled true M Name).1 = false ∧
    (IsCategoryDisabled true M Name).2 = M ++ [(Name, ⟨true⟩)] ∧
    (IsCategoryDisabled true M Name).2.Find Name = some ⟨true⟩ ∧
    ∀ Other : FName, Other ≠ Name →
      (IsCategoryDisabled true M Name).2.Find Other = M.Find Other := by
  rw [IsCategoryDisabled_of_absent M Name h]
  refine ⟨rfl, rfl, CategoryMap.Find_append_self M Name _ h, ?_⟩
  intro Other hne
  exact CategoryMap.Find_append_other M Name Other _ hne

/-- Witness of C3: the name `dbgFoo` on the initial registry. -/
theorem IsCategoryDisabled_registers_unseen_witness :
    CategoryMap.Find FDbgLogSingleton ⟨"dbgFoo"⟩ = none ∧
    ((IsCategoryDisabled true FDbgLogSingleton ⟨"dbgFoo"⟩).1 = false ∧
    (IsCategoryDisabled true FDbgLogSingleton ⟨"dbgFoo"⟩).2
      = FDbgLogSingleton ++ [(⟨"dbgFoo"⟩, ⟨true⟩)] ∧
    (IsCategoryDisabled true FDbgLogSingleton ⟨"dbgFoo"⟩).2.Find ⟨"dbgFoo"⟩ = some ⟨true⟩ ∧
    ∀ Other : FName, Other ≠ ⟨"dbgFoo"⟩ →
      (IsCategoryDisabled true FDbgLogSingleton ⟨"dbgFoo"⟩).2.Find Other
        = CategoryMap.Find FDbgLogSingleton Other) :=
  ⟨by decide, IsCategoryDisabled_registers_unseen FDbgLogSingleton ⟨"dbgFoo"⟩ (by decide)⟩

/-- C4: after `SetCategoryState<true>(name, s)`, for a registered or an unregistered
name, the name is found with state `s` and `IsCategoryDisabled` (either variant) returns
`!s`; an absent name is added at the end with state `s`, a present one keeps the set of
names as it was. -/
theorem SetCategoryState_then_IsCategoryDisabled (M : CategoryMap) (Name : FName)
    (s b : Bool) :
    (IsCategoryDisabled b (SetCategoryState true M Name s).1 Name).1 = !s ∧
    (SetCategoryState true M Name s).1.Find Name = some ⟨s⟩ ∧
    (M.Find Name = none → (SetCategoryState true M Name s).1 = M ++ [(Name, ⟨s⟩)]) ∧
    (M.Find Name ≠ none → (SetCategoryState true M Name s).1.Names = M.Names) := by
  have hFind : (SetCategoryState true M Name s).1.Find Name = some ⟨s⟩ := by
    unfold SetCategoryState
    cases hf : M.Find Name with
    | some Cat =>
      have hm : Name ∈ M.Names := by
        rw [← CategoryMap.Find_isSome_iff, hf]; rfl
      simpa using CategoryMap.Find_Assign_self M Name ⟨s⟩ hm
    | none =>
      simpa [CategoryMap.Emplace, hf] using CategoryMap.Find_append_self M Name ⟨s⟩ hf
  refine ⟨?_, hFind, ?_, ?_⟩
  · rw [IsCategoryDisabled_of_present b _ Name ⟨s⟩ hFind]
    cases s <;> rfl
  · intro hf
    simp [SetCategoryState, hf, CategoryMap.Emplace]
  · intro hf
    unfold SetCategoryState
    cases hf2 : M.Find Name with
    | some Cat => simp [CategoryMap.Names_Assign]
    | none => exact absurd hf2 hf

/-- C5: the `All` form of the enable and disable commands keeps exactly the registered
names, in the same order, and leaves every entry with the commanded state: enabled
after `dbgLog.EnableCategory All`, disabled after `dbgLog.DisableCategory All`; the
arguments after `All` change nothing and no name is added. -/
theorem All_command_sets_every_registered_state (M : CategoryMap) (Rest : List String) :
    ((EnableCategoryCommand M ("All" :: Rest)).1.Names = M.Names ∧
      (∀ P ∈ (EnableCategoryCommand M ("All" :: Rest)).1, P.2 = ⟨true⟩) ∧
      (∀ N : FName, (EnableCategoryCommand M ("All" :: Rest)).1.Find N =
        if N ∈ M.Names then some ⟨true⟩ else none)) ∧
    ((DisableCategoryCommand M ("All" :: Rest)).1.Names = M.Names ∧
      (∀ P ∈ (DisableCategoryCommand M ("All" :: Rest)).1, P.2 = ⟨false⟩) ∧
      (∀ N : FName, (DisableCategoryCommand M ("All" :: Rest)).1.Find N =
        if N ∈ M.Names then some ⟨false⟩ else none)) := by
  have key : ∀ s : Bool, (SetAllStates M s).Names = M.Names ∧
      (∀ P ∈ SetAllStates M s, P.2 = ⟨s⟩) ∧
      (∀ N : FName, (SetAllStates M s).Find N = if N ∈ M.Names then some ⟨s⟩ else none) := by
    intro s
    have hN : (SetAllStates M s).Names = M.Names := CategoryMap.Names_SetAllStates M s
    have hP : ∀ P ∈ SetAllStates M s, P.2 = ⟨s⟩ := by
      intro P hP
      simp only [SetAllStates, List.mem_map] at hP
      obtain ⟨Q, _, rfl⟩ := hP
      rfl
    refine ⟨hN, hP, ?_⟩
    intro N
    by_cases hm : N ∈ M.Names
    · rw [if_pos hm]
      have hm2 : N ∈ (SetAllStates M s).Names := by rw [hN]; exact hm
      cases hf : (SetAllStates M s).Find N with
      | none => exact absurd hm2 ((CategoryMap.Find_eq_none_iff _ N).mp hf)
      | some V =>
        have hmem : (N, V) ∈ SetAllStates M s := by
          clear hP hm2 hN hm
          generalize SetAllStates M s = L at hf
          induction L with
          | nil => simp [CategoryMap.Find] at hf
          | cons Q Tail ih =>
            obtain ⟨K, W⟩ := Q
            by_cases hk : K = N
            · simp only [CategoryMap.Find, hk, if_true, Option.some.injEq] at hf
              simp [hk, hf]
            · simp only [CategoryMap.Find, hk, if_false] at hf
              exact List.mem_cons_of_mem _ (ih hf)
        rw [← hP _ hmem]
    · rw [if_neg hm]
      rw [CategoryMap.Find_eq_none_iff, hN]
      exact hm
  exact ⟨by simpa [EnableCategoryCommand] using key true,
         by simpa [DisableCategoryCommand] using key false⟩

/-- C6: no operation removes a category: a name registered before
`IsCategoryDisabled` (either variant), `SetCategoryState` (either variant), the enable
or disable command (with names or with `All`, or with no argument) or `Log` is still
registered after it. -/
theorem registered_name_is_never_removed (M : CategoryMap) (N : FName) (h : N ∈ M.Names) :
    (∀ (b : Bool) (Name : FName), N ∈ (IsCategoryDisabled b M Name).2.Names) ∧
    (∀ (b : Bool) (Name : FName) (s : Bool), N ∈ (SetCategoryState b M Name s).1.Names) ∧
    (∀ Input : List String, N ∈ (EnableCategoryCommand M Input).1.Names) ∧
    (∀ Input : List String, N ∈ (DisableCategoryCommand M Input).1.Names) ∧
    (∀ (E : Engine) (UniqueIdentifier : Int) (Location : SourceLocation) (LogArgs : DbgLogArgs)
      (Format : String) (Args : List String),
      N ∈ (Log E M UniqueIdentifier Location LogArgs Format Args).1.Names) := by
  refine ⟨fun b Name => mem_Names_IsCategoryDisabled b M Name N h,
    fun b Name s => mem_Names_SetCategoryState b M Name N s h, ?_, ?_, ?_⟩
  · intro Input
    cases Input with
    | nil => simpa [EnableCategoryCommand] using h
    | cons First Rest =>
      simp only [EnableCategoryCommand]
      split
      · exact mem_Names_SetAllStates M true N h
      · exact mem_Names_SetEachState _ true M N h
  · intro Input
    cases Input with
    | nil => simpa [DisableCategoryCommand] using h
    | cons First Rest =>
      simp only [DisableCategoryCommand]
      split
      · exact mem_Names_SetAllStates M false N h
      · exact mem_Names_SetEachState _ false M N h
  · intro E UniqueIdentifier Location LogArgs Format Args
    rcases Log_map_cases E M UniqueIdentifier Location LogArgs Format Args with e | e
    · rw [e]; exact h
    · rw [e]; exact mem_Names_IsCategoryDisabled true M _ N h

/-- Witness of C6: the default category on the initial registry. -/
theorem registered_name_is_never_removed_witness :
    (⟨"dbgLOG"⟩ : FName) ∈ CategoryMap.Names FDbgLogSingleton ∧
    (⟨"dbgLOG"⟩ : FName) ∈
      (DisableCategoryCommand FDbgLogSingleton ["Foo", "All"]).1.Names :=
  ⟨by decide,
    (registered_name_is_never_removed FDbgLogSingleton ⟨"dbgLOG"⟩ (by decide)).2.2.2.1
      ["Foo", "All"]⟩

/-- C7, as stated, fails: the runtime name `dbgLOG` (the default category's own name) is
not resolved to `dbgdbgLOG`. The dispatch leaves the initial registry as it is, where
`dbgdbgLOG` is not registered, and the console sink is called with the default category,
whose name is `dbgLOG`. -/
theorem Log_runtime_name_dbgLOG_is_not_namespaced :
    Log Engine.Example FDbgLogSingleton 7 SourceLocation.Example
        (({} : DbgLogArgs).Category ⟨"dbgLOG"⟩) "Hello " ["42"]
      = (FDbgLogSingleton,
          [Call.FormatMessage "Hello " ["42"],
           Call.OutputLog SourceLocation.Example dbgLOG .Display "Hello 42"]) ∧
    CategoryMap.Find FDbgLogSingleton ⟨"dbg" ++ "dbgLOG"⟩ = none ∧
    (Call.OutputLog SourceLocation.Example dbgLOG .Display "Hello 42").CategoryName
      = some ⟨"dbgLOG"⟩ ∧
    (⟨"dbgLOG"⟩ : FName) ≠ ⟨"dbg" ++ "dbgLOG"⟩ := by
  refine ⟨by decide, by decide, by decide, by decide⟩

/-- C7, amended: for every runtime-supplied category name `n` that is not `None` and is
not the default category's own name `dbgLOG` (set with `Category(FName)`, no explicit
category reference set), `Log` resolves the category to the name `dbg` followed by `n`.
Past the first gate that name is the one looked up and registered in the map, the calls
are dropped exactly when that name is registered with state false, and every sink call
that carries a category name carries that name. -/
theorem Log_runtime_name_is_namespaced (E : Engine) (M : CategoryMap) (UniqueIdentifier : Int)
    (Location : SourceLocation) (LogArgs : DbgLogArgs) (n : FName) (Format : String)
    (Args : List String)
    (hRef : LogArgs.LogCategory = none) (hNone : n.IsNone = false)
    (hDefault : n ≠ dbgLOG.GetCategoryName) :
    (ResolveCategory (LogArgs.Category n)).GetCategoryName = ⟨"dbg" ++ n.Text⟩ ∧
    ((LogArgs.Category n).bLogConditionValue = true →
      (LogArgs.Category n).VerbosityValue ≠ .NoLogging →
        (Log E M UniqueIdentifier Location (LogArgs.Category n) Format Args).1
          = (IsCategoryDisabled true M ⟨"dbg" ++ n.Text⟩).2 ∧
        ((Log E M UniqueIdentifier Location (LogArgs.Category n) Format Args).2 = [] ↔
          M.Find ⟨"dbg" ++ n.Text⟩ = some ⟨false⟩)) ∧
    ∀ c ∈ (Log E M UniqueIdentifier Location (LogArgs.Category n) Format Args).2,
      ∀ N : FName, c.CategoryName = some N → N = ⟨"dbg" ++ n.Text⟩ := by
  have hRes : (ResolveCategory (LogArgs.Category n)).GetCategoryName = ⟨"dbg" ++ n.Text⟩ := by
    rw [ResolveCategory_of_runtime_name LogArgs n hRef hNone hDefault]
    rfl
  refine ⟨hRes, ?_, ?_⟩
  · intro hCond hVerb
    rw [← hRes]
    exact ⟨Log_map_of_gate_passed _ _ _ _ _ _ _ hCond hVerb,
      Log_calls_eq_nil_iff _ _ _ _ _ _ _ hCond hVerb⟩
  · rw [← hRes]
    exact Log_calls_carry_resolved _ _ _ _ _ _ _

/-- Witness of C7 amended: the runtime name `Foo` resolves to `dbgFoo`. -/
theorem Log_runtime_name_is_namespaced_witness :
    (({} : DbgLogArgs).LogCategory = none ∧ (⟨"Foo"⟩ : FName).IsNone = false ∧
      (⟨"Foo"⟩ : FName) ≠ dbgLOG.GetCategoryName) ∧
    (ResolveCategory (({} : DbgLogArgs).Category ⟨"Foo"⟩)).GetCategoryName = ⟨"dbg" ++ "Foo"⟩ :=
  ⟨⟨rfl, by decide, by decide⟩,
    (Log_runtime_name_is_namespaced Engine.Example FDbgLogSingleton 7 SourceLocation.Example {}
      ⟨"Foo"⟩ "Hello " ["42"] rfl (by decide) (by decide)).1⟩

/-- C8, as stated, fails: with no explicit category reference and the runtime name
`dbgLOG` set, the runtime name is not used: the category is the default one, as for a
builder on which no category was set, and not the category made from the runtime name. -/
theorem ResolveCategory_runtime_name_dbgLOG_gives_default :
    (({} : DbgLogArgs).Category ⟨"dbgLOG"⟩).LogCategory = none ∧
    (({} : DbgLogArgs).Category ⟨"dbgLOG"⟩).LogCategoryName = ⟨"dbgLOG"⟩ ∧
    ResolveCategory (({} : DbgLogArgs).Category ⟨"dbgLOG"⟩) = dbgLOG ∧
    ResolveCategory (({} : DbgLogArgs).Category ⟨"dbgLOG"⟩) = ResolveCategory {} ∧
    ResolveCategory (({} : DbgLogArgs).Category ⟨"dbgLOG"⟩)
      ≠ FLogCategory (FName.ofString ("dbg" ++ "dbgLOG")) := by
  refine ⟨by decide, by decide, by decide, by decide, by decide⟩

/-- C8, amended: an explicit category reference set on the builder is used as it is,
whether or not a runtime name was also set and in whichever order the two `Category`
setters were called; otherwise a runtime name that is neither `None` nor the default
category's own name `dbgLOG` is used, namespaced with `dbg`; otherwise (no runtime name,
or the runtime name `dbgLOG`) the default category `dbgLOG` is used. -/
theorem ResolveCategory_precedence (LogArgs : DbgLogArgs) (InCategory : FLogCategoryBase)
    (n : FName) :
    (ResolveCategory (LogArgs.CategoryRef InCategory) = InCategory ∧
      ResolveCategory ((LogArgs.Category n).CategoryRef InCategory) = InCategory ∧
      ResolveCategory ((LogArgs.CategoryRef InCategory).Category n) = InCategory) ∧
    (LogArgs.LogCategory = none → n.IsNone = false → n ≠ dbgLOG.GetCategoryName →
      ResolveCategory (LogArgs.Category n) = FLogCategory ⟨"dbg" ++ n.Text⟩) ∧
    (LogArgs.LogCategory = none → (n.IsNone = true ∨ n = dbgLOG.GetCategoryName) →
      ResolveCategory (LogArgs.Category n) = dbgLOG) ∧
    ResolveCategory {} = dbgLOG := by
  refine ⟨⟨rfl, rfl, rfl⟩, ?_, ?_, by decide⟩
  · intro hRef hNone hDefault
    exact ResolveCategory_of_runtime_name LogArgs n hRef hNone hDefault
  · intro hRef h
    rcases h with h | h
    · simp [ResolveCategory, DbgLogArgs.Category, hRef, h]
    · simp [ResolveCategory, DbgLogArgs.Category, hRef, h]

/-- C9, as stated, fails: from the initial registry, after
`SetCategoryState<true>("dbg", false)`, a dispatch with the default arguments still
calls the console sink: the default category is named `dbgLOG`, not `dbg`. -/
theorem Log_default_delivered_after_disabling_dbg :
    Log Engine.Example (SetCategoryState true FDbgLogSingleton ⟨"dbg"⟩ false).1 7
        SourceLocation.Example {} "Hello " ["42"]
      = ([(⟨"dbgLOG"⟩, ⟨true⟩), (⟨"dbg"⟩, ⟨false⟩)],
          [Call.FormatMessage "Hello " ["42"],
           Call.OutputLog SourceLocation.Example dbgLOG .Display "Hello 42"]) ∧
    (Call.OutputLog SourceLocation.Example dbgLOG .Display "Hello 42").IsSink = true := by
  refine ⟨by decide, by decide⟩

/-- C9, amended: from the initial registry, after `SetCategoryState("dbgLOG", false)`
(either variant), a dispatch with the default arguments (no category set on the builder)
invokes no sink and not the formatter either, and leaves the registry as it is. -/
theorem Log_default_dropped_after_disabling_dbgLOG (E : Engine) (b : Bool)
    (UniqueIdentifier : Int) (Location : SourceLocation) (Format : String) (Args : List String) :
    Log E (SetCategoryState b FDbgLogSingleton ⟨"dbgLOG"⟩ false).1 UniqueIdentifier Location {}
        Format Args
      = ((SetCategoryState b FDbgLogSingleton ⟨"dbgLOG"⟩ false).1, []) ∧
    (SetCategoryState b FDbgLogSingleton ⟨"dbgLOG"⟩ false).1 = [(⟨"dbgLOG"⟩, ⟨false⟩)] := by
  have hM : (SetCategoryState b FDbgLogSingleton ⟨"dbgLOG"⟩ false).1 = [(⟨"dbgLOG"⟩, ⟨false⟩)] := by
    cases b <;> decide
  refine ⟨?_, hM⟩
  rw [hM]
  exact Log_of_disabled E _ UniqueIdentifier Location {} Format Args rfl (by decide) (by decide)

/-- C10: for the default arguments (no builder option set) and a registry in which the
default category is not disabled, `Log` calls the formatter and then makes exactly one
sink call: the console sink, with the formatter's output unchanged, the severity
`Display` and the default category `dbgLOG`. -/
theorem Log_default_config_console_only (E : Engine) (M : CategoryMap) (UniqueIdentifier : Int)
    (Location : SourceLocation) (Format : String) (Args : List String)
    (hOn : M.Find dbgLOG.GetCategoryName ≠ some ⟨false⟩) :
    (Log E M UniqueIdentifier Location {} Format Args).2
      = [Call.FormatMessage Format Args,
         Call.OutputLog Location dbgLOG .Display (E.FormatMessage Format Args)] ∧
    (Log E M UniqueIdentifier Location {} Format Args).2.filter Call.IsSink
      = [Call.OutputLog Location dbgLOG .Display (E.FormatMessage Format Args)] ∧
    (M.Find dbgLOG.GetCategoryName = some ⟨true⟩ →
      (Log E M UniqueIdentifier Location {} Format Args).1 = M) := by
  have hRes : ResolveCategory {} = dbgLOG := by decide
  have hD : (IsCategoryDisabled true M dbgLOG.GetCategoryName).1 = false := by
    unfold IsCategoryDisabled
    cases hf : M.Find dbgLOG.GetCategoryName with
    | none => simp
    | some Cat =>
      obtain ⟨s⟩ := Cat
      cases s
      · exact absurd hf hOn
      · rfl
  have hCalls : (Log E M UniqueIdentifier Location {} Format Args).2
      = [Call.FormatMessage Format Args,
         Call.OutputLog Location dbgLOG .Display (E.FormatMessage Format Args)] := by
    unfold Log
    simp only [hRes, hD]
    simp [VisualLogBlock, VerbositySwitch, VerbosityCase_calls, VerbosityCase_args,
      MessageDialogBlock, OutputSwitch, MessagePrefixBuilder]
  refine ⟨hCalls, ?_, ?_⟩
  · rw [hCalls]; rfl
  · intro hT
    rw [Log_map_of_gate_passed E M UniqueIdentifier Location {} Format Args rfl (by decide), hRes,
      IsCategoryDisabled_of_present true M _ _ hT]

/-- Witness of C10: the default dispatch on the initial registry. -/
theorem Log_default_config_console_only_witness :
    CategoryMap.Find FDbgLogSingleton dbgLOG.GetCategoryName ≠ some ⟨false⟩ ∧
    (Log Engine.Example FDbgLogSingleton 7 SourceLocation.Example {} "Hello " ["42"]).2
      = [Call.FormatMessage "Hello " ["42"],
         Call.OutputLog SourceLocation.Example dbgLOG .Display "Hello 42"] :=
  ⟨by decide,
    (Log_default_config_console_only Engine.Example FDbgLogSingleton 7 SourceLocation.Example
      "Hello " ["42"] (by decide)).1⟩


/-- C11: for every severity (every argument value), an overlay call made by `Log`
carries the caller's screen colour when that colour is not the transparent sentinel, and
the caller's screen duration when that duration is not negative: the severity default
replaces neither (`ScrnColor(Red)` with `Warn` stays red). -/
theorem Log_overlay_keeps_explicit_values (E : Engine) (M : CategoryMap) (UniqueIdentifier : Int)
    (Location : SourceLocation) (LogArgs : DbgLogArgs) (Format : String) (Args : List String)
    (Key : Nat) (TimeToDisplay : ℚ) (DisplayColor : FColor) (Message : String)
    (h : Call.AddOnScreenDebugMessage Key TimeToDisplay DisplayColor Message ∈
      (Log E M UniqueIdentifier Location LogArgs Format Args).2) :
    (LogArgs.ScreenColorValue ≠ FColor.Transparent → DisplayColor = LogArgs.ScreenColorValue) ∧
    (0 ≤ LogArgs.ScreenDurationValue → TimeToDisplay = LogArgs.ScreenDurationValue) := by
  obtain ⟨hT, hC⟩ := Log_overlay_mem E M UniqueIdentifier Location LogArgs Format Args Key
    TimeToDisplay DisplayColor Message h
  constructor
  · intro hne
    rw [hC, if_neg hne]
  · intro hge
    rw [hT, if_neg (not_lt.mpr hge)]

/-- Witness of C11: a warning sent to the screen with `ScrnColor(Red)` and
`ScrnDuration(5)` reaches the overlay red for 5 seconds, not yellow for 20. -/
theorem Log_overlay_keeps_explicit_values_witness :
    Call.AddOnScreenDebugMessage 49 5 FColor.Red "Hello 42" ∈
      (Log Engine.Example FDbgLogSingleton 7 SourceLocation.Example
        (((({} : DbgLogArgs).Warn.Screen).ScrnColor FColor.Red).ScrnDuration 5)
        "Hello " ["42"]).2 ∧
    (FColor.Red ≠ FColor.Transparent → FColor.Red = FColor.Red) ∧
    ((0 : ℚ) ≤ 5 → (5 : ℚ) = 5) ∧
    FColor.Red ≠ FColor.Transparent ∧ (0 : ℚ) ≤ 5 :=
  have hm : Call.AddOnScreenDebugMessage 49 5 FColor.Red "Hello 42" ∈
      (Log Engine.Example FDbgLogSingleton 7 SourceLocation.Example
        (((({} : DbgLogArgs).Warn.Screen).ScrnColor FColor.Red).ScrnDuration 5)
        "Hello " ["42"]).2 := by decide
  ⟨hm,
    (Log_overlay_keeps_explicit_values Engine.Example FDbgLogSingleton 7 SourceLocation.Example
      (((({} : DbgLogArgs).Warn.Screen).ScrnColor FColor.Red).ScrnDuration 5)
      "Hello " ["42"] 49 5 FColor.Red "Hello 42" hm).1,
    (Log_overlay_keeps_explicit_values Engine.Example FDbgLogSingleton 7 SourceLocation.Example
      (((({} : DbgLogArgs).Warn.Screen).ScrnColor FColor.Red).ScrnDuration 5)
      "Hello " ["42"] 49 5 FColor.Red "Hello 42" hm).2,
    by decide, by decide⟩

/-- C12: an overlay call made by `Log` for arguments whose screen colour is unset
carries the severity's default colour, and for arguments whose screen duration is unset
the severity's default duration: `Verbose` and `Display` give white and 10 s, `Warning`
yellow and 20 s, `Error` red and 30 s, `Fatal` blue and 30 s. -/
theorem Log_overlay_gets_severity_defaults (E : Engine) (M : CategoryMap)
    (UniqueIdentifier : Int) (Location : SourceLocation) (LogArgs : DbgLogArgs) (Format : String)
    (Args : List String) (Key : Nat) (TimeToDisplay : ℚ) (DisplayColor : FColor)
    (Message : String)
    (h : Call.AddOnScreenDebugMessage Key TimeToDisplay DisplayColor Message ∈
      (Log E M UniqueIdentifier Location LogArgs Format Args).2) :
    (LogArgs.ScreenColorValue = FColor.Transparent →
      ((LogArgs.VerbosityValue = .Verbose ∨ LogArgs.VerbosityValue = .Display) →
        DisplayColor = FColor.White) ∧
      (LogArgs.VerbosityValue = .Warning → DisplayColor = FColor.Yellow) ∧
      (LogArgs.VerbosityValue = .Error → DisplayColor = FColor.Red) ∧
      (LogArgs.VerbosityValue = .Fatal → DisplayColor = FColor.Blue)) ∧
    (LogArgs.ScreenDurationValue < 0 →
      ((LogArgs.VerbosityValue = .Verbose ∨ LogArgs.VerbosityValue = .Display) →
        TimeToDisplay = 10) ∧
      (LogArgs.VerbosityValue = .Warning → TimeToDisplay = 20) ∧
      (LogArgs.VerbosityValue = .Error → TimeToDisplay = 30) ∧
      (LogArgs.VerbosityValue = .Fatal → TimeToDisplay = 30)) := by
  obtain ⟨hT, hC⟩ := Log_overlay_mem E M UniqueIdentifier Location LogArgs Format Args Key
    TimeToDisplay DisplayColor Message h
  constructor
  · intro hU
    rw [if_pos hU] at hC
    refine ⟨?_, ?_, ?_, ?_⟩
    · rintro (hv | hv) <;> rw [hC, hv] <;> rfl
    all_goals
      intro hv
      rw [hC, hv]
      rfl
  · intro hU
    rw [if_pos hU] at hT
    refine ⟨?_, ?_, ?_, ?_⟩
    · rintro (hv | hv) <;> rw [hT, hv] <;> rfl
    all_goals
      intro hv
      rw [hT, hv]
      rfl

/-- Witness of C12: a warning sent to the screen and the console with colour and
duration unset reaches the overlay yellow for 20 seconds. -/
theorem Log_overlay_gets_severity_defaults_witness :
    Call.AddOnScreenDebugMessage 49 20 FColor.Yellow "Hello 42" ∈
      (Log Engine.Example FDbgLogSingleton 7 SourceLocation.Example
        (({} : DbgLogArgs).Warn.ScreenAndConsole) "Hello " ["42"]).2 ∧
    (({} : DbgLogArgs).Warn.ScreenAndConsole).ScreenColorValue = FColor.Transparent ∧
    (({} : DbgLogArgs).Warn.ScreenAndConsole).ScreenDurationValue < 0 ∧
    (({} : DbgLogArgs).Warn.ScreenAndConsole).VerbosityValue = .Warning ∧
    FColor.Yellow = FColor.Yellow ∧ (20 : ℚ) = 20 :=
  have hm : Call.AddOnScreenDebugMessage 49 20 FColor.Yellow "Hello 42" ∈
      (Log Engine.Example FDbgLogSingleton 7 SourceLocation.Example
        (({} : DbgLogArgs).Warn.ScreenAndConsole) "Hello " ["42"]).2 := by decide
  ⟨hm, by decide, by decide, by decide,
    ((Log_overlay_gets_severity_defaults Engine.Example FDbgLogSingleton 7 SourceLocation.Example
      (({} : DbgLogArgs).Warn.ScreenAndConsole) "Hello " ["42"] 49 20 FColor.Yellow "Hello 42"
      hm).1 (by decide)).2.1 (by decide),
    ((Log_overlay_gets_severity_defaults Engine.Example FDbgLogSingleton 7 SourceLocation.Example
      (({} : DbgLogArgs).Warn.ScreenAndConsole) "Hello " ["42"] 49 20 FColor.Yellow "Hello 42"
      hm).2 (by decide)).2.1 (by decide)⟩

/-- C13: when the notify flag is set, both gates are passed and the call is not ended
by the only-visual-logger return, the notification sink is called exactly once, with the
decorated message and the expire duration 6 for `Verbose` and `Display`, 15 for
`Warning`, 30 for `Error` and `Fatal`; when the flag is not set the notification sink
is not called, whatever the other arguments. -/
theorem Log_notification_calls (E : Engine) (M : CategoryMap) (UniqueIdentifier : Int)
    (Location : SourceLocation) (LogArgs : DbgLogArgs) (Format : String) (Args : List String) :
    (LogArgs.bLogToSlateNotify = true →
      LogArgs.bLogConditionValue = true → LogArgs.VerbosityValue ≠ .NoLogging →
      M.Find (ResolveCategory LogArgs).GetCategoryName ≠ some ⟨false⟩ →
      ¬ (LogArgs.VisualLoggerOwnerValue.isSome ∧ LogArgs.bOnlyUseVisualLogger = true) →
        ((LogArgs.VerbosityValue = .Verbose ∨ LogArgs.VerbosityValue = .Display) →
          CallsTo .Notification (Log E M UniqueIdentifier Location LogArgs Format Args).2 =
            [Call.AddNotification
              (MessagePrefixBuilder E Location LogArgs ++ E.FormatMessage Format Args) 6]) ∧
        (LogArgs.VerbosityValue = .Warning →
          CallsTo .Notification (Log E M UniqueIdentifier Location LogArgs Format Args).2 =
            [Call.AddNotification
              (MessagePrefixBuilder E Location LogArgs ++ E.FormatMessage Format Args) 15]) ∧
        ((LogArgs.VerbosityValue = .Error ∨ LogArgs.VerbosityValue = .Fatal) →
          CallsTo .Notification (Log E M UniqueIdentifier Location LogArgs Format Args).2 =
            [Call.AddNotification
              (MessagePrefixBuilder E Location LogArgs ++ E.FormatMessage Format Args) 30])) ∧
    (LogArgs.bLogToSlateNotify = false →
      CallsTo .Notification (Log E M UniqueIdentifier Location LogArgs Format Args).2 = []) := by
  constructor
  · intro hFlag hCond hVerb hOn hStop
    have hEq := CallsTo_Notification_Log E M UniqueIdentifier Location LogArgs Format Args hCond
      hVerb hOn
    rw [if_neg (by simpa using hStop), if_pos hFlag] at hEq
    refine ⟨?_, ?_, ?_⟩
    · rintro (hv | hv) <;> rw [hEq, hv] <;> rfl
    · intro hv
      rw [hEq, hv]
      rfl
    · rintro (hv | hv) <;> rw [hEq, hv] <;> rfl
  · intro hFlag
    rcases Log_calls_cases E M UniqueIdentifier Location LogArgs Format Args with h0 | ⟨h1, h2, h3⟩
    · rw [h0]
      rfl
    · rw [CallsTo_Notification_Log E M UniqueIdentifier Location LogArgs Format Args h1 h2 h3]
      simp [hFlag]

/-- Witness of C13: an error with `LogToSlateNotify()` on the initial registry is shown
once, for 30 seconds. -/
theorem Log_notification_calls_witness :
    (({} : DbgLogArgs).Error.LogToSlateNotify).bLogToSlateNotify = true ∧
    CallsTo .Notification
      (Log Engine.Example FDbgLogSingleton 7 SourceLocation.Example
        (({} : DbgLogArgs).Error.LogToSlateNotify) "Hello " ["42"]).2 =
      [Call.AddNotification
        (MessagePrefixBuilder Engine.Example SourceLocation.Example
          (({} : DbgLogArgs).Error.LogToSlateNotify) ++
          Engine.Example.FormatMessage "Hello " ["42"]) 30] :=
  ⟨rfl,
    ((Log_notification_calls Engine.Example FDbgLogSingleton 7 SourceLocation.Example
      (({} : DbgLogArgs).Error.LogToSlateNotify) "Hello " ["42"]).1 rfl rfl (by decide)
      (by decide) (by decide)).2.2 (Or.inl rfl)⟩

/-- C14, as stated, fails: on a fresh builder, `VisualLogSphere` called with a null
owner followed by `VisualLogBox` does not give the builder of `VisualLogSphere` alone:
the owner is still null after the first call, so the second call runs and the shape is
`Box`. -/
theorem VisualLogSphere_null_owner_then_Box_gives_Box :
    ((({} : DbgLogArgs).VisualLogSphere none ⟨1, 2, 3⟩ 50).VisualLogBox (some 1)
        ⟨0, 0, 0⟩ ⟨1, 1, 1⟩ ⟨4, 5, 6⟩).VisualLogShapeValue = .Box ∧
    (({} : DbgLogArgs).VisualLogSphere none ⟨1, 2, 3⟩ 50).VisualLogShapeValue = .Sphere ∧
    (({} : DbgLogArgs).VisualLogSphere none ⟨1, 2, 3⟩ 50).VisualLogBox (some 1)
        ⟨0, 0, 0⟩ ⟨1, 1, 1⟩ ⟨4, 5, 6⟩
      ≠ ({} : DbgLogArgs).VisualLogSphere none ⟨1, 2, 3⟩ 50 := by
  refine ⟨rfl, rfl, ?_⟩
  intro h
  have h2 := congrArg DbgLogArgs.VisualLogShapeValue h
  exact absurd h2 (by decide)

/-- C14, amended: for every builder on which no visual log owner is set yet (a fresh
builder is one), every non-null owner given to `VisualLogSphere` and every value of the
other arguments of both calls, applying `VisualLogSphere` and then `VisualLogBox` yields
the same builder as applying `VisualLogSphere` alone: the resulting shape is `Sphere`
and the `Box` call changes no field. -/
theorem VisualLogSphere_then_Box_is_Sphere (A : DbgLogArgs) (Owner : UObject)
    (Location : FVector) (Radius : ℚ) (bDrawWireframe bOnlyLogVisually : Bool)
    (BoxOwner : Option UObject) (MinExtent MaxExtent BoxLocation : FVector) (Rotation : FRotator)
    (BoxColor : FColor) (bBoxWireframe bBoxOnlyLogVisually : Bool)
    (hFresh : A.VisualLoggerOwnerValue = none) :
    (A.VisualLogSphere (some Owner) Location Radius bDrawWireframe bOnlyLogVisually).VisualLogBox
        BoxOwner MinExtent MaxExtent BoxLocation Rotation BoxColor bBoxWireframe
        bBoxOnlyLogVisually
      = A.VisualLogSphere (some Owner) Location Radius bDrawWireframe bOnlyLogVisually ∧
    (A.VisualLogSphere (some Owner) Location Radius bDrawWireframe
      bOnlyLogVisually).VisualLogShapeValue = .Sphere ∧
    (A.VisualLogSphere (some Owner) Location Radius bDrawWireframe
      bOnlyLogVisually).VisualLoggerOwnerValue = some Owner := by
  have hS : A.VisualLogSphere (some Owner) Location Radius bDrawWireframe bOnlyLogVisually =
      { A with VisualLoggerOwnerValue := some Owner, VisualLogShapeValue := .Sphere,
               VisualLogShapeLocationValue := Location,
               VisualLogVectorOne := { A.VisualLogVectorOne with X := Radius },
               bDrawWireframeValue := bDrawWireframe,
               bOnlyUseVisualLogger := bOnlyLogVisually } := by
    unfold DbgLogArgs.VisualLogSphere
    rw [if_pos hFresh]
  rw [hS]
  refine ⟨?_, rfl, rfl⟩
  unfold DbgLogArgs.VisualLogBox
  rw [if_neg (by simp)]

/-- Witness of C14 amended: a sphere and then a box on the fresh builder. -/
theorem VisualLogSphere_then_Box_is_Sphere_witness :
    ({} : DbgLogArgs).VisualLoggerOwnerValue = none ∧
    ((({} : DbgLogArgs).VisualLogSphere (some 1) ⟨1, 2, 3⟩ 50 false true).VisualLogBox (some 2)
        ⟨0, 0, 0⟩ ⟨1, 1, 1⟩ ⟨4, 5, 6⟩ FRotator.ZeroRotator FColor.Red true false
      = ({} : DbgLogArgs).VisualLogSphere (some 1) ⟨1, 2, 3⟩ 50 false true) :=
  ⟨rfl,
    (VisualLogSphere_then_Box_is_Sphere {} 1 ⟨1, 2, 3⟩ 50 false true (some 2)
      ⟨0, 0, 0⟩ ⟨1, 1, 1⟩ ⟨4, 5, 6⟩ FRotator.ZeroRotator FColor.Red true false rfl).1⟩

/-- C15 at the failing input: after `VisualLogSphere` with the non-null owner 1,
`VisualLogText` with the owner 2 and `bOnlyLogVisually = false` is not ignored: it
replaces the owner, resets the shape to `None` and clears the only-visual-logger flag.
The eight shape setters, on a builder whose visual log owner is set, do change
nothing. -/
theorem VisualLogText_after_shape_is_not_ignored :
    (((({} : DbgLogArgs).VisualLogSphere (some 1) ⟨1, 2, 3⟩ 50).VisualLogText (some 2)
        false).VisualLoggerOwnerValue = some 2 ∧
      ((({} : DbgLogArgs).VisualLogSphere (some 1) ⟨1, 2, 3⟩ 50).VisualLogText (some 2)
        false).VisualLogShapeValue = .None ∧
      ((({} : DbgLogArgs).VisualLogSphere (some 1) ⟨1, 2, 3⟩ 50).VisualLogText (some 2)
        false).bOnlyUseVisualLogger = false ∧
      (({} : DbgLogArgs).VisualLogSphere (some 1) ⟨1, 2, 3⟩ 50).VisualLoggerOwnerValue = some 1 ∧
      (({} : DbgLogArgs).VisualLogSphere (some 1) ⟨1, 2, 3⟩ 50).VisualLogShapeValue = .Sphere ∧
      (({} : DbgLogArgs).VisualLogSphere (some 1) ⟨1, 2, 3⟩ 50).bOnlyUseVisualLogger = true ∧
      (({} : DbgLogArgs).VisualLogSphere (some 1) ⟨1, 2, 3⟩ 50).VisualLogText (some 2) false
        ≠ ({} : DbgLogArgs).VisualLogSphere (some 1) ⟨1, 2, 3⟩ 50) ∧
    (∀ (A : DbgLogArgs), A.VisualLoggerOwnerValue ≠ none →
      (∀ Owner Location Radius bWire bOnly,
        A.VisualLogSphere Owner Location Radius bWire bOnly = A) ∧
      (∀ Owner MinExtent MaxExtent Location Rotation Color bWire bOnly,
        A.VisualLogBox Owner MinExtent MaxExtent Location Rotation Color bWire bOnly = A) ∧
      (∀ Owner Actor Color bWire bOnly,
        A.VisualLogBounds Owner Actor Color bWire bOnly = A) ∧
      (∀ Owner Location Direction Length Angle Color bWire bOnly,
        A.VisualLogCone Owner Location Direction Length Angle Color bWire bOnly = A) ∧
      (∀ Owner Start End Thickness Color bOnly,
        A.VisualLogLine Owner Start End Thickness Color bOnly = A) ∧
      (∀ Owner Start End Color bOnly, A.VisualLogArrow Owner Start End Color bOnly = A) ∧
      (∀ Owner Start UpDir Radius Color Thickness bOnly,
        A.VisualLogDisk Owner Start UpDir Radius Color Thickness bOnly = A) ∧
      (∀ Owner Base Rotation Radius HalfHeight Color bWire bOnly,
        A.VisualLogCapsule Owner Base Rotation Radius HalfHeight Color bWire bOnly = A)) := by
  refine ⟨⟨rfl, rfl, rfl, rfl, rfl, rfl, ?_⟩, ?_⟩
  · intro h
    have h2 := congrArg DbgLogArgs.VisualLogShapeValue h
    exact absurd h2 (by decide)
  · intro A hA
    refine ⟨?_, ?_, ?_, ?_, ?_, ?_, ?_, ?_⟩
    · intros; unfold DbgLogArgs.VisualLogSphere; rw [if_neg hA]
    · intros; unfold DbgLogArgs.VisualLogBox; rw [if_neg hA]
    · intro Owner Actor Color bWire bOnly
      unfold DbgLogArgs.VisualLogBounds
      cases Actor with
      | none => rfl
      | some Act => simp only [if_neg hA]
    · intros; unfold DbgLogArgs.VisualLogCone; rw [if_neg hA]
    · intros; unfold DbgLogArgs.VisualLogLine; rw [if_neg hA]
    · intros; unfold DbgLogArgs.VisualLogArrow; rw [if_neg hA]
    · intros; unfold DbgLogArgs.VisualLogDisk; rw [if_neg hA]
    · intros; unfold DbgLogArgs.VisualLogCapsule; rw [if_neg hA]

/-- C16: for arguments built with `LogToSlateNotify(true)` (notify flag and only-notify
flag set) with no visual log owner that pass both gates, for every destination and
severity, the notification sink is called once with the decorated message, and neither
the console sink nor the overlay sink is called. -/
theorem Log_only_notify (E : Engine) (M : CategoryMap) (UniqueIdentifier : Int)
    (Location : SourceLocation) (LogArgs : DbgLogArgs) (Format : String) (Args : List String)
    (hCond : LogArgs.bLogConditionValue = true) (hVerb : LogArgs.VerbosityValue ≠ .NoLogging)
    (hOn : M.Find (ResolveCategory LogArgs).GetCategoryName ≠ some ⟨false⟩)
    (hNotify : LogArgs.bLogToSlateNotify = true) (hOnly : LogArgs.bOnlyLogToSlateNotify = true)
    (hNoSpatial : LogArgs.VisualLoggerOwnerValue = none) :
    CallsTo .Notification (Log E M UniqueIdentifier Location LogArgs Format Args).2 =
      [Call.AddNotification
        (MessagePrefixBuilder E Location LogArgs ++ E.FormatMessage Format Args)
        (VerbosityCaseExpireDuration LogArgs.VerbosityValue)] ∧
    CallsTo .Console (Log E M UniqueIdentifier Location LogArgs Format Args).2 = [] ∧
    CallsTo .Overlay (Log E M UniqueIdentifier Location LogArgs Format Args).2 = [] := by
  rw [CallsTo_Notification_Log E M UniqueIdentifier Location LogArgs Format Args hCond hVerb hOn,
    CallsTo_Console_Log E M UniqueIdentifier Location LogArgs Format Args hCond hVerb hOn,
    CallsTo_Overlay_Log E M UniqueIdentifier Location LogArgs Format Args hCond hVerb hOn]
  simp [hNotify, hOnly, hNoSpatial, LogMessage]

/-- Witness of C16: an error for the screen and the console with
`LogToSlateNotify(true)` only reaches the notification sink. -/
theorem Log_only_notify_witness :
    ((({} : DbgLogArgs).Error.ScreenAndConsole).LogToSlateNotify true).bOnlyLogToSlateNotify
      = true ∧
    CallsTo .Console
      (Log Engine.Example FDbgLogSingleton 7 SourceLocation.Example
        ((({} : DbgLogArgs).Error.ScreenAndConsole).LogToSlateNotify true) "Hello " ["42"]).2
      = [] ∧
    CallsTo .Overlay
      (Log Engine.Example FDbgLogSingleton 7 SourceLocation.Example
        ((({} : DbgLogArgs).Error.ScreenAndConsole).LogToSlateNotify true) "Hello " ["42"]).2
      = [] :=
  ⟨rfl,
    (Log_only_notify Engine.Example FDbgLogSingleton 7 SourceLocation.Example
      ((({} : DbgLogArgs).Error.ScreenAndConsole).LogToSlateNotify true) "Hello " ["42"]
      rfl (by decide) (by decide) rfl rfl rfl).2⟩

/-- C17, as stated, fails at three inputs that pass both gates with the persistent-log
flag set: with `LogToSlateNotify(true)` and the destination `Both` the overlay sink is
not called; with `VisualLogText` (only-visual-logger by default) the persistent-log sink
is not called; and with the destination `Screen` and no `GEngine` the overlay sink is
not called. -/
theorem Log_message_log_flag_counterexamples :
    (CallsTo .Overlay
      (Log Engine.Example FDbgLogSingleton 7 SourceLocation.Example
        ((({} : DbgLogArgs).LogToEditorMessageLog.ScreenAndConsole).LogToSlateNotify true)
        "Hello " ["42"]).2 = [] ∧
      ((({} : DbgLogArgs).LogToEditorMessageLog.ScreenAndConsole).LogToSlateNotify
        true).bLogToEditorMessageLog = true ∧
      ((({} : DbgLogArgs).LogToEditorMessageLog.ScreenAndConsole).LogToSlateNotify
        true).OutputDestinationValue = .Both) ∧
    (CallsTo .PersistentLog
      (Log Engine.Example FDbgLogSingleton 7 SourceLocation.Example
        ((({} : DbgLogArgs).LogToEditorMessageLog).VisualLogText (some 1))
        "Hello " ["42"]).2 = [] ∧
      ((({} : DbgLogArgs).LogToEditorMessageLog).VisualLogText
        (some 1)).bLogToEditorMessageLog = true) ∧
    (CallsTo .Overlay
      (Log Engine.NoGEngine FDbgLogSingleton 7 SourceLocation.Example
        (({} : DbgLogArgs).LogToEditorMessageLog.Screen) "Hello " ["42"]).2 = [] ∧
      (({} : DbgLogArgs).LogToEditorMessageLog.Screen).OutputDestinationValue = .Scr) ∧
    CategoryMap.Find FDbgLogSingleton (ResolveCategory {}).GetCategoryName = some ⟨true⟩ := by
  refine ⟨⟨by decide, rfl, rfl⟩, ⟨by decide, rfl⟩, ⟨by decide, rfl⟩, by decide⟩

/-- C17, amended: for arguments with the persistent-log flag set that pass both gates
and are not ended by the only-visual-logger return, the persistent-log sink receives the
decorated message under the resolved category name (and is opened exactly when
show-immediately is set) and the console sink is not called, for every destination; with
the destination `Screen` or `Both`, neither the only-notify nor the only-dialog flag set
and `GEngine` available, the overlay sink receives the decorated message. -/
theorem Log_message_log_flag (E : Engine) (M : CategoryMap) (UniqueIdentifier : Int)
    (Location : SourceLocation) (LogArgs : DbgLogArgs) (Format : String) (Args : List String)
    (hCond : LogArgs.bLogConditionValue = true) (hVerb : LogArgs.VerbosityValue ≠ .NoLogging)
    (hOn : M.Find (ResolveCategory LogArgs).GetCategoryName ≠ some ⟨false⟩)
    (hFlag : LogArgs.bLogToEditorMessageLog = true)
    (hStop : ¬ (LogArgs.VisualLoggerOwnerValue.isSome ∧ LogArgs.bOnlyUseVisualLogger = true)) :
    CallsTo .PersistentLog (Log E M UniqueIdentifier Location LogArgs Format Args).2 =
      Call.MessageLog (ResolveCategory LogArgs).GetCategoryName
          (VerbosityCaseSeverity LogArgs.VerbosityValue)
          (MessagePrefixBuilder E Location LogArgs ++ E.FormatMessage Format Args) ::
        (if LogArgs.bShowEditorMessageLogImmediately then
          [Call.MessageLogOpen (ResolveCategory LogArgs).GetCategoryName
            (VerbosityCaseSeverity LogArgs.VerbosityValue)]
         else []) ∧
    CallsTo .Console (Log E M UniqueIdentifier Location LogArgs Format Args).2 = [] ∧
    (LogArgs.OutputDestinationValue ≠ .Con → LogArgs.bOnlyLogToSlateNotify = false →
      LogArgs.bOnlyLogToMessageDialog = false → E.bGEngine = true →
      ∃ (Key : Nat) (TimeToDisplay : ℚ) (DisplayColor : FColor),
        CallsTo .Overlay (Log E M UniqueIdentifier Location LogArgs Format Args).2 =
          [Call.AddOnScreenDebugMessage Key TimeToDisplay DisplayColor
            (MessagePrefixBuilder E Location LogArgs ++ E.FormatMessage Format Args)]) := by
  have hStop2 : ¬ (LogArgs.VisualLoggerOwnerValue.isSome = true ∧
      LogArgs.bOnlyUseVisualLogger = true) := hStop
  rw [CallsTo_PersistentLog_Log E M UniqueIdentifier Location LogArgs Format Args hCond hVerb hOn,
    CallsTo_Console_Log E M UniqueIdentifier Location LogArgs Format Args hCond hVerb hOn,
    CallsTo_Overlay_Log E M UniqueIdentifier Location LogArgs Format Args hCond hVerb hOn]
  rw [if_neg hStop2, if_neg hStop2, if_neg hStop2, if_pos hFlag]
  refine ⟨rfl, ?_, ?_⟩
  · cases hd : LogArgs.OutputDestinationValue <;> simp [hFlag, hd]
  · intro hDest hN hD hG
    refine ⟨ScreenKey E UniqueIdentifier Location LogArgs,
      if LogArgs.ScreenDurationValue < 0 then VerbosityCaseScreenDuration LogArgs.VerbosityValue
      else LogArgs.ScreenDurationValue,
      if LogArgs.ScreenColorValue = FColor.Transparent then
        VerbosityCaseColor LogArgs.VerbosityValue
      else LogArgs.ScreenColorValue, ?_⟩
    rw [if_neg (by simp [hN, hD, hDest]), if_pos ⟨hDest, hG, by simp [hFlag]⟩]
    rfl

/-- Witness of C17 amended: a warning for the screen and the console with
`LogToEditorMessageLog(true)` is written to the message log, which is opened, and not to
the console. -/
theorem Log_message_log_flag_witness :
    (({} : DbgLogArgs).Warn.ScreenAndConsole.LogToEditorMessageLog true).bLogToEditorMessageLog
      = true ∧
    CallsTo .PersistentLog
      (Log Engine.Example FDbgLogSingleton 7 SourceLocation.Example
        (({} : DbgLogArgs).Warn.ScreenAndConsole.LogToEditorMessageLog true) "Hello " ["42"]).2
      = [Call.MessageLog ⟨"dbgLOG"⟩ .Warning "Hello 42", Call.MessageLogOpen ⟨"dbgLOG"⟩ .Warning] ∧
    CallsTo .Console
      (Log Engine.Example FDbgLogSingleton 7 SourceLocation.Example
        (({} : DbgLogArgs).Warn.ScreenAndConsole.LogToEditorMessageLog true) "Hello " ["42"]).2
      = [] :=
  ⟨rfl, by decide,
    (Log_message_log_flag Engine.Example FDbgLogSingleton 7 SourceLocation.Example
      (({} : DbgLogArgs).Warn.ScreenAndConsole.LogToEditorMessageLog true) "Hello " ["42"]
      rfl (by decide) (by decide) rfl (by decide)).2.1⟩

/-- C19 at the failing input: with the destination `Screen`, the default category
enabled and no `GEngine`, `Log` calls the formatter and then no sink at all: the message
is not handed to the console sink. This holds for every argument value with the
destination `Scr`: without `GEngine` neither the console sink nor the overlay sink is
called. With the destination `Both` the console sink is still called. -/
theorem Log_Screen_without_GEngine_is_lost :
    Log Engine.NoGEngine FDbgLogSingleton 7 SourceLocation.Example (({} : DbgLogArgs).Screen)
        "Hello " ["42"]
      = (FDbgLogSingleton, [Call.FormatMessage "Hello " ["42"]]) ∧
    (∀ (E : Engine) (M : CategoryMap) (UniqueIdentifier : Int) (Location : SourceLocation)
        (LogArgs : DbgLogArgs) (Format : String) (Args : List String),
      E.bGEngine = false → LogArgs.OutputDestinationValue = .Scr →
        CallsTo .Console (Log E M UniqueIdentifier Location LogArgs Format Args).2 = [] ∧
        CallsTo .Overlay (Log E M UniqueIdentifier Location LogArgs Format Args).2 = []) ∧
    Log Engine.NoGEngine FDbgLogSingleton 7 SourceLocation.Example
        (({} : DbgLogArgs).ScreenAndConsole) "Hello " ["42"]
      = (FDbgLogSingleton,
          [Call.FormatMessage "Hello " ["42"],
           Call.OutputLog SourceLocation.Example dbgLOG .Display "Hello 42"]) := by
  refine ⟨by decide, ?_, by decide⟩
  intro E M UniqueIdentifier Location LogArgs Format Args hG hd
  rcases Log_calls_cases E M UniqueIdentifier Location LogArgs Format Args with h0 | ⟨h1, h2, h3⟩
  · rw [h0]
    exact ⟨rfl, rfl⟩
  · rw [CallsTo_Console_Log E M UniqueIdentifier Location LogArgs Format Args h1 h2 h3,
      CallsTo_Overlay_Log E M UniqueIdentifier Location LogArgs Format Args h1 h2 h3]
    simp [hG, hd]

/-- C20: the prefix built by `Log` is the concatenation, in this order, of
`(timestamp) ` when date and time logging is enabled, `[prefix] ` when the prefix is not
empty, `[context] ` when a context world is set and the source location followed by one
space when source location logging is enabled (that is `DecorationPrefix`); every message
`Log` hands to a sink is this prefix followed by the formatter's output; and the prefix
is empty when none of the four is set. -/
theorem Log_message_is_prefix_then_formatted (E : Engine) (M : CategoryMap)
    (UniqueIdentifier : Int) (Location : SourceLocation) (LogArgs : DbgLogArgs) (Format : String)
    (Args : List String) :
    MessagePrefixBuilder E Location LogArgs = DecorationPrefix E Location LogArgs ∧
    (∀ c ∈ (Log E M UniqueIdentifier Location LogArgs Format Args).2,
      ∀ m : String, c.Message = some m →
        m = DecorationPrefix E Location LogArgs ++ E.FormatMessage Format Args) ∧
    (LogArgs.bLogDateAndTime = false → LogArgs.PrefixValue = "" →
      LogArgs.WCOResultValue = none → LogArgs.bLogSourceLocation = false →
        DecorationPrefix E Location LogArgs = "" ∧
        ∀ c ∈ (Log E M UniqueIdentifier Location LogArgs Format Args).2,
          ∀ m : String, c.Message = some m → m = E.FormatMessage Format Args) := by
  have hLen : (LogArgs.PrefixValue.length > 0) ↔ LogArgs.PrefixValue ≠ "" := by
    constructor
    · intro h he
      rw [he] at h
      exact absurd h (by decide)
    · intro h
      by_contra hc
      apply h
      have h0 : LogArgs.PrefixValue.length = 0 := by omega
      apply String.ext
      have hd : LogArgs.PrefixValue.data.length = 0 := h0
      rw [List.length_eq_zero] at hd
      rw [hd]
  have hEq : MessagePrefixBuilder E Location LogArgs = DecorationPrefix E Location LogArgs := by
    unfold MessagePrefixBuilder DecorationPrefix
    simp only [hLen]
    cases LogArgs.bLogDateAndTime <;> cases LogArgs.DateTimeFormat <;>
      cases LogArgs.WCOResultValue <;> cases LogArgs.bLogSourceLocation <;>
      simp [String.append_assoc]
  have hMsg : ∀ c ∈ (Log E M UniqueIdentifier Location LogArgs Format Args).2,
      ∀ m : String, c.Message = some m →
        m = DecorationPrefix E Location LogArgs ++ E.FormatMessage Format Args := by
    intro c hc m hm
    rw [← hEq]
    exact Log_calls_message E M UniqueIdentifier Location LogArgs Format Args c hc m hm
  refine ⟨hEq, hMsg, ?_⟩
  intro h1 h2 h3 h4
  have hE : DecorationPrefix E Location LogArgs = "" := by
    unfold DecorationPrefix
    simp [h1, h2, h3, h4]
  refine ⟨hE, ?_⟩
  intro c hc m hm
  have := hMsg c hc m hm
  rw [hE] at this
  simpa using this

/-- Witness of C20: a call with date and time, the prefix `P`, a client world and the
source location reaches the console sink with the four segments in order before the
formatted text. -/
theorem Log_message_is_prefix_then_formatted_witness :
    Call.OutputLog SourceLocation.Example dbgLOG .Display
        "(2025.04.03-06.42.29) [P] [Client | Instance: 1] [File: Player.cpp (42), void APlayer::Tick()] Hello 42"
      ∈ (Log Engine.Example FDbgLogSingleton 7 SourceLocation.Example
          (((({} : DbgLogArgs).LogSourceLoc.WCO (some ⟨.NM_Client, some 1⟩)).Prefix "P").LogDateAndTime)
          "Hello " ["42"]).2 ∧
    "(2025.04.03-06.42.29) [P] [Client | Instance: 1] [File: Player.cpp (42), void APlayer::Tick()] Hello 42"
      = DecorationPrefix Engine.Example SourceLocation.Example
          (((({} : DbgLogArgs).LogSourceLoc.WCO (some ⟨.NM_Client, some 1⟩)).Prefix "P").LogDateAndTime)
        ++ Engine.Example.FormatMessage "Hello " ["42"] :=
  have hm : Call.OutputLog SourceLocation.Example dbgLOG .Display
        "(2025.04.03-06.42.29) [P] [Client | Instance: 1] [File: Player.cpp (42), void APlayer::Tick()] Hello 42"
      ∈ (Log Engine.Example FDbgLogSingleton 7 SourceLocation.Example
          (((({} : DbgLogArgs).LogSourceLoc.WCO (some ⟨.NM_Client, some 1⟩)).Prefix "P").LogDateAndTime)
          "Hello " ["42"]).2 := by decide
  ⟨hm,
    (Log_message_is_prefix_then_formatted Engine.Example FDbgLogSingleton 7 SourceLocation.Example
      (((({} : DbgLogArgs).LogSourceLoc.WCO (some ⟨.NM_Client, some 1⟩)).Prefix "P").LogDateAndTime)
      "Hello " ["42"]).2.1 _ hm _ rfl⟩

/-- C21 at the failing input: `Prefix("P")` with no other decoration hands the console
sink `[P] Hello 42`, with no colon after the bracket, and a client world set with `WCO`
gives `[Client | Instance: 0] Hello 42`; neither is the documented `[...]: message`.
For every non-empty prefix alone, every message handed to a sink is `[`, the prefix,
`] ` and the formatted text. -/
theorem Log_Prefix_has_no_colon :
    (Log Engine.Example FDbgLogSingleton 7 SourceLocation.Example
        (({} : DbgLogArgs).Prefix "P") "Hello " ["42"]
      = (FDbgLogSingleton,
          [Call.FormatMessage "Hello " ["42"],
           Call.OutputLog SourceLocation.Example dbgLOG .Display "[P] Hello 42"]) ∧
      "[P] Hello 42" ≠ "[P]: Hello 42") ∧
    (Log Engine.Example FDbgLogSingleton 7 SourceLocation.Example
        (({} : DbgLogArgs).WCO (some ⟨.NM_Client, some 0⟩)) "Hello " ["42"]
      = (FDbgLogSingleton,
          [Call.FormatMessage "Hello " ["42"],
           Call.OutputLog SourceLocation.Example dbgLOG .Display
            "[Client | Instance: 0] Hello 42"]) ∧
      "[Client | Instance: 0] Hello 42" ≠ "[Client | Instance: 0]: Hello 42") ∧
    (∀ (E : Engine) (M : CategoryMap) (UniqueIdentifier : Int) (Location : SourceLocation)
        (LogArgs : DbgLogArgs) (Format : String) (Args : List String),
      LogArgs.PrefixValue ≠ "" → LogArgs.bLogDateAndTime = false →
      LogArgs.WCOResultValue = none → LogArgs.bLogSourceLocation = false →
        ∀ c ∈ (Log E M UniqueIdentifier Location LogArgs Format Args).2,
          ∀ m : String, c.Message = some m →
            m = "[" ++ LogArgs.PrefixValue ++ "] " ++ E.FormatMessage Format Args) := by
  refine ⟨⟨by decide, by decide⟩, ⟨by decide, by decide⟩, ?_⟩
  intro E M UniqueIdentifier Location LogArgs Format Args hP hD hW hS c hc m hm
  have h := Log_calls_message E M UniqueIdentifier Location LogArgs Format Args c hc m hm
  rw [h]
  have hPos : LogArgs.PrefixValue.length > 0 := (length_pos_iff_ne_empty _).mpr hP
  simp [LogMessage, MessagePrefixBuilder, hD, hW, hS, hPos]

/-- C22: the key of an overlay call made by `Log` is determined by the source line, the
instance id (`PIEID`), the call-site id (`UniqueIdentifier`) and the explicit key: two
dispatches that agree on the four give the same key. With the other three equal, two
different source lines (32-bit unsigned values) give different keys, and two different
explicit keys (32-bit signed values) give different keys. -/
theorem Log_overlay_key_determined (E1 E2 : Engine) (M1 M2 : CategoryMap)
    (UniqueIdentifier1 UniqueIdentifier2 : Int) (Location1 Location2 : SourceLocation)
    (LogArgs1 LogArgs2 : DbgLogArgs) (Format1 Format2 : String) (Args1 Args2 : List String)
    (Key1 Key2 : Nat) (TimeToDisplay1 TimeToDisplay2 : ℚ) (DisplayColor1 DisplayColor2 : FColor)
    (Message1 Message2 : String)
    (h1 : Call.AddOnScreenDebugMessage Key1 TimeToDisplay1 DisplayColor1 Message1 ∈
      (Log E1 M1 UniqueIdentifier1 Location1 LogArgs1 Format1 Args1).2)
    (h2 : Call.AddOnScreenDebugMessage Key2 TimeToDisplay2 DisplayColor2 Message2 ∈
      (Log E2 M2 UniqueIdentifier2 Location2 LogArgs2 Format2 Args2).2) :
    (Location1.line = Location2.line → E1.PIEID = E2.PIEID →
      UniqueIdentifier1 = UniqueIdentifier2 →
      LogArgs1.ScreenKeyValue = LogArgs2.ScreenKeyValue → Key1 = Key2) ∧
    (E1.PIEID = E2.PIEID → UniqueIdentifier1 = UniqueIdentifier2 →
      LogArgs1.ScreenKeyValue = LogArgs2.ScreenKeyValue →
      Location1.line < 4294967296 → Location2.line < 4294967296 →
      Location1.line ≠ Location2.line → Key1 ≠ Key2) ∧
    (Location1.line = Location2.line → E1.PIEID = E2.PIEID →
      UniqueIdentifier1 = UniqueIdentifier2 →
      ∀ k1 k2 : Int, LogArgs1.ScreenKeyValue = some k1 → LogArgs2.ScreenKeyValue = some k2 →
        -2147483648 ≤ k1 → k1 < 2147483648 → -2147483648 ≤ k2 → k2 < 2147483648 →
        k1 ≠ k2 → Key1 ≠ Key2) := by
  have e1 := Log_overlay_mem_key E1 M1 UniqueIdentifier1 Location1 LogArgs1 Format1 Args1 Key1
    TimeToDisplay1 DisplayColor1 Message1 h1
  have e2 := Log_overlay_mem_key E2 M2 UniqueIdentifier2 Location2 LogArgs2 Format2 Args2 Key2
    TimeToDisplay2 DisplayColor2 Message2 h2
  refine ⟨?_, ?_, ?_⟩
  · intro hl hp hu hk
    rw [e1, e2, hl, hp, hu, hk]
  · intro hp hu hk hl1 hl2 hne hK
    rw [e1, e2, hp, hu, hk] at hK
    apply hne
    generalize (match LogArgs2.ScreenKeyValue with
      | some K => K
      | none => 0) = k at hK
    omega
  · intro hl hp hu k1 k2 hk1 hk2 a1 a2 b1 b2 hne hK
    rw [e1, e2, hl, hp, hu, hk1, hk2] at hK
    simp only [] at hK
    apply hne
    omega

/-- Witness of C22: two dispatches from the same line and call site with the same
explicit key, but different messages and severities, reach the overlay with the same
key. -/
theorem Log_overlay_key_determined_witness :
    Call.AddOnScreenDebugMessage 52 10 FColor.White "Hello 42" ∈
      (Log Engine.Example FDbgLogSingleton 7 SourceLocation.Example
        ((({} : DbgLogArgs).Screen).ScrnKey 3) "Hello " ["42"]).2 ∧
    Call.AddOnScreenDebugMessage 52 20 FColor.Yellow "Bye" ∈
      (Log Engine.Example FDbgLogSingleton 7 SourceLocation.Example
        ((({} : DbgLogArgs).Warn.ScreenAndConsole).ScrnKey 3) "Bye" []).2 ∧
    (52 : Nat) = 52 :=
  have h1 : Call.AddOnScreenDebugMessage 52 10 FColor.White "Hello 42" ∈
      (Log Engine.Example FDbgLogSingleton 7 SourceLocation.Example
        ((({} : DbgLogArgs).Screen).ScrnKey 3) "Hello " ["42"]).2 := by decide
  have h2 : Call.AddOnScreenDebugMessage 52 20 FColor.Yellow "Bye" ∈
      (Log Engine.Example FDbgLogSingleton 7 SourceLocation.Example
        ((({} : DbgLogArgs).Warn.ScreenAndConsole).ScrnKey 3) "Bye" []).2 := by decide
  ⟨h1, h2,
    (Log_overlay_key_determined Engine.Example Engine.Example FDbgLogSingleton FDbgLogSingleton
      7 7 SourceLocation.Example SourceLocation.Example _ _ "Hello " "Bye" ["42"] [] 52 52
      10 20 FColor.White FColor.Yellow "Hello 42" "Bye" h1 h2).1 rfl rfl rfl rfl⟩

/-- C23 at the failing input: on an engine version newer than 5.4, while the visual
logger is recording, a call with `VisualLogCone` makes two calls to the visual logger,
the cone and then a segment (the `Cone` case runs on into the `Line` case), not one.
For every argument value that passes both gates with a non-null owner while recording,
the calls to the visual logger are those of the shape switch, and for every shape other
than `Cone` (and for `Cone` up to version 5.4) that is one call. On a version newer than
5.4 the call made for the builder after each shape setter carries the setter's
arguments; after `VisualLogCone` there are two. -/
theorem Log_VisualLogCone_emits_twice :
    CallsTo .Spatial
      (Log Engine.Example FDbgLogSingleton 7 SourceLocation.Example
        (({} : DbgLogArgs).VisualLogCone (some 1) ⟨1, 2, 3⟩ ⟨0, 0, 1⟩ 100 30) "Hello " ["42"]).2
      = [Call.VisualLogger 1 dbgLOG .Display
          (.ConeLogf ⟨1, 2, 3⟩ ⟨0, 0, 1⟩ 100 30 FColor.Orange (some false)) "Hello 42",
         Call.VisualLogger 1 dbgLOG .Display
          (.SegmentLogf ⟨1, 2, 3⟩ ⟨0, 0, 1⟩ FColor.Orange 100) "Hello 42"] ∧
    (∀ (E : Engine) (M : CategoryMap) (UniqueIdentifier : Int) (Location : SourceLocation)
        (LogArgs : DbgLogArgs) (Format : String) (Args : List String) (Owner : UObject),
      LogArgs.bLogConditionValue = true → LogArgs.VerbosityValue ≠ .NoLogging →
      M.Find (ResolveCategory LogArgs).GetCategoryName ≠ some ⟨false⟩ →
      E.bENABLE_VISUAL_LOG = true → E.bIsRecording = true →
      LogArgs.VisualLoggerOwnerValue = some Owner →
        CallsTo .Spatial (Log E M UniqueIdentifier Location LogArgs Format Args).2 =
          VisualLogSwitch E LogArgs Owner (ResolveCategory LogArgs)
            (MessagePrefixBuilder E Location LogArgs ++ E.FormatMessage Format Args) ∧
        ((LogArgs.VisualLogShapeValue ≠ .Cone ∨ E.bUE_VERSION_NEWER_THAN_5_4_0 = false) →
          (CallsTo .Spatial
            (Log E M UniqueIdentifier Location LogArgs Format Args).2).length = 1) ∧
        (LogArgs.VisualLogShapeValue = .Cone → E.bUE_VERSION_NEWER_THAN_5_4_0 = true →
          (CallsTo .Spatial
            (Log E M UniqueIdentifier Location LogArgs Format Args).2).length = 2)) ∧
    (∀ (E : Engine) (A : DbgLogArgs) (Owner : UObject) (LC : FLogCategoryBase) (Msg : String),
      A.VisualLoggerOwnerValue = none → E.bUE_VERSION_NEWER_THAN_5_4_0 = true →
      (∀ (Location : FVector) (Radius : ℚ) (bWire bOnly : Bool),
        VisualLogSwitch E (A.VisualLogSphere (some Owner) Location Radius bWire bOnly) Owner LC Msg
          = [Call.VisualLogger Owner LC A.VerbosityValue
              (.SphereLogf Location Radius A.VisualLogShapeColorValue (some bWire)) Msg]) ∧
      (∀ (MinExtent MaxExtent Location : FVector) (Rotation : FRotator) (Color : FColor)
          (bWire bOnly : Bool),
        VisualLogSwitch E
            (A.VisualLogBox (some Owner) MinExtent MaxExtent Location Rotation Color bWire bOnly)
            Owner LC Msg
          = [Call.VisualLogger Owner LC A.VerbosityValue
              (.BoxLogf ⟨MinExtent, MaxExtent⟩ A.VisualLogShapeScaleValue Rotation Location Color
                (some bWire)) Msg]) ∧
      (∀ (Start End : FVector) (Thickness : ℚ) (Color : FColor) (bOnly : Bool),
        VisualLogSwitch E (A.VisualLogLine (some Owner) Start End Thickness Color bOnly)
            Owner LC Msg
          = [Call.VisualLogger Owner LC A.VerbosityValue
              (.SegmentLogf Start End Color (CastUInt16 Thickness)) Msg]) ∧
      (∀ (Start End : FVector) (Color : FColor) (bOnly : Bool),
        VisualLogSwitch E (A.VisualLogArrow (some Owner) Start End Color bOnly) Owner LC Msg
          = [Call.VisualLogger Owner LC A.VerbosityValue (.ArrowLogf Start End Color) Msg]) ∧
      (∀ (Start UpDir : FVector) (Radius : ℚ) (Color : FColor) (Thickness : Nat) (bOnly : Bool),
        Thickness < 65536 →
        VisualLogSwitch E (A.VisualLogDisk (some Owner) Start UpDir Radius Color Thickness bOnly)
            Owner LC Msg
          = [Call.VisualLogger Owner LC A.VerbosityValue
              (.CircleLogf Start UpDir Radius Color Thickness) Msg]) ∧
      (∀ (Base : FVector) (Rotation : FRotator) (Radius HalfHeight : ℚ) (Color : FColor)
          (bWire bOnly : Bool),
        VisualLogSwitch E
            (A.VisualLogCapsule (some Owner) Base Rotation Radius HalfHeight Color bWire bOnly)
            Owner LC Msg
          = [Call.VisualLogger Owner LC A.VerbosityValue
              (.CapsuleLogf Base HalfHeight Radius Rotation Color (some bWire)) Msg]) ∧
      (∀ (Location Direction : FVector) (Length Angle : ℚ) (Color : FColor)
          (bWire bOnly : Bool),
        VisualLogSwitch E
            (A.VisualLogCone (some Owner) Location Direction Length Angle Color bWire bOnly)
            Owner LC Msg
          = [Call.VisualLogger Owner LC A.VerbosityValue
              (.ConeLogf Location Direction Length Angle Color (some bWire)) Msg,
             Call.VisualLogger Owner LC A.VerbosityValue
              (.SegmentLogf Location Direction Color (CastUInt16 Length)) Msg])) := by
  refine ⟨by decide, ?_, ?_⟩
  rotate_left
  · intro E A Owner LC Msg hA hV
    refine ⟨?_, ?_, ?_, ?_, ?_, ?_, ?_⟩
    · intros
      simp [VisualLogSwitch, DbgLogArgs.VisualLogSphere, hA, hV]
    · intros
      simp [VisualLogSwitch, DbgLogArgs.VisualLogBox, hA, hV]
    · intros
      simp [VisualLogSwitch, DbgLogArgs.VisualLogLine, hA]
    · intros
      simp [VisualLogSwitch, DbgLogArgs.VisualLogArrow, hA]
    · intro Start UpDir Radius Color Thickness bOnly hT
      have hc : CastUInt16 ((Thickness % 65536 : Nat) : ℚ) = Thickness := by
        unfold CastUInt16
        rw [Nat.mod_eq_of_lt hT]
        have hf : Rat.floor (Thickness : ℚ) = (Thickness : Int) := by
          rw [Rat.floor_def']
          simp
        rw [if_pos (Nat.cast_nonneg Thickness), hf]
        omega
      simp [VisualLogSwitch, DbgLogArgs.VisualLogDisk, hA, hc]
    · intros
      simp [VisualLogSwitch, DbgLogArgs.VisualLogCapsule, hA, hV]
    · intros
      simp [VisualLogSwitch, DbgLogArgs.VisualLogCone, hA, hV]
  intro E M UniqueIdentifier Location LogArgs Format Args Owner hCond hVerb hOn hEn hRec hOwner
  have hS : CallsTo .Spatial (Log E M UniqueIdentifier Location LogArgs Format Args).2 =
      VisualLogSwitch E LogArgs Owner (ResolveCategory LogArgs)
        (MessagePrefixBuilder E Location LogArgs ++ E.FormatMessage Format Args) := by
    rw [CallsTo_Spatial_Log E M UniqueIdentifier Location LogArgs Format Args hCond hVerb hOn]
    simp [VisualLogBlock, hEn, hRec, hOwner, LogMessage]
  refine ⟨hS, ?_, ?_⟩
  · intro h
    rw [hS]
    unfold VisualLogSwitch
    cases hs : LogArgs.VisualLogShapeValue <;> cases hv : E.bUE_VERSION_NEWER_THAN_5_4_0 <;>
      simp [hs, hv] at h ⊢
  · intro hs hv
    rw [hS]
    unfold VisualLogSwitch
    simp [hs, hv]

/-- C24, as stated, fails: with the dialog flag set and the destination `Con`, the
dialog is opened and the response callback is run before the console sink is called. -/
theorem Log_dialog_precedes_console :
    Log Engine.Example FDbgLogSingleton 7 SourceLocation.Example
        (({} : DbgLogArgs).LogToMessageDialog (some 9) .YesNo) "Hello " ["42"]
      = (FDbgLogSingleton,
          [Call.FormatMessage "Hello " ["42"],
           Call.MessageDialogOpen .YesNo "Hello 42" ⟨"dbgLOG"⟩,
           Call.AppMessageResponse 9 .Ok,
           Call.OutputLog SourceLocation.Example dbgLOG .Display "Hello 42"]) := by
  decide

/-- C24, amended: in every dispatch that passes both gates with the dialog flag set and
is not ended by the only-visual-logger return, the dialog sink is invoked before the
console and overlay sink calls of the same dispatch, and the response callback, if
supplied, runs directly after the dialog returns, with the user's response: the calls
are a first part with no console, overlay, dialog or callback call, then the dialog,
then the callback if there is one, then only console and overlay calls. -/
theorem Log_dialog_order (E : Engine) (M : CategoryMap) (UniqueIdentifier : Int)
    (Location : SourceLocation) (LogArgs : DbgLogArgs) (Format : String) (Args : List String)
    (hCond : LogArgs.bLogConditionValue = true) (hVerb : LogArgs.VerbosityValue ≠ .NoLogging)
    (hOn : M.Find (ResolveCategory LogArgs).GetCategoryName ≠ some ⟨false⟩)
    (hDialog : LogArgs.bLogToMessageDialog = true)
    (hStop : ¬ (LogArgs.VisualLoggerOwnerValue.isSome ∧ LogArgs.bOnlyUseVisualLogger = true)) :
    ∃ Before After : List Call,
      (Log E M UniqueIdentifier Location LogArgs Format Args).2 =
        Before ++
        (Call.MessageDialogOpen LogArgs.AppMsgType
            (MessagePrefixBuilder E Location LogArgs ++ E.FormatMessage Format Args)
            (ResolveCategory LogArgs).GetCategoryName ::
          (match LogArgs.AppMessageResponse with
           | some Callback =>
             [Call.AppMessageResponse Callback
               (E.MessageDialogOpen LogArgs.AppMsgType
                 (MessagePrefixBuilder E Location LogArgs ++ E.FormatMessage Format Args)
                 (ResolveCategory LogArgs).GetCategoryName)]
           | none => [])) ++
        After ∧
      (∀ c ∈ Before, c.Sink ≠ .Console ∧ c.Sink ≠ .Overlay ∧ c.Sink ≠ .Dialog ∧
        c.Sink ≠ .Response) ∧
      (∀ c ∈ After, c.Sink = .Console ∨ c.Sink = .Overlay) := by
  have hStop2 : ¬ (LogArgs.VisualLoggerOwnerValue.isSome = true ∧
      LogArgs.bOnlyUseVisualLogger = true) := hStop
  refine ⟨Call.FormatMessage Format Args ::
      (VisualLogBlock E LogArgs (ResolveCategory LogArgs)
          (LogMessage E Location LogArgs Format Args) ++
        (VerbositySwitch LogArgs (ResolveCategory LogArgs)
          (LogMessage E Location LogArgs Format Args)).2),
    if LogArgs.bOnlyLogToSlateNotify ∨ LogArgs.bOnlyLogToMessageDialog
        ∨ (LogArgs.bLogToEditorMessageLog ∧ LogArgs.OutputDestinationValue = .Con)
    then []
    else
      OutputSwitch E (ScreenKey E UniqueIdentifier Location LogArgs) Location
        (VerbositySwitch LogArgs (ResolveCategory LogArgs)
          (LogMessage E Location LogArgs Format Args)).1
        (ResolveCategory LogArgs) (LogMessage E Location LogArgs Format Args), ?_, ?_, ?_⟩
  · rw [Log_calls_of_passed E M UniqueIdentifier Location LogArgs Format Args hCond hVerb hOn,
      if_neg hStop2]
    simp [MessageDialogBlock, hDialog, LogMessage, List.append_assoc]
  · intro c hc
    simp only [List.mem_cons, List.mem_append] at hc
    rcases hc with rfl | hc | hc
    · simp [Call.Sink]
    · rw [(VisualLogBlock_sink _ _ _ _ c hc).1]
      simp
    · rcases (VerbositySwitch_sink _ _ _ c hc).1 with h | h <;> rw [h] <;> simp
  · intro c hc
    split at hc
    · simp at hc
    · exact (OutputSwitch_sink _ _ _ _ _ _ c hc).1

/-- Witness of C24 amended: the dialog of a call sent to the screen and the console,
with no callback. -/
theorem Log_dialog_order_witness :
    ((({} : DbgLogArgs).ScreenAndConsole).LogToMessageDialog none .Ok).bLogToMessageDialog = true ∧
    ∃ Before After : List Call,
      (Log Engine.Example FDbgLogSingleton 7 SourceLocation.Example
        ((({} : DbgLogArgs).ScreenAndConsole).LogToMessageDialog none .Ok) "Hello " ["42"]).2 =
        Before ++
        (Call.MessageDialogOpen
            ((({} : DbgLogArgs).ScreenAndConsole).LogToMessageDialog none .Ok).AppMsgType
            (MessagePrefixBuilder Engine.Example SourceLocation.Example
              ((({} : DbgLogArgs).ScreenAndConsole).LogToMessageDialog none .Ok) ++
              Engine.Example.FormatMessage "Hello " ["42"])
            (ResolveCategory
              ((({} : DbgLogArgs).ScreenAndConsole).LogToMessageDialog none .Ok)).GetCategoryName ::
          (match ((({} : DbgLogArgs).ScreenAndConsole).LogToMessageDialog none
              .Ok).AppMessageResponse with
           | some Callback =>
             [Call.AppMessageResponse Callback
               (Engine.Example.MessageDialogOpen
                 ((({} : DbgLogArgs).ScreenAndConsole).LogToMessageDialog none .Ok).AppMsgType
                 (MessagePrefixBuilder Engine.Example SourceLocation.Example
                   ((({} : DbgLogArgs).ScreenAndConsole).LogToMessageDialog none .Ok) ++
                   Engine.Example.FormatMessage "Hello " ["42"])
                 (ResolveCategory
                   ((({} : DbgLogArgs).ScreenAndConsole).LogToMessageDialog none
                     .Ok)).GetCategoryName)]
           | none => [])) ++
        After ∧
      (∀ c ∈ Before, c.Sink ≠ .Console ∧ c.Sink ≠ .Overlay ∧ c.Sink ≠ .Dialog ∧
        c.Sink ≠ .Response) ∧
      (∀ c ∈ After, c.Sink = .Console ∨ c.Sink = .Overlay) :=
  ⟨rfl,
    Log_dialog_order Engine.Example FDbgLogSingleton 7 SourceLocation.Example
      ((({} : DbgLogArgs).ScreenAndConsole).LogToMessageDialog none .Ok) "Hello " ["42"]
      rfl (by decide) (by decide) rfl (by decide)⟩

/-- C25 at the failing inputs: a `Fatal` event that passes both gates with the
destination `Screen` is shown on the overlay, and with `LogToSlateNotify(true)` it is
shown as a notification only: in both runs `OutputLog` is never called, so the fatal
path `BasicFatalLog` is not taken and the process goes on, against the comment on
`DbgLogArgs::Fatal` (this will crash the application). For every argument value with the
destination `Scr`, or with the only-notify or the only-dialog flag set, the console sink
is not called. With the default destination the same event does reach the console sink,
whose fatal path is taken for every category. -/
theorem Log_Fatal_without_console :
    Log Engine.Example FDbgLogSingleton 7 SourceLocation.Example
        (({} : DbgLogArgs).Fatal.Screen) "Hello " ["42"]
      = (FDbgLogSingleton,
          [Call.FormatMessage "Hello " ["42"],
           Call.AddOnScreenDebugMessage 49 30 FColor.Blue "Hello 42"]) ∧
    Log Engine.Example FDbgLogSingleton 7 SourceLocation.Example
        (({} : DbgLogArgs).Fatal.LogToSlateNotify true) "Hello " ["42"]
      = (FDbgLogSingleton,
          [Call.FormatMessage "Hello " ["42"], Call.AddNotification "Hello 42" 30]) ∧
    (∀ (E : Engine) (M : CategoryMap) (UniqueIdentifier : Int) (Location : SourceLocation)
        (LogArgs : DbgLogArgs) (Format : String) (Args : List String),
      (LogArgs.OutputDestinationValue = .Scr ∨ LogArgs.bOnlyLogToSlateNotify = true ∨
        LogArgs.bOnlyLogToMessageDialog = true) →
        CallsTo .Console (Log E M UniqueIdentifier Location LogArgs Format Args).2 = []) ∧
    Log Engine.Example FDbgLogSingleton 7 SourceLocation.Example
        (({} : DbgLogArgs).Fatal) "Hello " ["42"]
      = (FDbgLogSingleton,
          [Call.FormatMessage "Hello " ["42"],
           Call.OutputLog SourceLocation.Example dbgLOG .Fatal "Hello 42"]) ∧
    (∀ LC : FLogCategoryBase, OutputLog LC .Fatal = some .BasicFatalLog) := by
  refine ⟨by decide, by decide, ?_, by decide, fun _ => rfl⟩
  intro E M UniqueIdentifier Location LogArgs Format Args h
  rcases Log_calls_cases E M UniqueIdentifier Location LogArgs Format Args with h0 | ⟨h1, h2, h3⟩
  · rw [h0]
    rfl
  · rw [CallsTo_Console_Log E M UniqueIdentifier Location LogArgs Format Args h1 h2 h3]
    rcases h with h | h | h <;> simp [h]

/-- C27, as stated, fails: the first argument is compared with `All` without regard to
letter case. `dbgLog.DisableCategory all All` on the initial registry has `All` only in
the second position, and still the bulk form is taken: the default category is disabled
and neither `all` nor `All` is registered. -/
theorem All_in_other_letter_case_is_bulk :
    "all" ≠ "All" ∧
    (DisableCategoryCommand FDbgLogSingleton ["all", "All"]).1 = [(⟨"dbgLOG"⟩, ⟨false⟩)] ∧
    (DisableCategoryCommand FDbgLogSingleton ["all", "All"]).1.Find ⟨"All"⟩ = none ∧
    (DisableCategoryCommand FDbgLogSingleton ["all", "All"]).1.Find ⟨"all"⟩ = none ∧
    (EnableCategoryCommand [(⟨"dbgLOG"⟩, ⟨false⟩)] ["ALL", "All"]).1 = [(⟨"dbgLOG"⟩, ⟨true⟩)] := by
  refine ⟨by decide, by decide, by decide, by decide, by decide⟩

/-- C27, amended: in both commands the bulk form is taken exactly when the first argument
equals `All` without regard to letter case: the result is then that of `All` alone,
whatever follows, with the same names as before. With another first argument every
argument is an ordinary name, `All` included: each argument name is then found with the
commanded state, so a category named `All` is registered, and every other name is found
as before. With no argument the registry is unchanged. -/
theorem All_is_bulk_only_as_first_argument (M : CategoryMap) (First : String)
    (Rest : List String) :
    (FString.Equals First "All" = true →
      (EnableCategoryCommand M (First :: Rest)).1 = (EnableCategoryCommand M ["All"]).1 ∧
      (EnableCategoryCommand M (First :: Rest)).1.Names = M.Names ∧
      (DisableCategoryCommand M (First :: Rest)).1 = (DisableCategoryCommand M ["All"]).1 ∧
      (DisableCategoryCommand M (First :: Rest)).1.Names = M.Names) ∧
    (FString.Equals First "All" = false →
      (∀ N : FName, (EnableCategoryCommand M (First :: Rest)).1.Find N =
        if N ∈ (First :: Rest).map FName.ofString then some ⟨true⟩ else M.Find N) ∧
      (∀ N : FName, (DisableCategoryCommand M (First :: Rest)).1.Find N =
        if N ∈ (First :: Rest).map FName.ofString then some ⟨false⟩ else M.Find N) ∧
      ("All" ∈ Rest →
        (EnableCategoryCommand M (First :: Rest)).1.Find ⟨"All"⟩ = some ⟨true⟩ ∧
        (DisableCategoryCommand M (First :: Rest)).1.Find ⟨"All"⟩ = some ⟨false⟩)) ∧
    ((EnableCategoryCommand M []).1 = M ∧ (DisableCategoryCommand M []).1 = M) := by
  have hAllEq : FString.Equals "All" "All" = true := by decide
  refine ⟨?_, ?_, rfl, rfl⟩
  · intro hF
    have hE : (EnableCategoryCommand M (First :: Rest)).1 = SetAllStates M true := by
      simp only [EnableCategoryCommand, if_pos hF]
    have hD : (DisableCategoryCommand M (First :: Rest)).1 = SetAllStates M false := by
      simp only [DisableCategoryCommand, if_pos hF]
    have hE2 : (EnableCategoryCommand M ["All"]).1 = SetAllStates M true := by
      simp only [EnableCategoryCommand, if_pos hAllEq]
    have hD2 : (DisableCategoryCommand M ["All"]).1 = SetAllStates M false := by
      simp only [DisableCategoryCommand, if_pos hAllEq]
    rw [hE, hD, hE2, hD2]
    exact ⟨rfl, CategoryMap.Names_SetAllStates M true, rfl,
      CategoryMap.Names_SetAllStates M false⟩
  · intro hF
    have hF2 : ¬ FString.Equals First "All" = true := by simp [hF]
    have hE : ∀ N : FName, (EnableCategoryCommand M (First :: Rest)).1.Find N =
        if N ∈ (First :: Rest).map FName.ofString then some ⟨true⟩ else M.Find N := by
      intro N
      simp only [EnableCategoryCommand, if_neg hF2]
      exact Find_SetEachState (First :: Rest) true M N
    have hD : ∀ N : FName, (DisableCategoryCommand M (First :: Rest)).1.Find N =
        if N ∈ (First :: Rest).map FName.ofString then some ⟨false⟩ else M.Find N := by
      intro N
      simp only [DisableCategoryCommand, if_neg hF2]
      exact Find_SetEachState (First :: Rest) false M N
    refine ⟨hE, hD, ?_⟩
    intro hAll
    have hm : (⟨"All"⟩ : FName) ∈ (First :: Rest).map FName.ofString := by
      simp only [List.map_cons, List.mem_cons, List.mem_map]
      exact Or.inr ⟨"All", hAll, by decide⟩
    rw [hE, hD, if_pos hm, if_pos hm]
    exact ⟨rfl, rfl⟩

/-- Witness of C27 amended: `dbgLog.DisableCategory Foo All` on the initial registry
registers `Foo` and `All` as disabled and leaves the default category enabled. -/
theorem All_is_bulk_only_as_first_argument_witness :
    FString.Equals "Foo" "All" = false ∧
    (DisableCategoryCommand FDbgLogSingleton ["Foo", "All"]).1
      = [(⟨"dbgLOG"⟩, ⟨true⟩), (⟨"Foo"⟩, ⟨false⟩), (⟨"All"⟩, ⟨false⟩)] ∧
    (DisableCategoryCommand FDbgLogSingleton ["Foo", "All"]).1.Find ⟨"All"⟩ = some ⟨false⟩ :=
  ⟨by decide, by decide,
    (((All_is_bulk_only_as_first_argument FDbgLogSingleton "Foo" ["All"]).2.1 (by decide)).2.2
      (by decide)).2⟩

/-- C28: the key of an overlay call made by `Log` is the sum of the line, the instance
id, the call-site id and the explicit key (0 when unset), at 32-bit width, and the sum
itself when it lies between 0 and 2^32. It does not tell call sites apart: line 10 with
call-site id 5 and line 11 with call-site id 4 both get the key 15. An unset explicit
key gives the same key as `ScrnKey(0)`. -/
theorem ScreenKey_is_plain_sum :
    (∀ (E : Engine) (M : CategoryMap) (UniqueIdentifier : Int) (Location : SourceLocation)
        (LogArgs : DbgLogArgs) (Format : String) (Args : List String) (Key : Nat)
        (TimeToDisplay : ℚ) (DisplayColor : FColor) (Message : String),
      Call.AddOnScreenDebugMessage Key TimeToDisplay DisplayColor Message ∈
        (Log E M UniqueIdentifier Location LogArgs Format Args).2 →
        (Key : Int) = ((Location.line : Int) + E.PIEID + UniqueIdentifier +
          (LogArgs.ScreenKeyValue.getD 0)) % 4294967296 ∧
        (0 ≤ (Location.line : Int) + E.PIEID + UniqueIdentifier +
            (LogArgs.ScreenKeyValue.getD 0) →
          (Location.line : Int) + E.PIEID + UniqueIdentifier +
            (LogArgs.ScreenKeyValue.getD 0) < 4294967296 →
          (Key : Int) = (Location.line : Int) + E.PIEID + UniqueIdentifier +
            (LogArgs.ScreenKeyValue.getD 0))) ∧
    (Call.AddOnScreenDebugMessage 15 10 FColor.White "Hello 42" ∈
        (Log Engine.Example FDbgLogSingleton 5 ⟨"Game/Player.cpp", 10, "void APlayer::Tick()"⟩
          (({} : DbgLogArgs).Screen) "Hello " ["42"]).2 ∧
      Call.AddOnScreenDebugMessage 15 10 FColor.White "Hello 42" ∈
        (Log Engine.Example FDbgLogSingleton 4 ⟨"Game/Player.cpp", 11, "void APlayer::Tick()"⟩
          (({} : DbgLogArgs).Screen) "Hello " ["42"]).2) ∧
    (∀ (E : Engine) (M : CategoryMap) (UniqueIdentifier : Int) (Location : SourceLocation)
        (LogArgs : DbgLogArgs) (Format : String) (Args : List String),
      LogArgs.ScreenKeyValue = none →
        ScreenKey E UniqueIdentifier Location (LogArgs.ScrnKey 0)
          = ScreenKey E UniqueIdentifier Location LogArgs ∧
        Log E M UniqueIdentifier Location (LogArgs.ScrnKey 0) Format Args
          = Log E M UniqueIdentifier Location LogArgs Format Args) := by
  refine ⟨?_, ⟨by decide, by decide⟩, ?_⟩
  · intro E M UniqueIdentifier Location LogArgs Format Args Key TimeToDisplay DisplayColor
      Message h
    have e := Log_overlay_mem_key E M UniqueIdentifier Location LogArgs Format Args Key
      TimeToDisplay DisplayColor Message h
    have hk : (match LogArgs.ScreenKeyValue with
        | some K => K
        | none => 0) = LogArgs.ScreenKeyValue.getD 0 := by
      cases LogArgs.ScreenKeyValue <;> rfl
    rw [hk] at e
    constructor
    · rw [e]
      omega
    · intro h0 h1
      rw [e]
      omega
  · intro E M UniqueIdentifier Location LogArgs Format Args hNone
    have hK : ScreenKey E UniqueIdentifier Location (LogArgs.ScrnKey 0)
        = ScreenKey E UniqueIdentifier Location LogArgs := by
      unfold ScreenKey
      simp [DbgLogArgs.ScrnKey, hNone]
    refine ⟨hK, ?_⟩
    have hS : ∀ (LC : FLogCategoryBase) (Msg : String),
        ScreenKey E UniqueIdentifier Location (VerbositySwitch (LogArgs.ScrnKey 0) LC Msg).1
          = ScreenKey E UniqueIdentifier Location (VerbositySwitch LogArgs LC Msg).1 := by
      intro LC Msg
      rw [ScreenKey_switched, ScreenKey_switched, hK]
    have hO : ∀ (K : Nat) (LC : FLogCategoryBase) (Msg : String),
        OutputSwitch E K Location (VerbositySwitch (LogArgs.ScrnKey 0) LC Msg).1 LC Msg
          = OutputSwitch E K Location (VerbositySwitch LogArgs LC Msg).1 LC Msg := by
      intro K LC Msg
      rw [VerbositySwitch_args, VerbositySwitch_args]
      rfl
    have hD : ∀ (LC : FLogCategoryBase) (Msg : String),
        MessageDialogBlock E (VerbositySwitch (LogArgs.ScrnKey 0) LC Msg).1 LC Msg
          = MessageDialogBlock E (VerbositySwitch LogArgs LC Msg).1 LC Msg := by
      intro LC Msg
      rw [MessageDialogBlock_switched, MessageDialogBlock_switched]
      rfl
    have hC : ∀ (LC : FLogCategoryBase) (Msg : String),
        (VerbositySwitch (LogArgs.ScrnKey 0) LC Msg).2 = (VerbositySwitch LogArgs LC Msg).2 := by
      intro LC Msg
      rw [VerbositySwitch_calls, VerbositySwitch_calls]
      rfl
    have hF : ∀ (LC : FLogCategoryBase) (Msg : String),
        ((VerbositySwitch (LogArgs.ScrnKey 0) LC Msg).1.bOnlyLogToSlateNotify
          = (VerbositySwitch LogArgs LC Msg).1.bOnlyLogToSlateNotify) ∧
        ((VerbositySwitch (LogArgs.ScrnKey 0) LC Msg).1.bOnlyLogToMessageDialog
          = (VerbositySwitch LogArgs LC Msg).1.bOnlyLogToMessageDialog) ∧
        ((VerbositySwitch (LogArgs.ScrnKey 0) LC Msg).1.bLogToEditorMessageLog
          = (VerbositySwitch LogArgs LC Msg).1.bLogToEditorMessageLog) ∧
        ((VerbositySwitch (LogArgs.ScrnKey 0) LC Msg).1.OutputDestinationValue
          = (VerbositySwitch LogArgs LC Msg).1.OutputDestinationValue) := by
      intro LC Msg
      rw [VerbositySwitch_args, VerbositySwitch_args]
      exact ⟨rfl, rfl, rfl, rfl⟩
    have hR : ResolveCategory (LogArgs.ScrnKey 0) = ResolveCategory LogArgs := rfl
    have hP : MessagePrefixBuilder E Location (LogArgs.ScrnKey 0) =
        MessagePrefixBuilder E Location LogArgs := rfl
    have hV : ∀ (LC : FLogCategoryBase) (Msg : String),
        VisualLogBlock E (LogArgs.ScrnKey 0) LC Msg = VisualLogBlock E LogArgs LC Msg :=
      fun _ _ => rfl
    unfold Log
    simp only [hR, hP, hV, hS, hO, hD, hC, (hF _ _).1, (hF _ _).2.1, (hF _ _).2.2.1,
      (hF _ _).2.2.2]
    rfl

/-- C29: for arguments with a non-null visual log owner and the only-visual-logger flag
set, `Log` makes no console, overlay, notification, persistent-log or dialog call (and
runs no response callback), whether or not the visual logger is recording; when it is
not recording, no sink at all is called, and past both gates the formatter's call is the
only call made. -/
theorem Log_only_visual_logger (E : Engine) (M : CategoryMap) (UniqueIdentifier : Int)
    (Location : SourceLocation) (LogArgs : DbgLogArgs) (Format : String) (Args : List String)
    (Owner : UObject) (hOwner : LogArgs.VisualLoggerOwnerValue = some Owner)
    (hOnly : LogArgs.bOnlyUseVisualLogger = true) :
    (CallsTo .Console (Log E M UniqueIdentifier Location LogArgs Format Args).2 = [] ∧
      CallsTo .Overlay (Log E M UniqueIdentifier Location LogArgs Format Args).2 = [] ∧
      CallsTo .Notification (Log E M UniqueIdentifier Location LogArgs Format Args).2 = [] ∧
      CallsTo .PersistentLog (Log E M UniqueIdentifier Location LogArgs Format Args).2 = [] ∧
      CallsTo .Dialog (Log E M UniqueIdentifier Location LogArgs Format Args).2 = [] ∧
      CallsTo .Response (Log E M UniqueIdentifier Location LogArgs Format Args).2 = []) ∧
    (E.bIsRecording = false →
      (Log E M UniqueIdentifier Location LogArgs Format Args).2.filter Call.IsSink = [] ∧
      (LogArgs.bLogConditionValue = true → LogArgs.VerbosityValue ≠ .NoLogging →
        M.Find (ResolveCategory LogArgs).GetCategoryName ≠ some ⟨false⟩ →
          (Log E M UniqueIdentifier Location LogArgs Format Args).2
            = [Call.FormatMessage Format Args])) := by
  have hPassed : LogArgs.bLogConditionValue = true → LogArgs.VerbosityValue ≠ .NoLogging →
      M.Find (ResolveCategory LogArgs).GetCategoryName ≠ some ⟨false⟩ →
      (Log E M UniqueIdentifier Location LogArgs Format Args).2 =
        Call.FormatMessage Format Args ::
          VisualLogBlock E LogArgs (ResolveCategory LogArgs)
            (LogMessage E Location LogArgs Format Args) := by
    intro h1 h2 h3
    rw [Log_calls_of_passed E M UniqueIdentifier Location LogArgs Format Args h1 h2 h3,
      if_pos (by simp [hOwner, hOnly])]
    simp
  have hNone : ∀ S : ESink, S ≠ .Formatter → S ≠ .Spatial →
      CallsTo S (Log E M UniqueIdentifier Location LogArgs Format Args).2 = [] := by
    intro S hF hS
    rcases Log_calls_cases E M UniqueIdentifier Location LogArgs Format Args with h0 | ⟨h1, h2, h3⟩
    · rw [h0]
      rfl
    · rw [hPassed h1 h2 h3, CallsTo_cons, if_neg (fun h => hF h.symm),
        CallsTo_VisualLogBlock _ _ _ _ _ hS]
  refine ⟨⟨hNone _ (by decide) (by decide), hNone _ (by decide) (by decide),
    hNone _ (by decide) (by decide), hNone _ (by decide) (by decide),
    hNone _ (by decide) (by decide), hNone _ (by decide) (by decide)⟩, ?_⟩
  intro hRec
  have hV : VisualLogBlock E LogArgs (ResolveCategory LogArgs)
      (LogMessage E Location LogArgs Format Args) = [] := by
    simp [VisualLogBlock, hOwner, hRec]
  constructor
  · rcases Log_calls_cases E M UniqueIdentifier Location LogArgs Format Args with h0 | ⟨h1, h2, h3⟩
    · rw [h0]
      rfl
    · rw [hPassed h1 h2 h3, hV]
      rfl
  · intro h1 h2 h3
    rw [hPassed h1 h2 h3, hV]

/-- Witness of C29: a sphere with the default only-visual-logger flag, sent to the
screen and the console while the visual logger is recording, reaches neither. -/
theorem Log_only_visual_logger_witness :
    ((({} : DbgLogArgs).ScreenAndConsole).VisualLogSphere (some 1) ⟨1, 2, 3⟩
      50).VisualLoggerOwnerValue = some 1 ∧
    ((({} : DbgLogArgs).ScreenAndConsole).VisualLogSphere (some 1) ⟨1, 2, 3⟩
      50).bOnlyUseVisualLogger = true ∧
    CallsTo .Console
      (Log Engine.Example FDbgLogSingleton 7 SourceLocation.Example
        ((({} : DbgLogArgs).ScreenAndConsole).VisualLogSphere (some 1) ⟨1, 2, 3⟩ 50)
        "Hello " ["42"]).2 = [] :=
  ⟨rfl, rfl,
    (Log_only_visual_logger Engine.Example FDbgLogSingleton 7 SourceLocation.Example
      ((({} : DbgLogArgs).ScreenAndConsole).VisualLogSphere (some 1) ⟨1, 2, 3⟩ 50)
      "Hello " ["42"] 1 rfl rfl).1.1⟩

/-- C30: a caller value equal to the unset sentinel behaves as unset. On arguments whose
screen colour is unset, `ScrnColor(Transparent)` changes nothing; on arguments whose
screen duration is unset, `ScrnDuration(d)` with `d < 0` leaves the whole of `Log` (the
map and every call) as it is without the setter. For every severity, an overlay call
made for arguments after `ScrnColor(Transparent)` carries the colour of the severity's
case, and one made after `ScrnDuration(d)` with `d < 0` the duration of the severity's
case. -/
theorem Log_sentinel_values_are_unset (E : Engine) (M : CategoryMap) (UniqueIdentifier : Int)
    (Location : SourceLocation) (LogArgs : DbgLogArgs) (Format : String) (Args : List String)
    (Duration : ℚ) :
    (LogArgs.ScreenColorValue = FColor.Transparent →
      LogArgs.ScrnColor FColor.Transparent = LogArgs ∧
      Log E M UniqueIdentifier Location (LogArgs.ScrnColor FColor.Transparent) Format Args
        = Log E M UniqueIdentifier Location LogArgs Format Args) ∧
    (LogArgs.ScreenDurationValue = -1 → Duration < 0 →
      Log E M UniqueIdentifier Location (LogArgs.ScrnDuration Duration) Format Args
        = Log E M UniqueIdentifier Location LogArgs Format Args) ∧
    (∀ (Key : Nat) (TimeToDisplay : ℚ) (DisplayColor : FColor) (Message : String),
      Call.AddOnScreenDebugMessage Key TimeToDisplay DisplayColor Message ∈
        (Log E M UniqueIdentifier Location (LogArgs.ScrnColor FColor.Transparent) Format
          Args).2 →
        DisplayColor = VerbosityCaseColor LogArgs.VerbosityValue) ∧
    (Duration < 0 →
      ∀ (Key : Nat) (TimeToDisplay : ℚ) (DisplayColor : FColor) (Message : String),
        Call.AddOnScreenDebugMessage Key TimeToDisplay DisplayColor Message ∈
          (Log E M UniqueIdentifier Location (LogArgs.ScrnDuration Duration) Format Args).2 →
          TimeToDisplay = VerbosityCaseScreenDuration LogArgs.VerbosityValue) ∧
    (VerbosityCaseColor .Verbose = FColor.White ∧ VerbosityCaseColor .Display = FColor.White ∧
      VerbosityCaseColor .Warning = FColor.Yellow ∧ VerbosityCaseColor .Error = FColor.Red ∧
      VerbosityCaseColor .Fatal = FColor.Blue ∧
      VerbosityCaseScreenDuration .Verbose = 10 ∧ VerbosityCaseScreenDuration .Display = 10 ∧
      VerbosityCaseScreenDuration .Warning = 20 ∧ VerbosityCaseScreenDuration .Error = 30 ∧
      VerbosityCaseScreenDuration .Fatal = 30) := by
  refine ⟨?_, ?_, ?_, ?_, ⟨rfl, rfl, rfl, rfl, rfl, rfl, rfl, rfl, rfl, rfl⟩⟩
  · intro hU
    have hEq : LogArgs.ScrnColor FColor.Transparent = LogArgs := by
      unfold DbgLogArgs.ScrnColor
      rw [← hU]
    exact ⟨hEq, by rw [hEq]⟩
  · intro hU hNeg
    exact Log_ScrnDuration_of_neg E M UniqueIdentifier Location LogArgs Format Args Duration
      (by rw [hU]; norm_num) hNeg
  · intro Key TimeToDisplay DisplayColor Message h
    have := (Log_overlay_mem E M UniqueIdentifier Location _ Format Args Key TimeToDisplay
      DisplayColor Message h).2
    rw [this]
    simp [DbgLogArgs.ScrnColor]
  · intro hNeg Key TimeToDisplay DisplayColor Message h
    have := (Log_overlay_mem E M UniqueIdentifier Location _ Format Args Key TimeToDisplay
      DisplayColor Message h).1
    rw [this]
    simp [DbgLogArgs.ScrnDuration, hNeg]

/-- Witness of C30: a warning sent to the screen with `ScrnDuration(-5)` and
`ScrnColor(Transparent)` reaches the overlay yellow for 20 seconds, exactly as without
the two setters. -/
theorem Log_sentinel_values_are_unset_witness :
    Log Engine.Example FDbgLogSingleton 7 SourceLocation.Example
        ((({} : DbgLogArgs).Warn.Screen).ScrnDuration (-5)) "Hello " ["42"]
      = Log Engine.Example FDbgLogSingleton 7 SourceLocation.Example
        (({} : DbgLogArgs).Warn.Screen) "Hello " ["42"] ∧
    Call.AddOnScreenDebugMessage 49 20 FColor.Yellow "Hello 42" ∈
      (Log Engine.Example FDbgLogSingleton 7 SourceLocation.Example
        (((({} : DbgLogArgs).Warn.Screen).ScrnDuration (-5)).ScrnColor FColor.Transparent)
        "Hello " ["42"]).2 :=
  ⟨(Log_sentinel_values_are_unset Engine.Example FDbgLogSingleton 7 SourceLocation.Example
      (({} : DbgLogArgs).Warn.Screen) "Hello " ["42"] (-5)).2.1 rfl (by decide),
    by decide⟩

end DBG.Log
